import Mathlib

/-!
# SD card SPI driver (`SD_Driver.c`): shallow embedding and verified properties

The driver talks to three external collaborators: the SPI peripheral (one
full-duplex byte exchange at a time), the chip-select pin and hardware timer 6.
They are modelled by a `World`:

* `miso k` is the byte the card delivers on the `k`-th byte exchange since
  power-up, `clock k` the value returned by the `k`-th read of the timer
  counter.  Both are arbitrary functions, so every deterministic card and every
  timer behaviour is covered;
* `rx` / `tk` count the exchanges / timer reads made so far;
* `trace` is the chronological log of every call that crosses the transport
  boundary (chip-select writes, byte exchanges with the byte sent and received,
  timer start/read/stop, SPI re-initialisation, delays);
* `status` and `version` are the two file-scope variables of the driver;
* `mem` is the byte-addressed memory holding the caller buffers.

Machine integers are natural numbers with explicit reductions: received bytes
are taken `% 256`, the timer counter `% 65536` (`uint16_t`), `uint8_t tries`
is `responseTries % 256`, and the `unsigned` product `512 * (count - blocksLeft)`
is taken `% 2 ^ 32`.

The two loops polling the timer (`wait_sd_ready`, the token poll of
`read_block`) have no iteration bound in the source; they take a `fuel`
argument and return `none` when it runs out.  `ClockExpires B clock` says that
among any `B` consecutive timer reads one is at least 500; under it, fuel `B`
always suffices.  Every function built on them carries the same `fuel`.
-/

set_option maxRecDepth 100000

namespace SDDriver

/-! ## Constants -/

/-- Command bytes of `SD_Driver.h`. -/
def CMD0 : Nat := 0x40 + 0
def CMD1 : Nat := 0x40 + 1
def CMD8 : Nat := 0x40 + 8
def CMD12 : Nat := 0x40 + 12
def CMD16 : Nat := 0x40 + 16
def CMD17 : Nat := 0x40 + 17
def CMD18 : Nat := 0x40 + 18
def CMD24 : Nat := 0x40 + 24
def CMD25 : Nat := 0x40 + 25
def CMD55 : Nat := 0x40 + 55
def CMD58 : Nat := 0x40 + 58
def ACMD41 : Nat := 0x40 + 41

/-- Outcome codes of `read_block` / `write_block` (`#define SUCCESS 1`, `#define FAIL 0`). -/
def SUCCESS : Nat := 1
def FAIL : Nat := 0

/-- Modelled from the spec: the `Uninitialized` flag of the session status (§3).
`diskio.h`, which declares `STA_NOINIT`, is not among the sources; `0x01` is the
value the FatFs disk layer gives it. -/
def STA_NOINIT : Nat := 0x01

/-- Modelled from the spec: the block-device outcomes `OK`, `Error`, `NotReady`,
`ParamError` of §6 (`DRESULT` of the absent `diskio.h`, which also has the
write-protect code the driver never returns). -/
inductive DRESULT
  | RES_OK
  | RES_ERROR
  | RES_WRPRT
  | RES_NOTRDY
  | RES_PARERR
  deriving DecidableEq, Repr

open DRESULT

/-! ## The transport boundary -/

/-- One call across the transport boundary. -/
inductive Event
  | cs_low                       -- `HAL_GPIO_WritePin(.., 0)`: chip-select asserted
  | cs_high                      -- `HAL_GPIO_WritePin(.., 1)`: chip-select deasserted
  | xfer (tx rx : Nat)           -- `HAL_SPI_TransmitReceive` of one byte
  | tim_start                    -- counter := 0, timer started
  | tim_read (v : Nat)           -- `__HAL_TIM_GET_COUNTER`
  | tim_stop
  | spi_init (prescaler : Nat)   -- `HAL_SPI_Init` with the given baud-rate prescaler
  | delay (ms : Nat)             -- `HAL_Delay`
  deriving DecidableEq, Repr

structure World where
  miso : Nat → Nat
  clock : Nat → Nat
  rx : Nat
  tk : Nat
  trace : List Event
  status : Nat
  version : Nat
  mem : Nat → Nat

/-- Log one event. -/
def emit (e : Event) (w : World) : World :=
  { w with trace := w.trace ++ [e] }

/-- `select()`: asserts chip-select. -/
def select (w : World) : World := emit Event.cs_low w

/-- `deselect()`: de-asserts chip-select. -/
def deselect (w : World) : World := emit Event.cs_high w

/-- `start_timer()`. -/
def start_timer (w : World) : World := emit Event.tim_start w

/-- `get_timer_val()`: the next counter reading, as a `uint16_t`. -/
def get_timer_val (w : World) : Nat × World :=
  (w.clock w.tk % 65536,
   { w with tk := w.tk + 1, trace := w.trace ++ [Event.tim_read (w.clock w.tk % 65536)] })

/-- `stop_timer()`. -/
def stop_timer (w : World) : World := emit Event.tim_stop w

/-- `exchange_byte(&sendByte)`: one full-duplex exchange; returns the byte received.
The busy-wait on `HAL_SPI_GetState` is taken to end (the peripheral becomes idle);
a `HAL_SPI_TransmitReceive` that times out still yields a byte, like any other
exchange. -/
def exchange_byte (sendByte : Nat) (w : World) : Nat × World :=
  (w.miso w.rx % 256,
   { w with rx := w.rx + 1, trace := w.trace ++ [Event.xfer sendByte (w.miso w.rx % 256)] })

/-- `receive_byte()`: exchange with MOSI held high. -/
def receive_byte (w : World) : Nat × World := exchange_byte 0xFF w

/-- The loop `while(res != 0xFF && get_timer_val() < 500) res = receive_byte();`. -/
def wait_sd_ready_loop : Nat → Nat → World → Option (Nat × World)
  | 0, _, _ => none
  | fuel + 1, res, w =>
    if res ≠ 0xFF then
      if (get_timer_val w).1 < 500 then
        wait_sd_ready_loop fuel (receive_byte (get_timer_val w).2).1
          (receive_byte (get_timer_val w).2).2
      else some (res, (get_timer_val w).2)
    else some (res, w)

/-- `wait_sd_ready()`: `0xFF` if the card reported ready, `0` on timeout. -/
def wait_sd_ready (fuel : Nat) (w : World) : Option (Nat × World) :=
  match wait_sd_ready_loop fuel 0 (start_timer w) with
  | none => none
  | some (res, w1) => if res = 0xFF then some (res, stop_timer w1) else some (0, stop_timer w1)

/-! ## Command protocol -/

/-- The loop `while(tries && (res & 0x80)) { tries--; res = receive_byte(); }`. -/
def response_loop : Nat → Nat → World → Nat × World
  | 0, res, w => (res, w)
  | tries + 1, res, w =>
    if res &&& 0x80 ≠ 0 then response_loop tries (receive_byte w).1 (receive_byte w).2
    else (res, w)

/-- The CMD0 loop `while(count && res != 0x01) { count--; res = receive_byte(); }`. -/
def idle_loop : Nat → Nat → World → Nat × World
  | 0, res, w => (res, w)
  | count + 1, res, w =>
    if res ≠ 0x01 then idle_loop count (receive_byte w).1 (receive_byte w).2
    else (res, w)

/-- The CRC byte chosen by `send_command`. -/
def crc_of (cmd : Nat) : Nat :=
  let crc := if cmd = CMD0 then 0x95 else 0
  if cmd = CMD8 then 0x87 else crc

/-- `arg_bytes[i]` of `send_command`. -/
def arg_byte (arg : Nat) (i : Nat) : Nat := (arg >>> (8 * (3 - i))) % 256

/-- The command frame of `send_command`: the command byte, `arg_bytes[0..3]`, the CRC. -/
def transmit_frame (cmd arg : Nat) (w : World) : World :=
  let w1 := (exchange_byte cmd w).2
  let w2 := (exchange_byte (arg_byte arg 0) w1).2
  let w3 := (exchange_byte (arg_byte arg 1) w2).2
  let w4 := (exchange_byte (arg_byte arg 2) w3).2
  let w5 := (exchange_byte (arg_byte arg 3) w4).2
  (exchange_byte (crc_of cmd) w5).2

/-- Response collection of `send_command`: `uint8_t tries = responseTries`, the
poll for a byte with bit 7 clear starting from `res = 0xFF`, and for CMD0 the
further poll for `0x01`. -/
def collect_response (cmd responseTries : Nat) (w : World) : Nat × World :=
  let r := response_loop (responseTries % 256) 0xFF w
  if cmd = CMD0 then idle_loop 1000 r.1 r.2 else r

/-- The part of `send_command` that runs once the card is ready (or `cmd` is
CMD0): frame, response collection, extended response.  `ocr_buffer` is the
content of the destination, `none` for a `NULL` pointer; the new content is
returned next to the status byte. -/
def send_frame (cmd arg responseTries : Nat) (ocr_buffer : Option Nat) (w : World) :
    (Nat × Option Nat) × World :=
  let r1 := collect_response cmd responseTries (transmit_frame cmd arg w)
  if cmd = CMD8 ∨ cmd = CMD58 then
    let o0 := receive_byte r1.2
    let o1 := receive_byte o0.2
    let o2 := receive_byte o1.2
    let o3 := receive_byte o2.2
    match ocr_buffer with
    | none => ((0xFF, none), o3.2)
    | some _ =>
      ((r1.1, some ((o0.1 <<< 24 ||| o1.1 <<< 16 ||| o2.1 <<< 8 ||| o3.1) % 2 ^ 32)), o3.2)
  else ((r1.1, ocr_buffer), r1.2)

/-- `send_command(cmd, arg, responseTries, ocr_buffer)`. -/
def send_command (fuel : Nat) (cmd arg responseTries : Nat) (ocr_buffer : Option Nat)
    (w : World) : Option ((Nat × Option Nat) × World) :=
  if cmd = CMD0 then some (send_frame cmd arg responseTries ocr_buffer w)
  else
    match wait_sd_ready fuel w with
    | none => none
    | some (rdy, w1) =>
      if rdy ≠ 0 then some (send_frame cmd arg responseTries ocr_buffer w1)
      else some ((0xFF, ocr_buffer), w1)

/-! ## Block transfer -/

/-- The loop `while(token == 0xFF && get_timer_val() < 500) token = receive_byte();`. -/
def token_loop : Nat → Nat → World → Option (Nat × World)
  | 0, _, _ => none
  | fuel + 1, token, w =>
    if token = 0xFF then
      if (get_timer_val w).1 < 500 then
        token_loop fuel (receive_byte (get_timer_val w).2).1 (receive_byte (get_timer_val w).2).2
      else some (token, (get_timer_val w).2)
    else some (token, w)

/-- The loop storing the data block:
`while(bytesLeft) { *(buff + (buffsize - bytesLeft)) = receive_byte(); bytesLeft--; }`. -/
def read_data_loop (buff buffsize : Nat) : Nat → World → World
  | 0, w => w
  | bytesLeft + 1, w =>
    read_data_loop buff buffsize bytesLeft
      { (receive_byte w).2 with
        mem := Function.update (receive_byte w).2.mem (buff + (buffsize - (bytesLeft + 1)))
                 (receive_byte w).1 }

/-- `read_block(buff, buffsize)`; `buff` is the address of the destination. -/
def read_block (fuel : Nat) (buff buffsize : Nat) (w : World) : Option (Nat × World) :=
  match token_loop fuel 0xFF (start_timer w) with
  | none => none
  | some (token, w1) =>
    if token ≠ 0xFE then some (FAIL, w1)
    else
      let w2 := read_data_loop buff buffsize buffsize w1
      let w3 := (receive_byte w2).2
      let w4 := (receive_byte w3).2
      some (SUCCESS, w4)

/-- The loop sending the data block:
`while(bytesLeft) { exchange_byte(buff + (buffsize - bytesLeft)); bytesLeft--; }`. -/
def write_data_loop (buff buffsize : Nat) : Nat → World → World
  | 0, w => w
  | bytesLeft + 1, w =>
    write_data_loop buff buffsize bytesLeft
      (exchange_byte (w.mem (buff + (buffsize - (bytesLeft + 1))) % 256) w).2

/-- `write_block(buff, buffsize, token)`; `token` is the byte `*token`. -/
def write_block (fuel : Nat) (buff buffsize token : Nat) (w : World) : Option (Nat × World) :=
  match wait_sd_ready fuel w with
  | none => none
  | some (_, w1) =>
    let w2 := (exchange_byte token w1).2
    let w3 := write_data_loop buff buffsize buffsize w2
    let w4 := (exchange_byte 0 w3).2
    let w5 := (exchange_byte 0 w4).2
    let dataResponse := (receive_byte w5).1
    match wait_sd_ready fuel (receive_byte w5).2 with
    | none => none
    | some (_, w7) =>
      if dataResponse &&& 0x0F = 5 then some (SUCCESS, w7) else some (FAIL, w7)

/-! ## Driver facade -/

/-- `status_sd()`. -/
def status_sd (w : World) : Nat := w.status

/-- The loop over `blocksLeft` of the multiple-block read; `false` is the early
`return RES_ERROR` after a failed `read_block`.  The offset
`512 * (count - blocksLeft)` is an `unsigned` 32-bit product. -/
def read_blocks_loop (fuel buff count : Nat) : Nat → World → Option (Bool × World)
  | 0, w => some (true, w)
  | blocksLeft + 1, w =>
    match read_block fuel (buff + (512 * (count - (blocksLeft + 1))) % 2 ^ 32) 512 w with
    | none => none
    | some (st, w1) =>
      if st = FAIL then some (false, w1) else read_blocks_loop fuel buff count blocksLeft w1

/-- `read_sd(pdrv, buff, sector, count)`; `buff` is the address of the caller
buffer, `uint32_t blocksLeft = count` starts the block loop. -/
def read_sd (fuel : Nat) (pdrv buff sector count : Nat) (w : World) : Option (DRESULT × World) :=
  if w.status = STA_NOINIT then some (RES_NOTRDY, w)
  else if pdrv ≠ 0 ∨ count = 0 then some (RES_PARERR, w)
  else
    match wait_sd_ready fuel (select w) with
    | none => none
    | some (_, w1) =>
      if count = 1 then
        match send_command fuel CMD17 sector 10 none w1 with
        | none => none
        | some (res, w2) =>
          if res.1 = 0 then
            match read_block fuel buff 512 w2 with
            | none => none
            | some (st, w3) =>
              if st ≠ 0 then some (RES_OK, deselect w3) else some (RES_ERROR, deselect w3)
          else some (RES_ERROR, deselect w2)
      else
        match send_command fuel CMD18 sector 10 none w1 with
        | none => none
        | some (res, w2) =>
          if res.1 = 0 then
            match read_blocks_loop fuel buff count (count % 2 ^ 32) w2 with
            | none => none
            | some (ok, w3) =>
              if ok then
                match send_command fuel CMD12 0 10 none w3 with
                | none => none
                | some (_, w4) =>
                  match wait_sd_ready fuel (receive_byte w4).2 with
                  | none => none
                  | some (_, w6) =>
                    if (receive_byte w4).1 = 0 then some (RES_OK, deselect w6)
                    else some (RES_ERROR, deselect w6)
              else some (RES_ERROR, deselect w3)
          else some (RES_ERROR, deselect w2)

/-- The loop over `blocksLeft` of the multiple-block write. -/
def write_blocks_loop (fuel buff count : Nat) : Nat → World → Option (Bool × World)
  | 0, w => some (true, w)
  | blocksLeft + 1, w =>
    match write_block fuel (buff + (512 * (count - (blocksLeft + 1))) % 2 ^ 32) 512 0xFC w with
    | none => none
    | some (st, w1) =>
      if st = 0 then some (false, w1) else write_blocks_loop fuel buff count blocksLeft w1

/-- `write_sd(pdrv, buff, sector, count)`. -/
def write_sd (fuel : Nat) (pdrv buff sector count : Nat) (w : World) : Option (DRESULT × World) :=
  if w.status = STA_NOINIT then some (RES_NOTRDY, w)
  else if pdrv ≠ 0 ∨ count = 0 then some (RES_PARERR, w)
  else
    if count = 1 then
      match send_command fuel CMD24 sector 10 none (select w) with
      | none => none
      | some (res, w2) =>
        if res.1 = 0 then
          match write_block fuel buff 512 0xFE w2 with
          | none => none
          | some (st, w3) =>
            if st ≠ 0 then some (RES_OK, deselect w3) else some (RES_ERROR, deselect w3)
        else some (RES_ERROR, deselect w2)
    else
      match send_command fuel CMD25 sector 10 none (select w) with
      | none => none
      | some (res, w2) =>
        if res.1 = 0 then
          match write_blocks_loop fuel buff count (count % 2 ^ 32) w2 with
          | none => none
          | some (ok, w3) =>
            if ok then
              match wait_sd_ready fuel (receive_byte (exchange_byte 0xFD w3).2).2 with
              | none => none
              | some (_, w6) => some (RES_OK, deselect w6)
            else some (RES_ERROR, deselect w3)
        else some (RES_ERROR, deselect w2)

/-- The loop `for(int i = 0; i < 100; i++) exchange_byte(&dummyData);`, counted down. -/
def dummy_clocks : Nat → World → World
  | 0, w => w
  | n + 1, w => dummy_clocks n (exchange_byte 0xFF w).2

/-- The legacy-branch loop trying to initiate the card as SD version 1:
`while(res == 0x01 && timeout) { timeout--; CMD55; res = ACMD41(0); }`. -/
def sd1_loop (fuel : Nat) : Nat → Nat → World → Option (Nat × World)
  | 0, res, w => some (res, w)
  | timeout + 1, res, w =>
    if res = 0x01 then
      match send_command fuel CMD55 0 10 none w with
      | none => none
      | some (_, w1) =>
        match send_command fuel ACMD41 0 10 none w1 with
        | none => none
        | some (r, w2) => sd1_loop fuel timeout r.1 w2
    else some (res, w)

/-- The legacy-branch loop trying to initiate the card as MMC version 3:
`while(res == 0x01 && timeout) { timeout--; res = CMD1; }`. -/
def mmc_loop (fuel : Nat) : Nat → Nat → World → Option (Nat × World)
  | 0, res, w => some (res, w)
  | timeout + 1, res, w =>
    if res = 0x01 then
      match send_command fuel CMD1 0 10 none w with
      | none => none
      | some (r, w1) => mmc_loop fuel timeout r.1 w1
    else some (res, w)

/-- The SD version 2+ loop
`while(res == 0x01 && timeout) { timeout--; CMD55; res = ACMD41(0x40000000); }`;
returns `res` and the final value of `timeout`. -/
def sd2_loop (fuel : Nat) : Nat → Nat → World → Option ((Nat × Nat) × World)
  | 0, res, w => some ((res, 0), w)
  | timeout + 1, res, w =>
    if res = 0x01 then
      match send_command fuel CMD55 0 10 none w with
      | none => none
      | some (_, w1) =>
        match send_command fuel ACMD41 0x40000000 10 none w1 with
        | none => none
        | some (r, w2) => sd2_loop fuel timeout r.1 w2
    else some ((res, timeout + 1), w)

/-- The exit `version = 0; status = STA_NOINIT; deselect(); return status;`. -/
def init_failed (w : World) : Nat × World :=
  (STA_NOINIT, deselect { w with version := 0, status := STA_NOINIT })

/-- The assignment `status &= ~STA_NOINIT;` on the byte `status`. -/
def clear_noinit (w : World) : World :=
  { w with status := w.status &&& (0xFF - STA_NOINIT) }

/-- The tail `res = CMD16(0x200); if(res == 0) status &= ~STA_NOINIT; deselect(); return status;`
of the legacy branch. -/
def set_blocklen (fuel : Nat) (w : World) : Option (Nat × World) :=
  match send_command fuel CMD16 0x00000200 10 none w with
  | none => none
  | some (r, w1) =>
    if r.1 = 0 then some ((clear_noinit w1).status, deselect (clear_noinit w1))
    else some (w1.status, deselect w1)

/-- Branch of `initialize_sd` for SD version 1 and MMC version 3 (CMD8 not answered `0x01`). -/
def legacy_path (fuel : Nat) (w : World) : Option (Nat × World) :=
  match send_command fuel CMD55 0 10 none w with
  | none => none
  | some (_, w1) =>
    match send_command fuel ACMD41 0 10 none w1 with
    | none => none
    | some (r, w2) =>
      match sd1_loop fuel 10000 r.1 w2 with
      | none => none
      | some (res, w3) =>
        if res ≠ 0 then
          match send_command fuel CMD1 0 10 none w3 with
          | none => none
          | some (_, w4) =>
            match mmc_loop fuel 10000 res w4 with
            | none => none
            | some (res1, w5) =>
              if res1 ≠ 0 then some (init_failed w5)
              else set_blocklen fuel { w5 with version := 1 }
        else set_blocklen fuel { w3 with version := 2 }

/-- Branch of `initialize_sd` for SD version 2+ (CMD8 answered `0x01`); `ocr` is
the extended response of CMD8. -/
def voltage_path (fuel : Nat) (res ocr : Nat) (w : World) : Option (Nat × World) :=
  if ocr &&& 0x00000FFF ≠ 0x1AA then some (init_failed w)
  else
    match sd2_loop fuel 10000 res w with
    | none => none
    | some (rt, w1) =>
      if rt.2 = 0 then some (init_failed w1)
      else
        match send_command fuel CMD58 0 10 (some ocr) w1 with
        | none => none
        | some (r58, w2) =>
          if r58.1 = 0 ∧ (r58.2.getD ocr) &&& 0x40000000 = 0 then
            match send_command fuel CMD16 0x00000200 10 none w2 with
            | none => none
            | some (r16, w3) =>
              if r16.1 = 0 then
                some ((clear_noinit { w3 with version := 3 }).status,
                      deselect (clear_noinit { w3 with version := 3 }))
              else some (w3.status, deselect w3)
          else
            if r58.1 = 0 then
              some ((clear_noinit { w2 with version := 3 }).status,
                    deselect (clear_noinit { w2 with version := 3 }))
            else some (w2.status, deselect w2)

/-- The opening of `initialize_sd` (`ENTER NATIVE MODE`): bus released, SPI at
prescaler 256, 100 dummy exchanges, SPI back at prescaler 8, bus claimed. -/
def enter_native_mode (w : World) : World :=
  let w1 := deselect w
  let w2 := emit (Event.delay 1) (emit (Event.spi_init 256) w1)
  let w3 := dummy_clocks 100 w2
  let w4 := emit (Event.delay 1) (emit (Event.spi_init 8) w3)
  select w4

/-- `initialize_sd()`. -/
def initialize_sd (fuel : Nat) (w : World) : Option (Nat × World) :=
  match send_command fuel CMD0 0 100 none (enter_native_mode w) with
  | none => none
  | some (r0, w6) =>
    if r0.1 = 0x01 then
      match send_command fuel CMD8 0x000001AA 100 (some 0) w6 with
      | none => none
      | some (r8, w7) =>
        if r8.1 ≠ 0x01 then legacy_path fuel w7
        else voltage_path fuel r8.1 (r8.2.getD 0) w7
    else some (w6.status, deselect w6)

/-- `ioctl_sd`: always `RES_ERROR`. -/
def ioctl_sd (_pdrv _cmd : Nat) (w : World) : DRESULT × World := (RES_ERROR, w)

/-! ## Specification vocabulary -/

/-- The timer keeps running: among any `B` consecutive counter reads one is at
least 500 (as a 16-bit value). -/
def ClockExpires (B : Nat) (clock : Nat → Nat) : Prop :=
  ∀ n, ∃ k, k < B ∧ 500 ≤ clock (n + k) % 65536

/-- Chip-select writes. -/
def Event.isCS : Event → Bool
  | Event.cs_low => true
  | Event.cs_high => true
  | _ => false

/-- Level of the chip-select line after the events `t`, starting from level `lvl`
(`true` = asserted): the last chip-select write decides. -/
def cs_level (lvl : Bool) (t : List Event) : Bool :=
  t.foldl (fun l e => match e with
    | Event.cs_low => true
    | Event.cs_high => false
    | _ => l) lvl

/-- Between `w` and `w'` the trace grew by events whose chip-select writes are,
in order, `cs`. -/
def CsTrace (w w' : World) (cs : List Event) : Prop :=
  ∃ evs, w'.trace = w.trace ++ evs ∧ evs.filter Event.isCS = cs

/-- The world `w'` is a continuation of `w` in which the driver variables and the
chip-select line were left alone: same card, same timer, same `status` and
`version`, and the trace grew by events none of which is a chip-select write. -/
structure Quiet (w w' : World) : Prop where
  miso : w'.miso = w.miso
  clock : w'.clock = w.clock
  status : w'.status = w.status
  version : w'.version = w.version
  rx : w.rx ≤ w'.rx
  tk : w.tk ≤ w'.tk
  trace : CsTrace w w' []

/-- A quiet continuation that also left the memory alone. -/
structure Still (w w' : World) extends Quiet w w' : Prop where
  mem : w'.mem = w.mem

/-- Reading `n` sectors one at a time: `read_sd(0, buff + 512*i, sector + i, 1)` for
`i = 0 .. n-1`, each call into the next 512-byte slot of the buffer.  The result is
`true` when every call returned `RES_OK`; the sequence stops at the first call
that did not. -/
def single_reads (fuel buff sector : Nat) : Nat → World → Option (Bool × World)
  | 0, w => some (true, w)
  | n + 1, w =>
    match single_reads fuel buff sector n w with
    | none => none
    | some (ok, w1) =>
      if ok then
        match read_sd fuel 0 (buff + 512 * n) ((sector + n) % 2 ^ 32) 1 w1 with
        | none => none
        | some (r, w2) => some (decide (r = RES_OK), w2)
      else some (false, w1)

/-- Between `w` and `w'` the card delivered the data blocks number `lo .. hi - 1`
of the buffer at `buff`: block `i` was announced by a start token `0xFE` at stream
position `tok i`, the 512 bytes following the token are what `w'` holds at
`buff + 512*i ..`, the blocks arrived in order without overlapping (a block takes
515 stream bytes: token, data, two CRC bytes), and the memory outside
`buff + 512*lo .. buff + 512*hi - 1` is as in `w`. -/
structure Blocks (w w' : World) (buff lo hi : Nat) (tok : Nat → Nat) : Prop where
  miso : w'.miso = w.miso
  mono : w.rx ≤ w'.rx
  range : ∀ i, lo ≤ i → i < hi → w.rx ≤ tok i ∧ tok i + 515 ≤ w'.rx
  token : ∀ i, lo ≤ i → i < hi → w.miso (tok i) % 256 = 0xFE
  data : ∀ i j, lo ≤ i → i < hi → j < 512 →
    w'.mem (buff + 512 * i + j) = w.miso (tok i + 1 + j) % 256
  order : ∀ i, lo ≤ i → i + 1 < hi → tok i + 515 ≤ tok (i + 1)
  rest : ∀ a, (a < buff + 512 * lo ∨ buff + 512 * hi ≤ a) → w'.mem a = w.mem a

/-- The call that led from `w` to `w'` released the bus: if it asserted chip-select
at all, its last chip-select write is a deassert; and the line is deasserted in
`w'` if it was in `w`. -/
def ReleasesBus (w w' : World) : Prop :=
  ∃ evs, w'.trace = w.trace ++ evs ∧
    (Event.cs_low ∈ evs → (evs.filter Event.isCS).getLast? = some Event.cs_high) ∧
    (cs_level false w.trace = false → cs_level false w'.trace = false)

/-- Session invariant: the status is `STA_NOINIT`, or it is 0 (Ready) and the
version is MMCv3 (1), SDv1 (2) or SDv2+ (3). -/
def SessionOK (w : World) : Prop :=
  w.status = STA_NOINIT ∨ (w.status = 0 ∧ (w.version = 1 ∨ w.version = 2 ∨ w.version = 3))

/-- The four ways `initialize_sd` can leave the session variables: an explicit
failure exit (`version = 0; status = STA_NOINIT`); the legacy branch, which has
set the version to 1 or 2 and cleared `STA_NOINIT` only if CMD16 succeeded; the
SD version 2+ branch completed (`version = 3`, `STA_NOINIT` cleared); or nothing
written at all. -/
def InitOutcome (w w' : World) : Prop :=
  (w'.version = 0 ∧ w'.status = STA_NOINIT) ∨
  ((w'.version = 1 ∨ w'.version = 2) ∧
    (w'.status = w.status ∨ w'.status = w.status &&& (0xFF - STA_NOINIT))) ∨
  (w'.version = 3 ∧ w'.status = w.status &&& (0xFF - STA_NOINIT)) ∨
  (w'.version = w.version ∧ w'.status = w.status)

/-- The world after a card-ready wait that saw `0xFF` on its first poll: timer
started, one counter read, one byte received, timer stopped. -/
def after_ready (w : World) : World :=
  stop_timer (receive_byte (get_timer_val (start_timer w)).2).2

/-- Between `w` and `w'` the driver has done nothing but read bytes: the trace
grew by exchanges that send the idle pattern `0xFF`. -/
def Reads (w w' : World) : Prop :=
  ∃ rest, w'.trace = w.trace ++ rest ∧ ∀ e ∈ rest, ∃ b, e = Event.xfer 0xFF b

/-- Value of the 32-bit pattern `x` read as a C `int` (two's complement). -/
def as_int32 (x : Nat) : Int :=
  if x % 2 ^ 32 < 2 ^ 31 then ((x % 2 ^ 32 : Nat) : Int) else ((x % 2 ^ 32 : Nat) : Int) - 2 ^ 32

/-- Conversion of a C `int` to `uint32_t`. -/
def as_uint32 (i : Int) : Nat := (i % 2 ^ 32).toNat

/-- The answers (status byte and destination content) the card gives to a sequence
of commands sent one after the other with `send_command`; a command is given as
command byte, argument, response tries and destination. -/
def transcript (fuel : Nat) :
    List (Nat × Nat × Nat × Option Nat) → World → Option (List (Nat × Option Nat))
  | [], _ => some []
  | c :: rest, w =>
    match send_command fuel c.1 c.2.1 c.2.2.1 c.2.2.2 w with
    | none => none
    | some (r, w1) => (transcript fuel rest w1).map (fun l => r :: l)

/-- The assignment `version = v;`. -/
def set_version (v : Nat) (w : World) : World := { w with version := v }

/-- The card answers `0x01` to `k` consecutive rounds of CMD55 + ACMD41(`arg`),
which lead from the world `w` to the world `w'`. -/
def IdleRounds (fuel arg : Nat) : Nat → World → World → Prop
  | 0, w, w' => w' = w
  | k + 1, w, w' =>
    ∃ c w1 w2, send_command fuel CMD55 0 10 none w = some (c, w1) ∧
      send_command fuel ACMD41 arg 10 none w1 = some ((0x01, none), w2) ∧
      IdleRounds fuel arg k w2 w'

/-! ## Concrete cards used to instantiate the theorems -/

/-- A session that was never initialised, in front of a silent bus. -/
def fresh : World :=
  { miso := fun _ => 0xFF, clock := fun k => k, rx := 0, tk := 0, trace := [],
    status := STA_NOINIT, version := 0, mem := fun _ => 0 }

/-- A ready session (SD version 1) in front of a silent bus. -/
def ready_idle : World := { fresh with status := 0, version := 2 }

/-- A card answering a two-sector read: ready, CMD18 accepted, two data blocks
(start token, 512 data bytes, two CRC bytes each), CMD12 accepted, a zero byte,
then ready again. -/
def two_block_card (k : Nat) : Nat :=
  if k < 2 then 0xFF
  else if k < 9 then 0
  else if k < 1039 then (if k = 9 ∨ k = 524 then 0xFE else k)
  else if k = 1039 then 0xFF
  else if k < 1048 then 0
  else 0xFF

/-- A ready session in front of `two_block_card`. -/
def two_block_world : World := { ready_idle with miso := two_block_card }

/-- A legacy (SD version 1) card during `initialize_sd`: always ready, CMD0
answered `0x01`, CMD8 rejected with `0x05`, CMD55 answered `0x01`, ACMD41
answered `0x00`, CMD16 answered `r16`. -/
def legacy_card (r16 : Nat) (k : Nat) : Nat :=
  if k = 106 then 0x01
  else if k = 114 then 0x05
  else if k = 126 then 0x01
  else if k = 134 then 0x00
  else if k = 142 then r16
  else 0xFF

/-- A fresh session in front of `legacy_card r16`. -/
def legacy_world (r16 : Nat) : World := { fresh with miso := legacy_card r16 }

/-- A card that is ready at once and answers the command with status `0x00`,
followed by the bytes `0x00 0x00 0x01 0xAA`. -/
def accepting_card (k : Nat) : Nat :=
  if k = 0 then 0xFF
  else if k < 10 then 0
  else if k = 10 then 0x01
  else if k = 11 then 0xAA
  else 0xFF

/-- A ready session in front of `accepting_card`. -/
def accepting_world : World := { ready_idle with miso := accepting_card }

/-- The world `accepting_world` after its card-ready wait. -/
def accepting_ready : World := after_ready accepting_world

/-- A card that is ready at once, takes the token, four data bytes and the CRC,
and answers with the data response `0x0E` (write error). -/
def rejecting_card (k : Nat) : Nat :=
  if k = 8 then 0x0E else 0xFF

/-- A ready session in front of `rejecting_card`. -/
def rejecting_world : World := { ready_idle with miso := rejecting_card }

/-- A card answering a read of `n` sectors: ready, CMD18 accepted, `n` data blocks
(start token `0xFE`, 512 data bytes `0x01`, two CRC bytes), ready again, CMD12
accepted, a zero byte, ready. -/
def streaming_card (n : Nat) (k : Nat) : Nat :=
  if k < 2 then 0xFF
  else if k < 9 then 0
  else if k < 9 + 515 * n then (if (k - 9) % 515 = 0 then 0xFE else 0x01)
  else if k = 9 + 515 * n then 0xFF
  else if k < 9 + 515 * n + 9 then 0
  else 0xFF

/-- A ready session in front of `streaming_card n`, with a timer that stays at 0
and a memory filled with the byte 7. -/
def streaming_world (n : Nat) : World :=
  { miso := streaming_card n, clock := fun _ => 0, rx := 0, tk := 0, trace := [],
    status := 0, version := 2, mem := fun _ => 7 }

/-- A card that is ready at once and answers the command with status `0x00`,
followed by the bytes `0xC0 0xFF 0x80 0x00` (an OCR with the busy and the
card-capacity bit set). -/
def ocr_card (k : Nat) : Nat :=
  if k = 0 then 0xFF
  else if k < 8 then 0
  else if k = 8 then 0xC0
  else if k = 9 then 0xFF
  else if k = 10 then 0x80
  else if k = 11 then 0
  else 0xFF

/-- A ready session in front of `ocr_card`. -/
def ocr_world : World := { ready_idle with miso := ocr_card }

/-- An MMC-like card during `initialize_sd`: always ready, CMD0 answered `0x01`,
CMD8, CMD55 and ACMD41 rejected with the illegal-command status `0x05`, every
later command (CMD1, CMD16) answered `0x00`. -/
def mmc_card (k : Nat) : Nat :=
  if k = 106 then 0x01
  else if k = 114 ∨ k = 126 ∨ k = 134 then 0x05
  else if k = 142 ∨ k = 150 ∨ k = 158 then 0x00
  else 0xFF

/-- A fresh session in front of `mmc_card`. -/
def mmc_world : World := { fresh with miso := mmc_card }

/-- An SD version 2 card whose ACMD41 fails: always ready, CMD0 answered `0x01`,
CMD8 answered `0x01` with echo `0x000001AA`, CMD55 answered `0x01`, ACMD41
answered with the error status `0x05`, CMD58 answered `0x00` with the OCR
`0xC0FF8000` (card-capacity bit set). -/
def acmd41_error_card (k : Nat) : Nat :=
  if k = 106 ∨ k = 114 ∨ k = 126 then 0x01
  else if k = 115 ∨ k = 116 then 0x00
  else if k = 117 then 0x01
  else if k = 118 then 0xAA
  else if k = 134 then 0x05
  else if k = 142 then 0x00
  else if k = 143 then 0xC0
  else if k = 145 then 0x80
  else if k = 146 then 0x00
  else 0xFF

/-- A fresh session in front of `acmd41_error_card`. -/
def acmd41_error_world : World := { fresh with miso := acmd41_error_card }

/-- The card `two_block_card` with the byte that follows the CMD12 exchange of a
two-sector read (stream position 1047) replaced by `b`. -/
def two_block_card_with (b : Nat) (k : Nat) : Nat :=
  if k = 1047 then b else two_block_card k

/-- A ready session in front of `two_block_card_with b`. -/
def two_block_world_with (b : Nat) : World := { ready_idle with miso := two_block_card_with b }

/-- A card seen by `initialize_sd`, always ready and answering on the first
response poll: CMD0 answered `0x01`, CMD8 answered `r8` with echo `0x000001AA`,
then `idle` rounds of CMD55 + ACMD41 answered `0x01` / `0x01` and one more round
answered `0x01` / `0x00`, then one command (CMD16 or CMD58) answered `0x00`,
followed by the bytes `0xC0 0xFF 0x80 0x00`.  The exchanges of `initialize_sd`
before the rounds take the stream positions `0 .. 118`, a round takes 16. -/
def init_card (r8 idle : Nat) (k : Nat) : Nat :=
  if k < 106 then 0xFF
  else if k = 106 then 0x01
  else if k < 114 then 0xFF
  else if k = 114 then r8
  else if k < 119 then (if k = 117 then 0x01 else if k = 118 then 0xAA else 0x00)
  else if k < 119 + 16 * (idle + 1) then
    (if (k - 119) % 16 = 7 then 0x01
     else if (k - 119) % 16 = 15 then (if (k - 119) / 16 < idle then 0x01 else 0x00)
     else 0xFF)
  else if k = 119 + 16 * (idle + 1) + 7 then 0x00
  else if k = 119 + 16 * (idle + 1) + 8 then 0xC0
  else if k = 119 + 16 * (idle + 1) + 10 then 0x80
  else if k = 119 + 16 * (idle + 1) + 11 then 0x00
  else 0xFF

/-- A fresh session in front of `init_card r8 idle`, with a timer that stays at 0. -/
def init_world (r8 idle : Nat) : World :=
  { miso := init_card r8 idle, clock := fun _ => 0, rx := 0, tk := 0, trace := [],
    status := STA_NOINIT, version := 0, mem := fun _ => 0 }

/-! # Lemmas -/

/-! ## Transport primitives -/

@[simp] theorem emit_miso (e : Event) (w : World) : (emit e w).miso = w.miso := rfl
@[simp] theorem emit_clock (e : Event) (w : World) : (emit e w).clock = w.clock := rfl
@[simp] theorem emit_rx (e : Event) (w : World) : (emit e w).rx = w.rx := rfl
@[simp] theorem emit_tk (e : Event) (w : World) : (emit e w).tk = w.tk := rfl
@[simp] theorem emit_trace (e : Event) (w : World) : (emit e w).trace = w.trace ++ [e] := rfl
@[simp] theorem emit_status (e : Event) (w : World) : (emit e w).status = w.status := rfl
@[simp] theorem emit_version (e : Event) (w : World) : (emit e w).version = w.version := rfl
@[simp] theorem emit_mem (e : Event) (w : World) : (emit e w).mem = w.mem := rfl

theorem CsTrace.nil (w : World) : CsTrace w w [] := ⟨[], by simp, rfl⟩

theorem CsTrace.cat {a b c : World} {c1 c2 : List Event} (h1 : CsTrace a b c1)
    (h2 : CsTrace b c c2) : CsTrace a c (c1 ++ c2) := by
  obtain ⟨e1, t1, q1⟩ := h1
  obtain ⟨e2, t2, q2⟩ := h2
  exact ⟨e1 ++ e2, by rw [t2, t1, List.append_assoc], by rw [List.filter_append, q1, q2]⟩

theorem CsTrace.single (e : Event) (w : World) : CsTrace w (emit e w) ([e].filter Event.isCS) :=
  ⟨[e], rfl, rfl⟩

theorem Quiet.same (w : World) : Quiet w w :=
  ⟨rfl, rfl, rfl, rfl, le_rfl, le_rfl, CsTrace.nil w⟩

theorem Quiet.andThen {a b c : World} (h1 : Quiet a b) (h2 : Quiet b c) : Quiet a c :=
  ⟨h2.miso.trans h1.miso, h2.clock.trans h1.clock, h2.status.trans h1.status,
    h2.version.trans h1.version, h1.rx.trans h2.rx, h1.tk.trans h2.tk,
    by simpa using h1.trace.cat h2.trace⟩

theorem Still.here (w : World) : Still w w := ⟨Quiet.same w, rfl⟩

theorem Still.seq {a b c : World} (h1 : Still a b) (h2 : Still b c) : Still a c :=
  ⟨h1.toQuiet.andThen h2.toQuiet, h2.mem.trans h1.mem⟩

theorem still_emit (e : Event) (w : World) (he : e.isCS = false) : Still w (emit e w) :=
  ⟨⟨rfl, rfl, rfl, rfl, le_rfl, le_rfl, [e], rfl, by simp [he]⟩, rfl⟩

theorem still_exchange (b : Nat) (w : World) : Still w (exchange_byte b w).2 :=
  ⟨⟨rfl, rfl, rfl, rfl, Nat.le_succ _, le_rfl, [Event.xfer b (w.miso w.rx % 256)], rfl,
    by simp [Event.isCS]⟩, rfl⟩

theorem still_receive (w : World) : Still w (receive_byte w).2 := still_exchange 0xFF w

theorem still_timer (w : World) : Still w (get_timer_val w).2 :=
  ⟨⟨rfl, rfl, rfl, rfl, le_rfl, Nat.le_succ _, [Event.tim_read (w.clock w.tk % 65536)], rfl,
    by simp [Event.isCS]⟩, rfl⟩

/-! ## Card-ready wait -/

theorem wait_loop_still : ∀ (fuel res : Nat) (w : World) (r : Nat) (w' : World),
    wait_sd_ready_loop fuel res w = some (r, w') → Still w w' := by
  intro fuel
  induction fuel with
  | zero => intro res w r w' h; simp [wait_sd_ready_loop] at h
  | succ n ih =>
    intro res w r w' h
    rw [wait_sd_ready_loop] at h
    split at h
    · split at h
      · exact ((still_timer w).seq (still_receive _)).seq (ih _ _ _ _ h)
      · cases h; exact still_timer w
    · cases h; exact Still.here w

theorem wait_loop_total : ∀ (fuel res : Nat) (w : World),
    (∃ k, k < fuel ∧ 500 ≤ w.clock (w.tk + k) % 65536) →
    ∃ r w', wait_sd_ready_loop fuel res w = some (r, w') := by
  intro fuel
  induction fuel with
  | zero => intro res w ⟨k, hk, _⟩; omega
  | succ n ih =>
    intro res w ⟨k, hk, hc⟩
    rw [wait_sd_ready_loop]
    split
    · split
      · rename_i _ ht
        apply ih
        cases k with
        | zero => simp [get_timer_val] at ht; simp at hc; omega
        | succ k =>
          refine ⟨k, by omega, ?_⟩
          simpa [receive_byte, exchange_byte, get_timer_val, Nat.add_assoc, Nat.add_comm 1 k] using hc
      · exact ⟨_, _, rfl⟩
    · exact ⟨_, _, rfl⟩

theorem wait_still {fuel : Nat} {w : World} {r : Nat} {w' : World}
    (h : wait_sd_ready fuel w = some (r, w')) : Still w w' := by
  unfold wait_sd_ready at h
  split at h
  · cases h
  · rename_i res w1 hl
    have h1 := (still_emit Event.tim_start w rfl).seq (wait_loop_still _ _ _ _ _ hl)
    have h2 := h1.seq (still_emit Event.tim_stop w1 rfl)
    split at h <;> (cases h; exact h2)

theorem wait_total {B fuel : Nat} (w : World) (hc : ClockExpires B w.clock) (hf : B ≤ fuel) :
    ∃ r w', wait_sd_ready fuel w = some (r, w') := by
  obtain ⟨k, hk, h5⟩ := hc (start_timer w).tk
  obtain ⟨r, w1, hl⟩ := wait_loop_total fuel 0 (start_timer w) ⟨k, by omega, h5⟩
  unfold wait_sd_ready
  rw [hl]
  dsimp only
  split <;> exact ⟨_, _, rfl⟩

/-- The value returned by `wait_sd_ready` is `0xFF` or `0`. -/
theorem wait_value {fuel : Nat} {w : World} {r : Nat} {w' : World}
    (h : wait_sd_ready fuel w = some (r, w')) : r = 0xFF ∨ r = 0 := by
  unfold wait_sd_ready at h
  split at h
  · cases h
  · split at h <;> cases h
    · left; assumption
    · right; rfl

/-! ## Command protocol -/

theorem some_pair {α β : Type} {x : α × β} {a : α} {b : β} (h : some x = some (a, b)) :
    a = x.1 ∧ b = x.2 := by
  cases h; exact ⟨rfl, rfl⟩

theorem response_loop_still : ∀ (tries res : Nat) (w : World),
    Still w (response_loop tries res w).2 := by
  intro tries
  induction tries with
  | zero => intro res w; exact Still.here w
  | succ n ih =>
    intro res w
    rw [response_loop]
    split
    · exact (still_receive w).seq (ih _ _)
    · exact Still.here w

theorem idle_loop_still : ∀ (count res : Nat) (w : World),
    Still w (idle_loop count res w).2 := by
  intro count
  induction count with
  | zero => intro res w; exact Still.here w
  | succ n ih =>
    intro res w
    rw [idle_loop]
    split
    · exact (still_receive w).seq (ih _ _)
    · exact Still.here w

theorem transmit_frame_still (cmd arg : Nat) (w : World) : Still w (transmit_frame cmd arg w) :=
  (((((still_exchange _ _).seq (still_exchange _ _)).seq (still_exchange _ _)).seq
    (still_exchange _ _)).seq (still_exchange _ _)).seq (still_exchange _ _)

theorem collect_response_still (cmd tries : Nat) (w : World) :
    Still w (collect_response cmd tries w).2 := by
  unfold collect_response
  dsimp only
  split
  · exact (response_loop_still _ _ _).seq (idle_loop_still _ _ _)
  · exact response_loop_still _ _ _

theorem send_frame_still (cmd arg tries : Nat) (o : Option Nat) (w : World) :
    Still w (send_frame cmd arg tries o w).2 := by
  have h0 := (transmit_frame_still cmd arg w).seq
    (collect_response_still cmd tries (transmit_frame cmd arg w))
  have h4 := (((h0.seq (still_receive _)).seq (still_receive _)).seq
    (still_receive _)).seq (still_receive _)
  unfold send_frame
  dsimp only
  split
  · cases o with
    | none => exact h4
    | some v => exact h4
  · exact h0

theorem send_command_still {fuel cmd arg tries : Nat} {o : Option Nat} {w : World}
    {r : Nat × Option Nat} {w' : World}
    (h : send_command fuel cmd arg tries o w = some (r, w')) : Still w w' := by
  unfold send_command at h
  split at h
  · rw [(some_pair h).2]; exact send_frame_still _ _ _ _ _
  · split at h
    · cases h
    · rename_i rdy w1 hw
      split at h
      · rw [(some_pair h).2]; exact (wait_still hw).seq (send_frame_still _ _ _ _ _)
      · rw [(some_pair h).2]; exact wait_still hw

theorem send_command_total {B fuel : Nat} (cmd arg tries : Nat) (o : Option Nat) (w : World)
    (hc : ClockExpires B w.clock) (hf : B ≤ fuel) :
    ∃ r w', send_command fuel cmd arg tries o w = some (r, w') := by
  unfold send_command
  split
  · exact ⟨_, _, rfl⟩
  · obtain ⟨rdy, w1, hw⟩ := wait_total w hc hf
    rw [hw]
    dsimp only
    split <;> exact ⟨_, _, rfl⟩

/-! ## Block transfer -/

@[simp] theorem exchange_rx (b : Nat) (w : World) : (exchange_byte b w).2.rx = w.rx + 1 := rfl
@[simp] theorem exchange_tk (b : Nat) (w : World) : (exchange_byte b w).2.tk = w.tk := rfl
@[simp] theorem exchange_miso (b : Nat) (w : World) : (exchange_byte b w).2.miso = w.miso := rfl
@[simp] theorem exchange_clock (b : Nat) (w : World) :
    (exchange_byte b w).2.clock = w.clock := rfl
@[simp] theorem exchange_mem (b : Nat) (w : World) : (exchange_byte b w).2.mem = w.mem := rfl
@[simp] theorem exchange_val (b : Nat) (w : World) : (exchange_byte b w).1 = w.miso w.rx % 256 :=
  rfl
@[simp] theorem receive_rx (w : World) : (receive_byte w).2.rx = w.rx + 1 := rfl
@[simp] theorem receive_tk (w : World) : (receive_byte w).2.tk = w.tk := rfl
@[simp] theorem receive_miso (w : World) : (receive_byte w).2.miso = w.miso := rfl
@[simp] theorem receive_clock (w : World) : (receive_byte w).2.clock = w.clock := rfl
@[simp] theorem receive_mem (w : World) : (receive_byte w).2.mem = w.mem := rfl
@[simp] theorem receive_val (w : World) : (receive_byte w).1 = w.miso w.rx % 256 := rfl
@[simp] theorem timer_rx (w : World) : (get_timer_val w).2.rx = w.rx := rfl
@[simp] theorem timer_tk (w : World) : (get_timer_val w).2.tk = w.tk + 1 := rfl
@[simp] theorem timer_miso (w : World) : (get_timer_val w).2.miso = w.miso := rfl
@[simp] theorem timer_clock (w : World) : (get_timer_val w).2.clock = w.clock := rfl
@[simp] theorem timer_mem (w : World) : (get_timer_val w).2.mem = w.mem := rfl
@[simp] theorem timer_val (w : World) : (get_timer_val w).1 = w.clock w.tk % 65536 := rfl

/-- The token poll either returns at once, or it has consumed bytes and returns
the last one. -/
theorem token_loop_spec : ∀ (fuel tok : Nat) (w : World) (tok' : Nat) (w' : World),
    token_loop fuel tok w = some (tok', w') →
    Still w w' ∧ ((tok' = tok ∧ w'.rx = w.rx) ∨
      (w.rx < w'.rx ∧ tok' = w.miso (w'.rx - 1) % 256)) := by
  intro fuel
  induction fuel with
  | zero => intro tok w tok' w' h; simp [token_loop] at h
  | succ n ih =>
    intro tok w tok' w' h
    rw [token_loop] at h
    split at h
    · split at h
      · obtain ⟨hs, hd⟩ := ih _ _ _ _ h
        refine ⟨((still_timer w).seq (still_receive _)).seq hs, Or.inr ?_⟩
        simp only [receive_rx, timer_rx, receive_val, receive_miso, timer_miso] at hd
        rcases hd with ⟨h1, h2⟩ | ⟨h1, h2⟩
        · exact ⟨by omega, by rw [h1, h2]; simp⟩
        · exact ⟨by omega, h2⟩
      · obtain ⟨h1, h2⟩ := some_pair h
        rw [h1, h2]
        exact ⟨still_timer w, Or.inl ⟨rfl, rfl⟩⟩
    · obtain ⟨h1, h2⟩ := some_pair h
      rw [h1, h2]
      exact ⟨Still.here w, Or.inl ⟨rfl, rfl⟩⟩

theorem token_loop_total : ∀ (fuel tok : Nat) (w : World),
    (∃ k, k < fuel ∧ 500 ≤ w.clock (w.tk + k) % 65536) →
    ∃ r w', token_loop fuel tok w = some (r, w') := by
  intro fuel
  induction fuel with
  | zero => intro tok w ⟨k, hk, _⟩; omega
  | succ n ih =>
    intro tok w ⟨k, hk, hc⟩
    rw [token_loop]
    split
    · split
      · rename_i _ ht
        apply ih
        cases k with
        | zero => simp at ht; simp at hc; omega
        | succ k =>
          refine ⟨k, by omega, ?_⟩
          simpa [Nat.add_assoc, Nat.add_comm 1 k] using hc
      · exact ⟨_, _, rfl⟩
    · exact ⟨_, _, rfl⟩

theorem quiet_set_mem (w : World) (m : Nat → Nat) : Quiet w { w with mem := m } :=
  ⟨rfl, rfl, rfl, rfl, le_rfl, le_rfl, CsTrace.nil w⟩

/-- The data loop consumes `n` bytes and stores them, in order, in the last `n`
cells of the buffer. -/
theorem read_data_loop_spec (buff size : Nat) : ∀ (n : Nat) (w : World), n ≤ size →
    Quiet w (read_data_loop buff size n w) ∧
    (read_data_loop buff size n w).rx = w.rx + n ∧
    ∀ a, (read_data_loop buff size n w).mem a =
      if buff + (size - n) ≤ a ∧ a < buff + size
      then w.miso (w.rx + (a - (buff + (size - n)))) % 256 else w.mem a := by
  intro n
  induction n with
  | zero =>
    intro w _
    refine ⟨Quiet.same w, rfl, fun a => ?_⟩
    simp only [read_data_loop]
    rw [if_neg]; omega
  | succ n ih =>
    intro w hn
    rw [read_data_loop]
    obtain ⟨hq, hrx, hmem⟩ := ih
      { (receive_byte w).2 with
        mem := Function.update (receive_byte w).2.mem (buff + (size - (n + 1)))
                 (receive_byte w).1 } (by omega)
    refine ⟨((still_receive w).toQuiet.andThen (quiet_set_mem _ _)).andThen hq, ?_, fun a => ?_⟩
    · rw [hrx]; simp; omega
    · rw [hmem a]
      simp only [receive_miso, receive_rx, receive_mem, receive_val]
      by_cases h1 : buff + (size - n) ≤ a ∧ a < buff + size
      · rw [if_pos h1, if_pos (by omega)]
        congr 2; omega
      · rw [if_neg h1]
        by_cases h2 : a = buff + (size - (n + 1))
        · subst h2
          rw [Function.update_same, if_pos (by omega)]
          simp
        · rw [Function.update_noteq h2, if_neg (by omega)]

/-- A failed `read_block` has only polled: the memory is as before. -/
theorem read_block_fail {fuel buff size : Nat} {w : World} {st : Nat} {w' : World}
    (h : read_block fuel buff size w = some (st, w')) (hst : st = FAIL) : Still w w' := by
  unfold read_block at h
  split at h
  · cases h
  · rename_i tok w1 ht
    split at h
    · rw [(some_pair h).2]
      exact (still_emit Event.tim_start w rfl).seq (token_loop_spec _ _ _ _ _ ht).1
    · rw [(some_pair h).1] at hst
      simp [SUCCESS, FAIL] at hst

/-- A successful `read_block` found the start token `0xFE` at some stream position
`t`, stored the `size` bytes that follow it in `buff .. buff + size - 1`, and
consumed two more bytes. -/
theorem read_block_ok {fuel buff size : Nat} {w : World} {st : Nat} {w' : World}
    (h : read_block fuel buff size w = some (st, w')) (hst : st ≠ FAIL) :
    Quiet w w' ∧ ∃ t, w.rx ≤ t ∧ w.miso t % 256 = 0xFE ∧ w'.rx = t + size + 3 ∧
      ∀ a, w'.mem a =
        if buff ≤ a ∧ a < buff + size then w.miso (t + 1 + (a - buff)) % 256 else w.mem a := by
  unfold read_block at h
  split at h
  · cases h
  · rename_i tok w1 ht
    obtain ⟨hs, hd⟩ := token_loop_spec _ _ _ _ _ ht
    have hs' := (still_emit Event.tim_start w rfl).seq hs
    split at h
    · rw [(some_pair h).1] at hst
      exact absurd rfl hst
    · rename_i htok
      have htok' : tok = 0xFE := by simpa using htok
      obtain ⟨hq, hrx, hmem⟩ := read_data_loop_spec buff size size w1 le_rfl
      rw [(some_pair h).2]
      refine ⟨((hs'.toQuiet.andThen hq).andThen (still_receive _).toQuiet).andThen
        (still_receive _).toQuiet, w1.rx - 1, ?_, ?_, ?_, fun a => ?_⟩
      · rcases hd with ⟨h1, _⟩ | ⟨h1, _⟩
        · rw [htok'] at h1; cases h1
        · simp [start_timer] at h1; omega
      · rcases hd with ⟨h1, _⟩ | ⟨_, h2⟩
        · rw [htok'] at h1; cases h1
        · rw [← htok', h2]; simp [start_timer]
      · rcases hd with ⟨h1, _⟩ | ⟨h1, _⟩
        · rw [htok'] at h1; cases h1
        · simp only [receive_rx, hrx]
          simp [start_timer] at h1; omega
      · simp only [receive_mem, hmem a, Nat.sub_self, Nat.add_zero]
        rcases hd with ⟨h1, _⟩ | ⟨h1, _⟩
        · rw [htok'] at h1; cases h1
        · simp [start_timer] at h1
          rw [hs'.miso, hs'.mem]
          have e : w1.rx - 1 + 1 = w1.rx := by omega
          rw [e]

theorem read_block_total {B fuel : Nat} (buff size : Nat) (w : World)
    (hc : ClockExpires B w.clock) (hf : B ≤ fuel) :
    ∃ r w', read_block fuel buff size w = some (r, w') := by
  obtain ⟨k, hk, h5⟩ := hc (start_timer w).tk
  obtain ⟨r, w1, hl⟩ := token_loop_total fuel 0xFF (start_timer w) ⟨k, by omega, h5⟩
  unfold read_block
  rw [hl]
  dsimp only
  split <;> exact ⟨_, _, rfl⟩

theorem write_data_loop_still (buff size : Nat) : ∀ (n : Nat) (w : World),
    Still w (write_data_loop buff size n w) := by
  intro n
  induction n with
  | zero => intro w; exact Still.here w
  | succ n ih => intro w; rw [write_data_loop]; exact (still_exchange _ w).seq (ih _)

theorem write_block_still {fuel buff size token : Nat} {w : World} {st : Nat} {w' : World}
    (h : write_block fuel buff size token w = some (st, w')) : Still w w' := by
  unfold write_block at h
  split at h
  · cases h
  · rename_i r1 w1 h1
    dsimp only at h
    split at h
    · cases h
    · rename_i r7 w7 h7
      have hs := (((((wait_still h1).seq (still_exchange token w1)).seq
        (write_data_loop_still buff size size _)).seq (still_exchange 0 _)).seq
        (still_exchange 0 _)).seq ((still_receive _).seq (wait_still h7))
      split at h <;> (rw [(some_pair h).2]; exact hs)

theorem write_block_total {B fuel : Nat} (buff size token : Nat) (w : World)
    (hc : ClockExpires B w.clock) (hf : B ≤ fuel) :
    ∃ r w', write_block fuel buff size token w = some (r, w') := by
  obtain ⟨r1, w1, h1⟩ := wait_total w hc hf
  have hc1 : ClockExpires B w1.clock := by rw [(wait_still h1).clock]; exact hc
  have hs := ((((still_exchange token w1).seq
    (write_data_loop_still buff size size _)).seq (still_exchange 0 _)).seq
    (still_exchange 0 _)).seq (still_receive _)
  obtain ⟨r7, w7, h7⟩ := wait_total _ (by rw [hs.clock]; exact hc1) hf
  unfold write_block
  rw [h1]
  dsimp only
  rw [h7]
  dsimp only
  split <;> exact ⟨_, _, rfl⟩

/-! ## Sector reads -/

theorem Blocks.empty {w w' : World} (buff lo : Nat) (tok : Nat → Nat)
    (hm : w'.miso = w.miso) (hr : w.rx ≤ w'.rx) (hmem : w'.mem = w.mem) :
    Blocks w w' buff lo lo tok :=
  ⟨hm, hr, fun i h1 h2 => by omega, fun i h1 h2 => by omega, fun i j h1 h2 => by omega,
    fun i h1 h2 => by omega, fun a _ => by rw [hmem]⟩

theorem Blocks.append {a b c : World} {buff lo mid hi : Nat} {t1 t2 : Nat → Nat}
    (h1 : Blocks a b buff lo mid t1) (h2 : Blocks b c buff mid hi t2)
    (hlo : lo ≤ mid) (hhi : mid ≤ hi) :
    Blocks a c buff lo hi (fun i => if i < mid then t1 i else t2 i) := by
  refine ⟨h2.miso.trans h1.miso, h1.mono.trans h2.mono, ?_, ?_, ?_, ?_, ?_⟩
  · intro i hi1 hi2
    by_cases hc : i < mid
    · simp only [hc, if_true]
      have := h1.range i hi1 hc
      have := h2.mono
      omega
    · simp only [hc, if_false]
      have := h2.range i (by omega) hi2
      have := h1.mono
      omega
  · intro i hi1 hi2
    by_cases hc : i < mid
    · simp only [hc, if_true]; exact h1.token i hi1 hc
    · simp only [hc, if_false]; rw [← h1.miso]; exact h2.token i (by omega) hi2
  · intro i j hi1 hi2 hj
    by_cases hc : i < mid
    · simp only [hc, if_true]
      rw [h2.rest _ (Or.inl (by omega))]
      exact h1.data i j hi1 hc hj
    · simp only [hc, if_false]
      rw [← h1.miso]
      exact h2.data i j (by omega) hi2 hj
  · intro i hi1 hi2
    by_cases hc : i + 1 < mid
    · have hc' : i < mid := by omega
      simp only [hc, hc', if_true]
      exact h1.order i hi1 hc
    · by_cases hc' : i < mid
      · simp only [hc, hc', if_true, if_false]
        have := h1.range i hi1 hc'
        have := h2.range (i + 1) (by omega) hi2
        omega
      · simp only [hc, hc', if_false]
        exact h2.order i (by omega) hi2
  · intro x hx
    rw [h2.rest x (by omega), h1.rest x (by omega)]

/-- One successful `read_block` into slot `i` of the buffer delivers block `i`. -/
theorem Blocks.one {fuel buff i : Nat} {w : World} {st : Nat} {w' : World}
    (h : read_block fuel (buff + 512 * i) 512 w = some (st, w')) (hst : st ≠ FAIL) :
    ∃ t, Blocks w w' buff i (i + 1) (fun _ => t) := by
  obtain ⟨hq, t, h1, h2, h3, h4⟩ := read_block_ok h hst
  refine ⟨t, hq.miso, hq.rx, ?_, ?_, ?_, ?_, ?_⟩
  · intro k _ _; omega
  · intro k _ _; exact h2
  · intro k j hk1 hk2 hj
    have hk : k = i := by omega
    subst hk
    rw [h4, if_pos (by omega)]
    congr 2; omega
  · intro k hk1 hk2; omega
  · intro a ha
    rw [h4, if_neg (by omega)]

theorem Blocks.before {a b c : World} {buff lo hi : Nat} {t : Nat → Nat}
    (hm : b.miso = a.miso) (hr : a.rx ≤ b.rx) (hmem : b.mem = a.mem)
    (h : Blocks b c buff lo hi t) : Blocks a c buff lo hi t :=
  ⟨h.miso.trans hm, hr.trans h.mono,
    fun i h1 h2 => ⟨hr.trans (h.range i h1 h2).1, (h.range i h1 h2).2⟩,
    fun i h1 h2 => by rw [← hm]; exact h.token i h1 h2,
    fun i j h1 h2 hj => by rw [← hm]; exact h.data i j h1 h2 hj,
    h.order, fun x hx => by rw [h.rest x hx, hmem]⟩

theorem Blocks.after {a b c : World} {buff lo hi : Nat} {t : Nat → Nat}
    (h : Blocks a b buff lo hi t)
    (hm : c.miso = b.miso) (hr : b.rx ≤ c.rx) (hmem : c.mem = b.mem) :
    Blocks a c buff lo hi t :=
  ⟨hm.trans h.miso, h.mono.trans hr,
    fun i h1 h2 => ⟨(h.range i h1 h2).1, (h.range i h1 h2).2.trans hr⟩,
    h.token, fun i j h1 h2 hj => by rw [hmem]; exact h.data i j h1 h2 hj,
    h.order, fun x hx => by rw [hmem, h.rest x hx]⟩

/-- The block loop of the multiple-block read, when it runs to the end, delivers
the blocks `count - n .. count - 1`. -/
theorem read_blocks_loop_ok (fuel buff count : Nat) (hfit : 512 * count ≤ 2 ^ 32) :
    ∀ (n : Nat) (w w' : World), n ≤ count →
    read_blocks_loop fuel buff count n w = some (true, w') →
    Quiet w w' ∧ ∃ tok, Blocks w w' buff (count - n) count tok := by
  intro n
  induction n with
  | zero =>
    intro w w' _ h
    rw [read_blocks_loop] at h
    obtain ⟨_, h2⟩ := some_pair h
    rw [h2]
    exact ⟨Quiet.same w, fun _ => 0, Blocks.empty buff _ _ rfl le_rfl rfl⟩
  | succ n ih =>
    intro w w' hn h
    rw [read_blocks_loop] at h
    have hoff : (512 * (count - (n + 1))) % 2 ^ 32 = 512 * (count - (n + 1)) :=
      Nat.mod_eq_of_lt (by omega)
    rw [hoff] at h
    split at h
    · cases h
    · rename_i st w1 hb
      split at h
      · cases h
      · rename_i hst
        obtain ⟨hq1, _⟩ := read_block_ok hb hst
        obtain ⟨t, hb1⟩ := Blocks.one hb hst
        obtain ⟨hq2, tok, hb2⟩ := ih w1 w' (by omega) h
        have e : count - (n + 1) + 1 = count - n := by omega
        rw [e] at hb1
        exact ⟨hq1.andThen hq2, _, hb1.append hb2 (by omega) (by omega)⟩

theorem Blocks.before_still {a b c : World} {buff lo hi : Nat} {t : Nat → Nat}
    (hs : Still a b) (h : Blocks b c buff lo hi t) : Blocks a c buff lo hi t :=
  Blocks.before hs.miso hs.rx hs.mem h

theorem Blocks.after_still {a b c : World} {buff lo hi : Nat} {t : Nat → Nat}
    (h : Blocks a b buff lo hi t) (hs : Still b c) : Blocks a c buff lo hi t :=
  Blocks.after h hs.miso hs.rx hs.mem

theorem Blocks.after_emit {a b : World} {buff lo hi : Nat} {t : Nat → Nat}
    (h : Blocks a b buff lo hi t) (e : Event) : Blocks a (emit e b) buff lo hi t :=
  Blocks.after h rfl le_rfl rfl

theorem Blocks.before_emit {a b : World} {buff lo hi : Nat} {t : Nat → Nat} (e : Event)
    (h : Blocks (emit e a) b buff lo hi t) : Blocks a b buff lo hi t :=
  Blocks.before (b := emit e a) rfl le_rfl rfl h

/-- What a `read_sd` that returned `RES_OK` has done: the session was ready, the
arguments were valid, and the card delivered the `N` blocks of the buffer. -/
theorem read_sd_ok {fuel pdrv buff sector N : Nat} {w w' : World}
    (h : read_sd fuel pdrv buff sector N w = some (RES_OK, w')) (hfit : 512 * N ≤ 2 ^ 32) :
    (w.status ≠ STA_NOINIT ∧ pdrv = 0 ∧ 1 ≤ N) ∧ ∃ tok, Blocks w w' buff 0 N tok := by
  unfold read_sd at h
  split at h
  · cases h
  · rename_i hst
    split at h
    · cases h
    · rename_i hpar
      have hp : pdrv = 0 ∧ 1 ≤ N := by
        constructor
        · by_contra hc; exact hpar (Or.inl hc)
        · by_contra hc; exact hpar (Or.inr (by omega))
      refine ⟨⟨hst, hp.1, hp.2⟩, ?_⟩
      split at h
      · cases h
      · rename_i r1 w1 hw1
        have s1 := wait_still hw1
        split at h
        · rename_i hN
          split at h
          · cases h
          · rename_i res w2 hc2
            have s2 := send_command_still hc2
            split at h
            · split at h
              · cases h
              · rename_i st w3 hb
                split at h
                · rename_i hok
                  obtain ⟨_, h2⟩ := some_pair h
                  rw [h2]
                  have hb' : read_block fuel (buff + 512 * 0) 512 w2 = some (st, w3) := by
                    simpa using hb
                  obtain ⟨t, hB⟩ := Blocks.one hb' (by simpa [FAIL] using hok)
                  rw [hN]
                  exact ⟨_, Blocks.before_emit Event.cs_low
                    (Blocks.before_still (s1.seq s2) (hB.after_emit Event.cs_high))⟩
                · cases h
            · cases h
        · split at h
          · cases h
          · rename_i res w2 hc2
            have s2 := send_command_still hc2
            split at h
            · split at h
              · cases h
              · rename_i ok w3 hl
                split at h
                · rename_i hok
                  rw [hok, Nat.mod_eq_of_lt (by omega)] at hl
                  obtain ⟨_, tok, hB⟩ := read_blocks_loop_ok fuel buff N hfit N w2 w3 le_rfl hl
                  rw [Nat.sub_self] at hB
                  split at h
                  · cases h
                  · rename_i r4 w4 hc4
                    have s4 := send_command_still hc4
                    split at h
                    · cases h
                    · rename_i r6 w6 hw6
                      have s6 := wait_still hw6
                      split at h
                      · obtain ⟨_, h2⟩ := some_pair h
                        rw [h2]
                        exact ⟨tok, Blocks.before_emit Event.cs_low
                          (Blocks.before_still (s1.seq s2)
                            ((hB.after_still ((s4.seq (still_receive w4)).seq s6)).after_emit
                              Event.cs_high))⟩
                      · cases h
                · cases h
            · cases h

theorem Blocks.shift {w w' : World} {buff n : Nat} {t : Nat → Nat}
    (h : Blocks w w' (buff + 512 * n) 0 1 t) : Blocks w w' buff n (n + 1) (fun _ => t 0) := by
  refine ⟨h.miso, h.mono, fun i _ _ => h.range 0 le_rfl (by omega),
    fun i _ _ => h.token 0 le_rfl (by omega), ?_, fun i h1 h2 => by omega, ?_⟩
  · intro i j h1 h2 hj
    have hi : i = n := by omega
    subst hi
    have := h.data 0 j le_rfl (by omega) hj
    simpa using this
  · intro a ha
    exact h.rest a (by omega)

/-- Sector-by-sector reading that succeeded throughout delivered the blocks `0 .. n - 1`. -/
theorem single_reads_ok (fuel buff sector : Nat) : ∀ (n : Nat) (v v' : World),
    single_reads fuel buff sector n v = some (true, v') → ∃ tok, Blocks v v' buff 0 n tok := by
  intro n
  induction n with
  | zero =>
    intro v v' h
    rw [single_reads] at h
    rw [(some_pair h).2]
    exact ⟨fun _ => 0, Blocks.empty buff 0 _ rfl le_rfl rfl⟩
  | succ n ih =>
    intro v v' h
    rw [single_reads] at h
    split at h
    · cases h
    · rename_i ok w1 h1
      split at h
      · rename_i hok
        rw [hok] at h1
        obtain ⟨tok, hB⟩ := ih v w1 h1
        split at h
        · cases h
        · rename_i r w2 hr
          obtain ⟨hd, hw⟩ := some_pair h
          have hr' : r = RES_OK := by simpa using hd.symm
          rw [hr'] at hr
          rw [hw]
          obtain ⟨_, tok1, hB1⟩ := read_sd_ok hr (by norm_num)
          exact ⟨_, hB.append hB1.shift (Nat.zero_le n) (Nat.le_succ n)⟩
      · cases h

/-! ## Loops of the facade -/

theorem read_blocks_loop_quiet (fuel buff count : Nat) : ∀ (n : Nat) (w : World) (ok : Bool)
    (w' : World), read_blocks_loop fuel buff count n w = some (ok, w') → Quiet w w' := by
  intro n
  induction n with
  | zero =>
    intro w ok w' h
    rw [read_blocks_loop] at h
    rw [(some_pair h).2]
    exact Quiet.same w
  | succ n ih =>
    intro w ok w' h
    rw [read_blocks_loop] at h
    split at h
    · cases h
    · rename_i st w1 hb
      split at h
      · rename_i hst
        rw [(some_pair h).2]
        exact (read_block_fail hb hst).toQuiet
      · rename_i hst
        exact (read_block_ok hb hst).1.andThen (ih _ _ _ h)

theorem read_blocks_loop_total {B fuel : Nat} (buff count : Nat) (hf : B ≤ fuel) :
    ∀ (n : Nat) (w : World), ClockExpires B w.clock →
    ∃ r w', read_blocks_loop fuel buff count n w = some (r, w') := by
  intro n
  induction n with
  | zero => intro w _; exact ⟨_, _, rfl⟩
  | succ n ih =>
    intro w hc
    rw [read_blocks_loop]
    obtain ⟨st, w1, hb⟩ := read_block_total (buff + (512 * (count - (n + 1))) % 2 ^ 32) 512 w hc hf
    rw [hb]
    dsimp only
    split
    · exact ⟨_, _, rfl⟩
    · rename_i hst
      exact ih w1 (by rw [(read_block_ok hb hst).1.clock]; exact hc)

theorem write_blocks_loop_still (fuel buff count : Nat) : ∀ (n : Nat) (w : World) (ok : Bool)
    (w' : World), write_blocks_loop fuel buff count n w = some (ok, w') → Still w w' := by
  intro n
  induction n with
  | zero =>
    intro w ok w' h
    rw [write_blocks_loop] at h
    rw [(some_pair h).2]
    exact Still.here w
  | succ n ih =>
    intro w ok w' h
    rw [write_blocks_loop] at h
    split at h
    · cases h
    · rename_i st w1 hb
      split at h
      · rw [(some_pair h).2]
        exact write_block_still hb
      · exact (write_block_still hb).seq (ih _ _ _ h)

theorem write_blocks_loop_total {B fuel : Nat} (buff count : Nat) (hf : B ≤ fuel) :
    ∀ (n : Nat) (w : World), ClockExpires B w.clock →
    ∃ r w', write_blocks_loop fuel buff count n w = some (r, w') := by
  intro n
  induction n with
  | zero => intro w _; exact ⟨_, _, rfl⟩
  | succ n ih =>
    intro w hc
    rw [write_blocks_loop]
    obtain ⟨st, w1, hb⟩ :=
      write_block_total (buff + (512 * (count - (n + 1))) % 2 ^ 32) 512 0xFC w hc hf
    rw [hb]
    dsimp only
    split
    · exact ⟨_, _, rfl⟩
    · exact ih w1 (by rw [(write_block_still hb).clock]; exact hc)

theorem dummy_clocks_still : ∀ (n : Nat) (w : World), Still w (dummy_clocks n w) := by
  intro n
  induction n with
  | zero => intro w; exact Still.here w
  | succ n ih => intro w; rw [dummy_clocks]; exact (still_exchange _ w).seq (ih _)

theorem sd1_loop_still (fuel : Nat) : ∀ (timeout res : Nat) (w : World) (r : Nat) (w' : World),
    sd1_loop fuel timeout res w = some (r, w') → Still w w' := by
  intro timeout
  induction timeout with
  | zero =>
    intro res w r w' h
    rw [sd1_loop] at h
    rw [(some_pair h).2]
    exact Still.here w
  | succ n ih =>
    intro res w r w' h
    rw [sd1_loop] at h
    split at h
    · split at h
      · cases h
      · rename_i r1 w1 h1
        split at h
        · cases h
        · rename_i r2 w2 h2
          exact ((send_command_still h1).seq (send_command_still h2)).seq (ih _ _ _ _ h)
    · rw [(some_pair h).2]
      exact Still.here w

theorem sd1_loop_total {B fuel : Nat} (hf : B ≤ fuel) : ∀ (timeout res : Nat) (w : World),
    ClockExpires B w.clock → ∃ r w', sd1_loop fuel timeout res w = some (r, w') := by
  intro timeout
  induction timeout with
  | zero => intro res w _; exact ⟨_, _, rfl⟩
  | succ n ih =>
    intro res w hc
    rw [sd1_loop]
    split
    · obtain ⟨r1, w1, h1⟩ := send_command_total CMD55 0 10 none w hc hf
      have hc1 : ClockExpires B w1.clock := by rw [(send_command_still h1).clock]; exact hc
      obtain ⟨r2, w2, h2⟩ := send_command_total ACMD41 0 10 none w1 hc1 hf
      have hc2 : ClockExpires B w2.clock := by rw [(send_command_still h2).clock]; exact hc1
      rw [h1]
      dsimp only
      rw [h2]
      exact ih _ w2 hc2
    · exact ⟨_, _, rfl⟩

theorem mmc_loop_still (fuel : Nat) : ∀ (timeout res : Nat) (w : World) (r : Nat) (w' : World),
    mmc_loop fuel timeout res w = some (r, w') → Still w w' := by
  intro timeout
  induction timeout with
  | zero =>
    intro res w r w' h
    rw [mmc_loop] at h
    rw [(some_pair h).2]
    exact Still.here w
  | succ n ih =>
    intro res w r w' h
    rw [mmc_loop] at h
    split at h
    · split at h
      · cases h
      · rename_i r1 w1 h1
        exact (send_command_still h1).seq (ih _ _ _ _ h)
    · rw [(some_pair h).2]
      exact Still.here w

theorem mmc_loop_total {B fuel : Nat} (hf : B ≤ fuel) : ∀ (timeout res : Nat) (w : World),
    ClockExpires B w.clock → ∃ r w', mmc_loop fuel timeout res w = some (r, w') := by
  intro timeout
  induction timeout with
  | zero => intro res w _; exact ⟨_, _, rfl⟩
  | succ n ih =>
    intro res w hc
    rw [mmc_loop]
    split
    · obtain ⟨r1, w1, h1⟩ := send_command_total CMD1 0 10 none w hc hf
      have hc1 : ClockExpires B w1.clock := by rw [(send_command_still h1).clock]; exact hc
      rw [h1]
      exact ih _ w1 hc1
    · exact ⟨_, _, rfl⟩

theorem sd2_loop_still (fuel : Nat) : ∀ (timeout res : Nat) (w : World) (r : Nat × Nat)
    (w' : World), sd2_loop fuel timeout res w = some (r, w') → Still w w' := by
  intro timeout
  induction timeout with
  | zero =>
    intro res w r w' h
    rw [sd2_loop] at h
    rw [(some_pair h).2]
    exact Still.here w
  | succ n ih =>
    intro res w r w' h
    rw [sd2_loop] at h
    split at h
    · split at h
      · cases h
      · rename_i r1 w1 h1
        split at h
        · cases h
        · rename_i r2 w2 h2
          exact ((send_command_still h1).seq (send_command_still h2)).seq (ih _ _ _ _ h)
    · rw [(some_pair h).2]
      exact Still.here w

theorem sd2_loop_total {B fuel : Nat} (hf : B ≤ fuel) : ∀ (timeout res : Nat) (w : World),
    ClockExpires B w.clock → ∃ r w', sd2_loop fuel timeout res w = some (r, w') := by
  intro timeout
  induction timeout with
  | zero => intro res w _; exact ⟨_, _, rfl⟩
  | succ n ih =>
    intro res w hc
    rw [sd2_loop]
    split
    · obtain ⟨r1, w1, h1⟩ := send_command_total CMD55 0 10 none w hc hf
      have hc1 : ClockExpires B w1.clock := by rw [(send_command_still h1).clock]; exact hc
      obtain ⟨r2, w2, h2⟩ := send_command_total ACMD41 0x40000000 10 none w1 hc1 hf
      have hc2 : ClockExpires B w2.clock := by rw [(send_command_still h2).clock]; exact hc1
      rw [h1]
      dsimp only
      rw [h2]
      exact ih _ w2 hc2
    · exact ⟨_, _, rfl⟩

/-! ## Chip-select bookkeeping -/

theorem cs_level_filter : ∀ (t : List Event) (lvl : Bool),
    cs_level lvl t = cs_level lvl (t.filter Event.isCS) := by
  intro t
  induction t with
  | nil => intro lvl; rfl
  | cons e t ih =>
    intro lvl
    cases e <;> simp [cs_level, List.filter, Event.isCS] <;> exact ih _

theorem cs_level_append (lvl : Bool) (t u : List Event) :
    cs_level lvl (t ++ u) = cs_level (cs_level lvl t) u := by
  simp [cs_level, List.foldl_append]

theorem releases_of_quiet {w w' : World} (h : CsTrace w w' []) : ReleasesBus w w' := by
  obtain ⟨evs, ht, hf⟩ := h
  refine ⟨evs, ht, ?_, ?_⟩
  · intro hm
    have : Event.cs_low ∈ evs.filter Event.isCS := List.mem_filter.2 ⟨hm, rfl⟩
    rw [hf] at this
    cases this
  · intro h0
    rw [ht, cs_level_append, h0, cs_level_filter, hf]
    rfl

theorem releases_of_pair {w w' : World} (h : CsTrace w w' [Event.cs_low, Event.cs_high]) :
    ReleasesBus w w' := by
  obtain ⟨evs, ht, hf⟩ := h
  refine ⟨evs, ht, fun _ => by rw [hf]; rfl, fun _ => ?_⟩
  rw [ht, cs_level_append, cs_level_filter evs, hf]
  rfl

theorem releases_of_init {w w' : World}
    (h : CsTrace w w' [Event.cs_high, Event.cs_low, Event.cs_high]) : ReleasesBus w w' := by
  obtain ⟨evs, ht, hf⟩ := h
  refine ⟨evs, ht, fun _ => by rw [hf]; rfl, fun _ => ?_⟩
  rw [ht, cs_level_append, cs_level_filter evs, hf]
  rfl

theorem cs_select (w : World) : CsTrace w (select w) [Event.cs_low] := CsTrace.single _ w

theorem cs_deselect (w : World) : CsTrace w (deselect w) [Event.cs_high] := CsTrace.single _ w

/-- Chip-select writes of `read_sd`: none on the early returns, otherwise one
assert followed by one deassert. -/
theorem read_sd_cs {fuel pdrv buff sector count : Nat} {w : World} {r : DRESULT} {w' : World}
    (h : read_sd fuel pdrv buff sector count w = some (r, w')) :
    CsTrace w w' [] ∨ CsTrace w w' [Event.cs_low, Event.cs_high] := by
  unfold read_sd at h
  split at h
  · rw [(some_pair h).2]; exact Or.inl (CsTrace.nil w)
  · split at h
    · rw [(some_pair h).2]; exact Or.inl (CsTrace.nil w)
    · right
      have key : ∀ v, Quiet (select w) v → CsTrace w (deselect v) [Event.cs_low, Event.cs_high] :=
        fun v hv => ((cs_select w).cat hv.trace).cat (cs_deselect v)
      split at h
      · cases h
      · rename_i r1 w1 hw1
        have q1 := (wait_still hw1).toQuiet
        split at h
        · split at h
          · cases h
          · rename_i res w2 hc2
            have q2 := q1.andThen (send_command_still hc2).toQuiet
            split at h
            · split at h
              · cases h
              · rename_i st w3 hb
                have q3 : Quiet (select w) w3 := by
                  by_cases hst : st = FAIL
                  · exact q2.andThen (read_block_fail hb hst).toQuiet
                  · exact q2.andThen (read_block_ok hb hst).1
                split at h <;> (rw [(some_pair h).2]; exact key _ q3)
            · rw [(some_pair h).2]; exact key _ q2
        · split at h
          · cases h
          · rename_i res w2 hc2
            have q2 := q1.andThen (send_command_still hc2).toQuiet
            split at h
            · split at h
              · cases h
              · rename_i ok w3 hl
                have q3 := q2.andThen (read_blocks_loop_quiet _ _ _ _ _ _ _ hl)
                split at h
                · split at h
                  · cases h
                  · rename_i r4 w4 hc4
                    split at h
                    · cases h
                    · rename_i r6 w6 hw6
                      have q6 := q3.andThen (((send_command_still hc4).seq
                        (still_receive w4)).seq (wait_still hw6)).toQuiet
                      split at h <;> (rw [(some_pair h).2]; exact key _ q6)
                · rw [(some_pair h).2]; exact key _ q3
            · rw [(some_pair h).2]; exact key _ q2

theorem read_sd_total {B fuel : Nat} (pdrv buff sector count : Nat) (w : World)
    (hc : ClockExpires B w.clock) (hf : B ≤ fuel) :
    ∃ r w', read_sd fuel pdrv buff sector count w = some (r, w') := by
  unfold read_sd
  split
  · exact ⟨_, _, rfl⟩
  · split
    · exact ⟨_, _, rfl⟩
    · obtain ⟨r1, w1, hw1⟩ := wait_total (select w) hc hf
      have c1 : ClockExpires B w1.clock := by rw [(wait_still hw1).clock]; exact hc
      rw [hw1]
      dsimp only
      split
      · obtain ⟨res, w2, hc2⟩ := send_command_total CMD17 sector 10 none w1 c1 hf
        have c2 : ClockExpires B w2.clock := by rw [(send_command_still hc2).clock]; exact c1
        rw [hc2]
        dsimp only
        split
        · obtain ⟨st, w3, hb⟩ := read_block_total buff 512 w2 c2 hf
          rw [hb]
          dsimp only
          split <;> exact ⟨_, _, rfl⟩
        · exact ⟨_, _, rfl⟩
      · obtain ⟨res, w2, hc2⟩ := send_command_total CMD18 sector 10 none w1 c1 hf
        have c2 : ClockExpires B w2.clock := by rw [(send_command_still hc2).clock]; exact c1
        rw [hc2]
        dsimp only
        split
        · obtain ⟨ok, w3, hl⟩ := read_blocks_loop_total buff count hf (count % 2 ^ 32) w2 c2
          have c3 : ClockExpires B w3.clock := by
            rw [(read_blocks_loop_quiet _ _ _ _ _ _ _ hl).clock]; exact c2
          rw [hl]
          dsimp only
          split
          · obtain ⟨r4, w4, hc4⟩ := send_command_total CMD12 0 10 none w3 c3 hf
            have c4 : ClockExpires B w4.clock := by rw [(send_command_still hc4).clock]; exact c3
            rw [hc4]
            dsimp only
            obtain ⟨r6, w6, hw6⟩ := wait_total (receive_byte w4).2 c4 hf
            rw [hw6]
            dsimp only
            split <;> exact ⟨_, _, rfl⟩
          · exact ⟨_, _, rfl⟩
        · exact ⟨_, _, rfl⟩

/-- Chip-select writes of `write_sd`: none on the early returns, otherwise one
assert followed by one deassert. -/
theorem write_sd_cs {fuel pdrv buff sector count : Nat} {w : World} {r : DRESULT} {w' : World}
    (h : write_sd fuel pdrv buff sector count w = some (r, w')) :
    CsTrace w w' [] ∨ CsTrace w w' [Event.cs_low, Event.cs_high] := by
  unfold write_sd at h
  split at h
  · rw [(some_pair h).2]; exact Or.inl (CsTrace.nil w)
  · split at h
    · rw [(some_pair h).2]; exact Or.inl (CsTrace.nil w)
    · right
      have key : ∀ v, Quiet (select w) v → CsTrace w (deselect v) [Event.cs_low, Event.cs_high] :=
        fun v hv => ((cs_select w).cat hv.trace).cat (cs_deselect v)
      split at h
      · split at h
        · cases h
        · rename_i res w2 hc2
          have q2 := (send_command_still hc2).toQuiet
          split at h
          · split at h
            · cases h
            · rename_i st w3 hb
              have q3 := q2.andThen (write_block_still hb).toQuiet
              split at h <;> (rw [(some_pair h).2]; exact key _ q3)
          · rw [(some_pair h).2]; exact key _ q2
      · split at h
        · cases h
        · rename_i res w2 hc2
          have q2 := (send_command_still hc2).toQuiet
          split at h
          · split at h
            · cases h
            · rename_i ok w3 hl
              have q3 := q2.andThen (write_blocks_loop_still _ _ _ _ _ _ _ hl).toQuiet
              split at h
              · split at h
                · cases h
                · rename_i r6 w6 hw6
                  have q6 := q3.andThen (((still_exchange 0xFD w3).seq
                    (still_receive _)).seq (wait_still hw6)).toQuiet
                  rw [(some_pair h).2]; exact key _ q6
              · rw [(some_pair h).2]; exact key _ q3
          · rw [(some_pair h).2]; exact key _ q2

theorem write_sd_total {B fuel : Nat} (pdrv buff sector count : Nat) (w : World)
    (hc : ClockExpires B w.clock) (hf : B ≤ fuel) :
    ∃ r w', write_sd fuel pdrv buff sector count w = some (r, w') := by
  unfold write_sd
  split
  · exact ⟨_, _, rfl⟩
  · split
    · exact ⟨_, _, rfl⟩
    · split
      · obtain ⟨res, w2, hc2⟩ := send_command_total CMD24 sector 10 none (select w) hc hf
        have c2 : ClockExpires B w2.clock := by rw [(send_command_still hc2).clock]; exact hc
        rw [hc2]
        dsimp only
        split
        · obtain ⟨st, w3, hb⟩ := write_block_total buff 512 0xFE w2 c2 hf
          rw [hb]
          dsimp only
          split <;> exact ⟨_, _, rfl⟩
        · exact ⟨_, _, rfl⟩
      · obtain ⟨res, w2, hc2⟩ := send_command_total CMD25 sector 10 none (select w) hc hf
        have c2 : ClockExpires B w2.clock := by rw [(send_command_still hc2).clock]; exact hc
        rw [hc2]
        dsimp only
        split
        · obtain ⟨ok, w3, hl⟩ := write_blocks_loop_total buff count hf (count % 2 ^ 32) w2 c2
          have c3 : ClockExpires B w3.clock := by
            rw [(write_blocks_loop_still _ _ _ _ _ _ _ hl).clock]; exact c2
          rw [hl]
          dsimp only
          split
          · obtain ⟨r6, w6, hw6⟩ :=
              wait_total (receive_byte (exchange_byte 0xFD w3).2).2 c3 hf
            rw [hw6]
            exact ⟨_, _, rfl⟩
          · exact ⟨_, _, rfl⟩
        · exact ⟨_, _, rfl⟩

/-! ## Initialisation -/

/-- Exit summary shared by the branches of `initialize_sd`: the status returned is
the stored one, chip-select was deasserted once, the clock is untouched. -/
theorem init_failed_spec (w : World) :
    (init_failed w).1 = (init_failed w).2.status ∧
    CsTrace w (init_failed w).2 [Event.cs_high] ∧
    (init_failed w).2.version = 0 ∧ (init_failed w).2.status = STA_NOINIT :=
  ⟨rfl, ⟨[Event.cs_high], rfl, rfl⟩, rfl, rfl⟩

theorem set_blocklen_spec {fuel : Nat} {w : World} {st : Nat} {w' : World}
    (h : set_blocklen fuel w = some (st, w')) :
    st = w'.status ∧ CsTrace w w' [Event.cs_high] ∧ w'.version = w.version ∧
    (w'.status = w.status ∨ w'.status = w.status &&& (0xFF - STA_NOINIT)) := by
  unfold set_blocklen at h
  split at h
  · cases h
  · rename_i r w1 hc
    have s1 := send_command_still hc
    split at h
    · obtain ⟨h1, h2⟩ := some_pair h
      rw [h1, h2]
      refine ⟨rfl, ?_, s1.version, Or.inr ?_⟩
      · have : CsTrace w (clear_noinit w1) [] := s1.trace
        simpa using this.cat (cs_deselect (clear_noinit w1))
      · show w1.status &&& (0xFF - STA_NOINIT) = _
        rw [s1.status]
    · obtain ⟨h1, h2⟩ := some_pair h
      rw [h1, h2]
      exact ⟨rfl, by simpa using s1.trace.cat (cs_deselect w1), s1.version, Or.inl s1.status⟩

theorem set_blocklen_total {B fuel : Nat} (w : World) (hc : ClockExpires B w.clock)
    (hf : B ≤ fuel) : ∃ r w', set_blocklen fuel w = some (r, w') := by
  unfold set_blocklen
  obtain ⟨r, w1, h1⟩ := send_command_total CMD16 0x200 10 none w hc hf
  rw [h1]
  dsimp only
  split <;> exact ⟨_, _, rfl⟩

theorem legacy_path_spec {fuel : Nat} {w : World} {st : Nat} {w' : World}
    (h : legacy_path fuel w = some (st, w')) :
    st = w'.status ∧ CsTrace w w' [Event.cs_high] ∧
    ((w'.version = 0 ∧ w'.status = STA_NOINIT) ∨
     ((w'.version = 1 ∨ w'.version = 2) ∧
      (w'.status = w.status ∨ w'.status = w.status &&& (0xFF - STA_NOINIT)))) := by
  unfold legacy_path at h
  split at h
  · cases h
  · rename_i r1 w1 h1
    split at h
    · cases h
    · rename_i r2 w2 h2
      split at h
      · cases h
      · rename_i res w3 h3
        have s3 := ((send_command_still h1).seq (send_command_still h2)).seq
          (sd1_loop_still _ _ _ _ _ _ h3)
        split at h
        · split at h
          · cases h
          · rename_i r4 w4 h4
            split at h
            · cases h
            · rename_i res1 w5 h5
              have s5 := (s3.seq (send_command_still h4)).seq (mmc_loop_still _ _ _ _ _ _ h5)
              split at h
              · obtain ⟨e1, e2⟩ := some_pair h
                rw [e1, e2]
                obtain ⟨a, b, c, d⟩ := init_failed_spec w5
                exact ⟨a, by simpa using s5.trace.cat b, Or.inl ⟨c, d⟩⟩
              · obtain ⟨a, b, c, d⟩ := set_blocklen_spec h
                have t5 : CsTrace w { w5 with version := 1 } [] := s5.trace
                refine ⟨a, by simpa using t5.cat b, Or.inr ⟨Or.inl c, ?_⟩⟩
                have e : ({ w5 with version := 1 } : World).status = w.status := s5.status
                rw [e] at d
                exact d
        · obtain ⟨a, b, c, d⟩ := set_blocklen_spec h
          have t3 : CsTrace w { w3 with version := 2 } [] := s3.trace
          refine ⟨a, by simpa using t3.cat b, Or.inr ⟨Or.inr c, ?_⟩⟩
          have e : ({ w3 with version := 2 } : World).status = w.status := s3.status
          rw [e] at d
          exact d

theorem legacy_path_total {B fuel : Nat} (w : World) (hc : ClockExpires B w.clock)
    (hf : B ≤ fuel) : ∃ r w', legacy_path fuel w = some (r, w') := by
  unfold legacy_path
  obtain ⟨r1, w1, h1⟩ := send_command_total CMD55 0 10 none w hc hf
  have c1 : ClockExpires B w1.clock := by rw [(send_command_still h1).clock]; exact hc
  obtain ⟨r2, w2, h2⟩ := send_command_total ACMD41 0 10 none w1 c1 hf
  have c2 : ClockExpires B w2.clock := by rw [(send_command_still h2).clock]; exact c1
  obtain ⟨res, w3, h3⟩ := sd1_loop_total hf 10000 r2.1 w2 c2
  have c3 : ClockExpires B w3.clock := by rw [(sd1_loop_still _ _ _ _ _ _ h3).clock]; exact c2
  rw [h1]
  dsimp only
  rw [h2]
  dsimp only
  rw [h3]
  dsimp only
  split
  · obtain ⟨r4, w4, h4⟩ := send_command_total CMD1 0 10 none w3 c3 hf
    have c4 : ClockExpires B w4.clock := by rw [(send_command_still h4).clock]; exact c3
    obtain ⟨res1, w5, h5⟩ := mmc_loop_total hf 10000 res w4 c4
    have c5 : ClockExpires B w5.clock := by rw [(mmc_loop_still _ _ _ _ _ _ h5).clock]; exact c4
    rw [h4]
    dsimp only
    rw [h5]
    dsimp only
    split
    · exact ⟨_, _, rfl⟩
    · exact set_blocklen_total _ c5 hf
  · exact set_blocklen_total _ c3 hf

theorem voltage_path_spec {fuel res ocr : Nat} {w : World} {st : Nat} {w' : World}
    (h : voltage_path fuel res ocr w = some (st, w')) :
    st = w'.status ∧ CsTrace w w' [Event.cs_high] ∧
    ((w'.version = 0 ∧ w'.status = STA_NOINIT) ∨
     (w'.version = 3 ∧ w'.status = w.status &&& (0xFF - STA_NOINIT)) ∨
     (w'.version = w.version ∧ w'.status = w.status)) := by
  unfold voltage_path at h
  split at h
  · obtain ⟨e1, e2⟩ := some_pair h
    rw [e1, e2]
    obtain ⟨a, b, c, d⟩ := init_failed_spec w
    exact ⟨a, b, Or.inl ⟨c, d⟩⟩
  · split at h
    · cases h
    · rename_i rt w1 h1
      have s1 := sd2_loop_still _ _ _ _ _ _ h1
      split at h
      · obtain ⟨e1, e2⟩ := some_pair h
        rw [e1, e2]
        obtain ⟨a, b, c, d⟩ := init_failed_spec w1
        exact ⟨a, by simpa using s1.trace.cat b, Or.inl ⟨c, d⟩⟩
      · split at h
        · cases h
        · rename_i r58 w2 h2
          have s2 := s1.seq (send_command_still h2)
          have done : ∀ v, Still w v →
              (clear_noinit { v with version := 3 }).status =
                (deselect (clear_noinit { v with version := 3 })).status ∧
              CsTrace w (deselect (clear_noinit { v with version := 3 })) [Event.cs_high] ∧
              ((deselect (clear_noinit { v with version := 3 })).version = 3 ∧
               (deselect (clear_noinit { v with version := 3 })).status =
                 w.status &&& (0xFF - STA_NOINIT)) := by
            intro v hv
            refine ⟨rfl, ?_, rfl, ?_⟩
            · have t : CsTrace w (clear_noinit { v with version := 3 }) [] := hv.trace
              simpa using t.cat (cs_deselect _)
            · show v.status &&& (0xFF - STA_NOINIT) = _
              rw [hv.status]
          have same : ∀ v, Still w v →
              v.status = (deselect v).status ∧ CsTrace w (deselect v) [Event.cs_high] ∧
              ((deselect v).version = w.version ∧ (deselect v).status = w.status) :=
            fun v hv => ⟨rfl, by simpa using hv.trace.cat (cs_deselect v), hv.version, hv.status⟩
          split at h
          · split at h
            · cases h
            · rename_i r16 w3 h3
              have s3 := s2.seq (send_command_still h3)
              split at h
              · obtain ⟨e1, e2⟩ := some_pair h
                rw [e1, e2]
                obtain ⟨a, b, c⟩ := done w3 s3
                exact ⟨a, b, Or.inr (Or.inl c)⟩
              · obtain ⟨e1, e2⟩ := some_pair h
                rw [e1, e2]
                obtain ⟨a, b, c⟩ := same w3 s3
                exact ⟨a, b, Or.inr (Or.inr c)⟩
          · split at h
            · obtain ⟨e1, e2⟩ := some_pair h
              rw [e1, e2]
              obtain ⟨a, b, c⟩ := done w2 s2
              exact ⟨a, b, Or.inr (Or.inl c)⟩
            · obtain ⟨e1, e2⟩ := some_pair h
              rw [e1, e2]
              obtain ⟨a, b, c⟩ := same w2 s2
              exact ⟨a, b, Or.inr (Or.inr c)⟩

theorem voltage_path_total {B fuel : Nat} (res ocr : Nat) (w : World)
    (hc : ClockExpires B w.clock) (hf : B ≤ fuel) :
    ∃ r w', voltage_path fuel res ocr w = some (r, w') := by
  unfold voltage_path
  split
  · exact ⟨_, _, rfl⟩
  · obtain ⟨rt, w1, h1⟩ := sd2_loop_total hf 10000 res w hc
    have c1 : ClockExpires B w1.clock := by rw [(sd2_loop_still _ _ _ _ _ _ h1).clock]; exact hc
    rw [h1]
    dsimp only
    split
    · exact ⟨_, _, rfl⟩
    · obtain ⟨r58, w2, h2⟩ := send_command_total CMD58 0 10 (some ocr) w1 c1 hf
      have c2 : ClockExpires B w2.clock := by rw [(send_command_still h2).clock]; exact c1
      rw [h2]
      dsimp only
      split
      · obtain ⟨r16, w3, h3⟩ := send_command_total CMD16 0x200 10 none w2 c2 hf
        rw [h3]
        dsimp only
        split <;> exact ⟨_, _, rfl⟩
      · split <;> exact ⟨_, _, rfl⟩

/-- The opening of `initialize_sd` deasserts and then asserts chip-select and
leaves card, timer, session variables and memory alone. -/
theorem enter_native_mode_spec (w : World) :
    CsTrace w (enter_native_mode w) [Event.cs_high, Event.cs_low] ∧
    (enter_native_mode w).status = w.status ∧ (enter_native_mode w).version = w.version ∧
    (enter_native_mode w).clock = w.clock ∧ (enter_native_mode w).miso = w.miso ∧
    (enter_native_mode w).mem = w.mem := by
  have s := ((((still_emit (Event.spi_init 256) (deselect w) rfl).seq
    (still_emit (Event.delay 1) _ rfl)).seq (dummy_clocks_still 100 _)).seq
    (still_emit (Event.spi_init 8) _ rfl)).seq (still_emit (Event.delay 1) _ rfl)
  refine ⟨?_, s.status, s.version, s.clock, s.miso, s.mem⟩
  simpa using ((cs_deselect w).cat s.trace).cat (cs_select _)

theorem initialize_sd_spec {fuel : Nat} {w : World} {st : Nat} {w' : World}
    (h : initialize_sd fuel w = some (st, w')) :
    st = w'.status ∧ CsTrace w w' [Event.cs_high, Event.cs_low, Event.cs_high] ∧
    InitOutcome w w' := by
  unfold initialize_sd at h
  obtain ⟨t0, st0, v0, _, _, _⟩ := enter_native_mode_spec w
  split at h
  · cases h
  · rename_i r0 w6 h0
    have s6 := send_command_still h0
    have t6 := t0.cat s6.trace
    simp only [List.append_nil] at t6
    have st6 : w6.status = w.status := s6.status.trans st0
    have v6 : w6.version = w.version := s6.version.trans v0
    split at h
    · split at h
      · cases h
      · rename_i r8 w7 h8
        have s7 := send_command_still h8
        have t7 := t6.cat s7.trace
        simp only [List.append_nil] at t7
        split at h
        · obtain ⟨a, b, c⟩ := legacy_path_spec h
          refine ⟨a, by simpa using t7.cat b, ?_⟩
          rw [s7.status, st6] at c
          rcases c with c | c
          · exact Or.inl c
          · exact Or.inr (Or.inl c)
        · obtain ⟨a, b, c⟩ := voltage_path_spec h
          refine ⟨a, by simpa using t7.cat b, ?_⟩
          rw [s7.status, st6, s7.version, v6] at c
          rcases c with c | c | c
          · exact Or.inl c
          · exact Or.inr (Or.inr (Or.inl c))
          · exact Or.inr (Or.inr (Or.inr c))
    · obtain ⟨e1, e2⟩ := some_pair h
      rw [e1, e2]
      exact ⟨rfl, by simpa using t6.cat (cs_deselect w6), Or.inr (Or.inr (Or.inr ⟨v6, st6⟩))⟩

theorem initialize_sd_total {B fuel : Nat} (w : World) (hc : ClockExpires B w.clock)
    (hf : B ≤ fuel) : ∃ r w', initialize_sd fuel w = some (r, w') := by
  unfold initialize_sd
  obtain ⟨_, _, _, ck, _, _⟩ := enter_native_mode_spec w
  have c5 : ClockExpires B (enter_native_mode w).clock := by rw [ck]; exact hc
  obtain ⟨r0, w6, h0⟩ := send_command_total CMD0 0 100 none _ c5 hf
  have c6 : ClockExpires B w6.clock := by rw [(send_command_still h0).clock]; exact c5
  rw [h0]
  dsimp only
  split
  · obtain ⟨r8, w7, h8⟩ := send_command_total CMD8 0x1AA 100 (some 0) w6 c6 hf
    have c7 : ClockExpires B w7.clock := by rw [(send_command_still h8).clock]; exact c6
    rw [h8]
    dsimp only
    split
    · exact legacy_path_total w7 c7 hf
    · exact voltage_path_total _ _ w7 c7 hf
  · exact ⟨_, _, rfl⟩

/-! ## Session invariant -/

theorem clock_identity_expires : ClockExpires 501 (fun k => k) := by
  intro n
  by_cases h : 500 ≤ n % 65536
  · exact ⟨0, by norm_num, by simpa using h⟩
  · refine ⟨500 - n % 65536, by omega, ?_⟩
    show 500 ≤ (n + (500 - n % 65536)) % 65536
    omega

theorem session_ok_of_outcome {w w' : World} (h : InitOutcome w w') (hw : SessionOK w) :
    SessionOK w' := by
  have hs : w.status = STA_NOINIT ∨ w.status = 0 := by
    rcases hw with h1 | ⟨h1, _⟩
    · exact Or.inl h1
    · exact Or.inr h1
  have hclr : w.status &&& (0xFF - STA_NOINIT) = 0 := by
    rcases hs with h1 | h1 <;> rw [h1] <;> decide
  rcases h with ⟨_, h2⟩ | ⟨h1, h2⟩ | ⟨h1, h2⟩ | ⟨h1, h2⟩
  · exact Or.inl h2
  · have hv : w'.version = 1 ∨ w'.version = 2 ∨ w'.version = 3 := by
      rcases h1 with h1 | h1
      · exact Or.inl h1
      · exact Or.inr (Or.inl h1)
    rcases h2 with h2 | h2
    · rcases hs with h3 | h3
      · exact Or.inl (h2.trans h3)
      · exact Or.inr ⟨h2.trans h3, hv⟩
    · exact Or.inr ⟨h2.trans hclr, hv⟩
  · exact Or.inr ⟨h2.trans hclr, Or.inr (Or.inr h1)⟩
  · rcases hw with h3 | ⟨h3, h4⟩
    · exact Or.inl (h2.trans h3)
    · exact Or.inr ⟨h2.trans h3, by rw [h1]; exact h4⟩

/-! ## Extended response, data response, token poll, command frame -/

theorem four_reads (v : World) :
    (receive_byte (receive_byte (receive_byte (receive_byte v).2).2).2).2.rx = v.rx + 4 ∧
    (receive_byte (receive_byte (receive_byte (receive_byte v).2).2).2).2.trace =
      v.trace ++ [Event.xfer 0xFF (v.miso v.rx % 256), Event.xfer 0xFF (v.miso (v.rx + 1) % 256),
        Event.xfer 0xFF (v.miso (v.rx + 2) % 256), Event.xfer 0xFF (v.miso (v.rx + 3) % 256)] := by
  simp [receive_byte, exchange_byte]

theorem write_data_loop_rx (buff size : Nat) : ∀ (n : Nat) (w : World),
    (write_data_loop buff size n w).rx = w.rx + n := by
  intro n
  induction n with
  | zero => intro w; rfl
  | succ n ih => intro w; rw [write_data_loop, ih]; simp; omega

/-- The token poll over `n` bytes `0xFF` read while the timer is below 500. -/
theorem token_loop_run : ∀ (n fuel : Nat) (w : World),
    (∀ i, i < n → w.miso (w.rx + i) % 256 = 0xFF ∧ w.clock (w.tk + i) % 65536 < 500) →
    ∃ w1, token_loop (fuel + n) 0xFF w = token_loop fuel 0xFF w1 ∧ Still w w1 ∧
      w1.rx = w.rx + n ∧ w1.tk = w.tk + n := by
  intro n
  induction n with
  | zero => intro fuel w _; exact ⟨w, rfl, Still.here w, rfl, rfl⟩
  | succ n ih =>
    intro fuel w h
    have h0 := h 0 (Nat.succ_pos n)
    simp only [Nat.add_zero] at h0
    obtain ⟨w1, e1, s1, r1, t1⟩ := ih fuel (receive_byte (get_timer_val w).2).2 (by
      intro i hi
      have := h (i + 1) (by omega)
      simpa [Nat.add_assoc, Nat.add_comm 1 i] using this)
    refine ⟨w1, ?_, ((still_timer w).seq (still_receive _)).seq s1, ?_, ?_⟩
    · rw [← e1, ← Nat.add_assoc, token_loop]
      rw [if_pos rfl, timer_val, if_pos h0.2, receive_val, timer_miso, timer_rx, h0.1]
    · rw [r1]; simp; omega
    · rw [t1]; simp; omega

theorem reads_here (w : World) : Reads w w := ⟨[], by simp, by simp⟩

theorem reads_seq {a b c : World} (h1 : Reads a b) (h2 : Reads b c) : Reads a c := by
  obtain ⟨r1, t1, q1⟩ := h1
  obtain ⟨r2, t2, q2⟩ := h2
  refine ⟨r1 ++ r2, by rw [t2, t1, List.append_assoc], fun e he => ?_⟩
  rcases List.mem_append.1 he with h | h
  · exact q1 e h
  · exact q2 e h

theorem reads_receive (w : World) : Reads w (receive_byte w).2 :=
  ⟨[Event.xfer 0xFF (w.miso w.rx % 256)], rfl, fun _ he => ⟨_, List.mem_singleton.1 he⟩⟩

theorem response_loop_reads : ∀ (tries res : Nat) (w : World),
    Reads w (response_loop tries res w).2 := by
  intro tries
  induction tries with
  | zero => intro res w; exact reads_here w
  | succ n ih =>
    intro res w
    rw [response_loop]
    split
    · exact reads_seq (reads_receive w) (ih _ _)
    · exact reads_here w

theorem idle_loop_reads : ∀ (count res : Nat) (w : World),
    Reads w (idle_loop count res w).2 := by
  intro count
  induction count with
  | zero => intro res w; exact reads_here w
  | succ n ih =>
    intro res w
    rw [idle_loop]
    split
    · exact reads_seq (reads_receive w) (ih _ _)
    · exact reads_here w

theorem collect_response_reads (cmd tries : Nat) (w : World) :
    Reads w (collect_response cmd tries w).2 := by
  unfold collect_response
  dsimp only
  split
  · exact reads_seq (response_loop_reads _ _ _) (idle_loop_reads _ _ _)
  · exact response_loop_reads _ _ _

theorem send_frame_reads (cmd arg tries : Nat) (o : Option Nat) (w : World) :
    Reads (transmit_frame cmd arg w) (send_frame cmd arg tries o w).2 := by
  have h0 := collect_response_reads cmd tries (transmit_frame cmd arg w)
  have h4 := reads_seq (reads_seq (reads_seq (reads_seq h0 (reads_receive _))
    (reads_receive _)) (reads_receive _)) (reads_receive _)
  unfold send_frame
  dsimp only
  split
  · cases o with
    | none => exact h4
    | some v => exact h4
  · exact h0

theorem transmit_frame_trace (cmd arg : Nat) (w : World) :
    (transmit_frame cmd arg w).trace = w.trace ++
      [Event.xfer cmd (w.miso w.rx % 256),
       Event.xfer (arg_byte arg 0) (w.miso (w.rx + 1) % 256),
       Event.xfer (arg_byte arg 1) (w.miso (w.rx + 2) % 256),
       Event.xfer (arg_byte arg 2) (w.miso (w.rx + 3) % 256),
       Event.xfer (arg_byte arg 3) (w.miso (w.rx + 4) % 256),
       Event.xfer (crc_of cmd) (w.miso (w.rx + 5) % 256)] := by
  simp [transmit_frame, exchange_byte]

theorem arg_byte_eq (arg : Nat) :
    arg_byte arg 0 = arg >>> 24 &&& 0xFF ∧ arg_byte arg 1 = arg >>> 16 &&& 0xFF ∧
    arg_byte arg 2 = arg >>> 8 &&& 0xFF ∧ arg_byte arg 3 = arg &&& 0xFF := by
  have h : ∀ x : Nat, x &&& 0xFF = x % 256 := fun x => Nat.and_pow_two_sub_one_eq_mod x 8
  simp only [h]
  exact ⟨rfl, rfl, rfl, by simp [arg_byte]⟩

theorem crc_of_eq (cmd : Nat) :
    crc_of cmd = if cmd = CMD0 then 0x95 else if cmd = CMD8 then 0x87 else 0 := by
  unfold crc_of
  by_cases h0 : cmd = CMD0
  · subst h0; decide
  · by_cases h8 : cmd = CMD8
    · subst h8; decide
    · simp [h0, h8]

/-! ## Runs against a responsive card -/

/-- A card-ready wait that sees `0xFF` on its first poll. -/
theorem wait_ready_now (fuel : Nat) (w : World) (hf : 2 ≤ fuel)
    (hclk : w.clock w.tk % 65536 < 500) (hrdy : w.miso w.rx % 256 = 0xFF) :
    wait_sd_ready fuel w = some (0xFF, after_ready w) := by
  obtain ⟨m, rfl⟩ : ∃ m, fuel = m + 2 := ⟨fuel - 2, by omega⟩
  have h1 : wait_sd_ready_loop (m + 2) 0 (start_timer w) =
      some (0xFF, (receive_byte (get_timer_val (start_timer w)).2).2) := by
    rw [wait_sd_ready_loop, if_pos (by decide), if_pos (by simpa [start_timer] using hclk)]
    rw [wait_sd_ready_loop]
    have : (receive_byte (get_timer_val (start_timer w)).2).1 = 0xFF := by
      simpa [start_timer] using hrdy
    rw [this, if_neg (by decide)]
  unfold wait_sd_ready
  rw [h1]
  rfl

theorem after_ready_still (w : World) : Still w (after_ready w) :=
  (((still_emit Event.tim_start w rfl).seq (still_timer _)).seq (still_receive _)).seq
    (still_emit Event.tim_stop _ rfl)

theorem after_ready_rx (w : World) : (after_ready w).rx = w.rx + 1 := rfl

theorem after_ready_tk (w : World) : (after_ready w).tk = w.tk + 1 := rfl

theorem transmit_frame_rx (cmd arg : Nat) (w : World) :
    (transmit_frame cmd arg w).rx = w.rx + 6 := rfl

theorem transmit_frame_tk (cmd arg : Nat) (w : World) :
    (transmit_frame cmd arg w).tk = w.tk := rfl

/-- A command without extended response, sent to a card that is ready at once and
answers with the valid status byte `v` on the first response poll. -/
theorem send_command_answer (fuel cmd arg tries v : Nat) (o : Option Nat) (w : World)
    (hf : 2 ≤ fuel) (h0 : cmd ≠ CMD0) (h8 : cmd ≠ CMD8) (h58 : cmd ≠ CMD58)
    (ht : 1 ≤ tries % 256)
    (hclk : w.clock w.tk % 65536 < 500) (hrdy : w.miso w.rx % 256 = 0xFF)
    (hv : w.miso (w.rx + 7) % 256 = v) (hbit : v &&& 0x80 = 0) :
    send_command fuel cmd arg tries o w =
      some ((v, o), (receive_byte (transmit_frame cmd arg (after_ready w))).2) := by
  unfold send_command
  rw [if_neg h0, wait_ready_now fuel w hf hclk hrdy]
  dsimp only
  rw [if_pos (by decide)]
  unfold send_frame collect_response
  dsimp only
  rw [if_neg h0, if_neg (by simp [h8, h58])]
  obtain ⟨t, ht'⟩ : ∃ t, tries % 256 = t + 1 := ⟨tries % 256 - 1, by omega⟩
  have hval : (receive_byte (transmit_frame cmd arg (after_ready w))).1 = v := by
    rw [receive_val, (transmit_frame_still cmd arg _).miso, (after_ready_still w).miso,
      transmit_frame_rx, after_ready_rx]
    rw [← hv]
  have hresp : response_loop (tries % 256) 0xFF (transmit_frame cmd arg (after_ready w)) =
      (v, (receive_byte (transmit_frame cmd arg (after_ready w))).2) := by
    rw [ht', response_loop, if_pos (by decide), hval]
    cases t with
    | zero => rfl
    | succ t => rw [response_loop, if_neg (by simpa using hbit)]
  rw [hresp]

/-- A `read_block` whose token poll sees `0xFE` at once. -/
theorem read_block_now (fuel buff size : Nat) (w : World) (hf : 2 ≤ fuel)
    (hclk : w.clock w.tk % 65536 < 500) (htok : w.miso w.rx % 256 = 0xFE) :
    ∃ w', read_block fuel buff size w = some (SUCCESS, w') ∧ w'.rx = w.rx + size + 3 := by
  obtain ⟨m, rfl⟩ : ∃ m, fuel = m + 2 := ⟨fuel - 2, by omega⟩
  have h1 : token_loop (m + 2) 0xFF (start_timer w) =
      some (0xFE, (receive_byte (get_timer_val (start_timer w)).2).2) := by
    rw [token_loop, if_pos rfl, if_pos (by simpa [start_timer] using hclk)]
    rw [token_loop]
    have : (receive_byte (get_timer_val (start_timer w)).2).1 = 0xFE := by
      simpa [start_timer] using htok
    rw [this, if_neg (by decide)]
  unfold read_block
  rw [h1]
  dsimp only
  rw [if_neg (by decide)]
  refine ⟨_, rfl, ?_⟩
  rw [receive_rx, receive_rx, (read_data_loop_spec buff size size _ le_rfl).2.1]
  simp [start_timer]; omega

/-- The block loop against a card that sends `n` blocks back to back. -/
theorem read_blocks_loop_run (fuel buff count : Nat) (hf : 2 ≤ fuel) : ∀ (n : Nat) (w : World),
    (∀ k, w.clock k % 65536 < 500) →
    (∀ i, i < n → w.miso (w.rx + 515 * i) % 256 = 0xFE) →
    ∃ w', read_blocks_loop fuel buff count n w = some (true, w') ∧ w'.rx = w.rx + 515 * n := by
  intro n
  induction n with
  | zero => intro w _ _; exact ⟨w, rfl, rfl⟩
  | succ n ih =>
    intro w hclk htok
    obtain ⟨w1, h1, r1⟩ := read_block_now fuel
      (buff + (512 * (count - (n + 1))) % 2 ^ 32) 512 w hf (hclk _) (by simpa using htok 0 (by omega))
    have q1 := (read_block_ok h1 (by decide)).1
    obtain ⟨w', h2, r2⟩ := ih w1 (by rw [q1.clock]; exact hclk) (by
      intro i hi
      rw [q1.miso, r1]
      have := htok (i + 1) (by omega)
      have e : w.rx + 515 * (i + 1) = w.rx + 512 + 3 + 515 * i := by omega
      rw [e] at this
      exact this)
    refine ⟨w', ?_, by rw [r2, r1]; omega⟩
    rw [read_blocks_loop, h1]
    dsimp only
    rw [if_neg (by decide)]
    exact h2

/-- Whatever the sector count, the block loop never writes at or above
`buff + 2 ^ 32`: its offsets are 32-bit values. -/
theorem read_blocks_loop_high (fuel buff count : Nat) : ∀ (n : Nat) (w : World) (ok : Bool)
    (w' : World), read_blocks_loop fuel buff count n w = some (ok, w') →
    ∀ a, buff + 2 ^ 32 ≤ a → w'.mem a = w.mem a := by
  intro n
  induction n with
  | zero =>
    intro w ok w' h a _
    rw [read_blocks_loop] at h
    rw [(some_pair h).2]
  | succ n ih =>
    intro w ok w' h a ha
    rw [read_blocks_loop] at h
    split at h
    · cases h
    · rename_i st w1 hb
      have hw1 : w1.mem a = w.mem a := by
        by_cases hst : st = FAIL
        · rw [(read_block_fail hb hst).mem]
        · obtain ⟨_, t, _, _, _, hm⟩ := read_block_ok hb hst
          rw [hm a, if_neg (by omega)]
      split at h
      · rw [(some_pair h).2]; exact hw1
      · rw [ih w1 ok w' h a ha, hw1]

theorem streaming_card_head (n : Nat) :
    streaming_card n 0 = 0xFF ∧ streaming_card n 1 = 0xFF ∧ streaming_card n 8 = 0 := by
  simp [streaming_card]

theorem streaming_card_token (n i : Nat) (hi : i < n) :
    streaming_card n (9 + 515 * i) = 0xFE := by
  unfold streaming_card
  rw [if_neg (by omega), if_neg (by omega), if_pos (by omega), if_pos (by omega)]

theorem streaming_card_tail (n : Nat) :
    streaming_card n (9 + 515 * n) = 0xFF ∧ streaming_card n (9 + 515 * n + 7) = 0 ∧
    streaming_card n (9 + 515 * n + 8) = 0 ∧ streaming_card n (9 + 515 * n + 9) = 0xFF := by
  unfold streaming_card
  refine ⟨?_, ?_, ?_, ?_⟩
  · rw [if_neg (by omega), if_neg (by omega), if_neg (by omega), if_pos rfl]
  · rw [if_neg (by omega), if_neg (by omega), if_neg (by omega), if_neg (by omega),
      if_pos (by omega)]
  · rw [if_neg (by omega), if_neg (by omega), if_neg (by omega), if_neg (by omega),
      if_pos (by omega)]
  · rw [if_neg (by omega), if_neg (by omega), if_neg (by omega), if_neg (by omega),
      if_neg (by omega)]

theorem streaming_card_values (n k : Nat) : streaming_card n k % 256 ≠ 7 := by
  unfold streaming_card
  split
  · decide
  · split
    · decide
    · split
      · split <;> decide
      · split
        · decide
        · split <;> decide

/-- The multiple-block read of `n` sectors against `streaming_card n` succeeds, and
leaves the memory from `buff + 2 ^ 32` on as it was. -/
theorem read_sd_streaming (buff sector n : Nat) (h2 : 2 ≤ n) (hn : n < 2 ^ 32) :
    ∃ w', read_sd 2 0 buff sector n (streaming_world n) = some (RES_OK, w') ∧
      ∀ a, buff + 2 ^ 32 ≤ a → w'.mem a = 7 := by
  obtain ⟨c0, c1, c8⟩ := streaming_card_head n
  obtain ⟨e0, e7, e8, e9⟩ := streaming_card_tail n
  have z : (0 : Nat) % 65536 < 500 := by decide
  -- the card is ready, CMD18 is accepted
  have hw1 : wait_sd_ready 2 (select (streaming_world n)) =
      some (0xFF, after_ready (select (streaming_world n))) :=
    wait_ready_now 2 _ le_rfl z (by
      show streaming_card n 0 % 256 = 0xFF
      rw [c0])
  have hc2 : send_command 2 CMD18 sector 10 none (after_ready (select (streaming_world n))) =
      some ((0, none), (receive_byte (transmit_frame CMD18 sector
        (after_ready (after_ready (select (streaming_world n)))))).2) :=
    send_command_answer 2 CMD18 sector 10 0 none _ le_rfl (by decide) (by decide) (by decide)
      (by decide) z
      (by show streaming_card n 1 % 256 = 0xFF; rw [c1])
      (by show streaming_card n (1 + 7) % 256 = 0; rw [c8])
      (by decide)
  -- the n blocks arrive
  obtain ⟨w3, hl, r3⟩ := read_blocks_loop_run 2 buff n le_rfl n
    (receive_byte (transmit_frame CMD18 sector
      (after_ready (after_ready (select (streaming_world n)))))).2
    (fun _ => z)
    (fun i hi => by
      show streaming_card n (9 + 515 * i) % 256 = 0xFE
      rw [streaming_card_token n i hi])
  have q3 := read_blocks_loop_quiet _ _ _ _ _ _ _ hl
  have hm3 : w3.miso = streaming_card n := q3.miso
  have hk3 : w3.clock = fun _ => 0 := q3.clock
  have r3' : w3.rx = 9 + 515 * n := r3
  -- CMD12 is accepted, the next byte is zero, the card is ready
  have hc4 : send_command 2 CMD12 0 10 none w3 =
      some ((0, none), (receive_byte (transmit_frame CMD12 0 (after_ready w3))).2) :=
    send_command_answer 2 CMD12 0 10 0 none w3 le_rfl (by decide) (by decide) (by decide)
      (by decide) (by rw [hk3]; exact z) (by rw [hm3, r3', e0])
      (by rw [hm3, r3', e7]) (by decide)
  have s4 : Still w3 (receive_byte (transmit_frame CMD12 0 (after_ready w3))).2 :=
    ((after_ready_still w3).seq (transmit_frame_still _ _ _)).seq (still_receive _)
  have r4 : (receive_byte (transmit_frame CMD12 0 (after_ready w3))).2.rx = 9 + 515 * n + 8 := by
    rw [receive_rx, transmit_frame_rx, after_ready_rx, r3']
  have hstuff : (receive_byte (receive_byte (transmit_frame CMD12 0 (after_ready w3))).2).1 = 0 := by
    rw [receive_val, s4.miso, hm3, r4, e8]
  have hw6 : wait_sd_ready 2 (receive_byte (receive_byte (transmit_frame CMD12 0
      (after_ready w3))).2).2 = some (0xFF, after_ready (receive_byte (receive_byte
        (transmit_frame CMD12 0 (after_ready w3))).2).2) :=
    wait_ready_now 2 _ le_rfl (by rw [receive_clock, s4.clock, hk3]; exact z) (by
      rw [receive_miso, receive_rx, s4.miso, hm3, r4, e9])
  refine ⟨deselect (after_ready (receive_byte (receive_byte (transmit_frame CMD12 0
    (after_ready w3))).2).2), ?_, fun a ha => ?_⟩
  · unfold read_sd
    have hs : ¬ (streaming_world n).status = STA_NOINIT := by
      show ¬ (0 : Nat) = 1
      decide
    rw [if_neg hs, if_neg (by omega), hw1]
    dsimp only
    rw [if_neg (by omega), hc2]
    dsimp only
    rw [if_pos rfl, Nat.mod_eq_of_lt hn, hl]
    dsimp only
    rw [if_pos rfl, hc4]
    dsimp only
    rw [hw6]
    dsimp only
    rw [if_pos hstuff]
  · have m6 := ((s4.seq (still_receive _)).seq (after_ready_still _)).mem
    show (after_ready (receive_byte (receive_byte (transmit_frame CMD12 0
      (after_ready w3))).2).2).mem a = 7
    rw [m6, read_blocks_loop_high _ _ _ _ _ _ _ hl a ha]
    rfl

/-! ## Extended response value -/

theorem be32_or_eq_add (b0 b1 b2 b3 : Nat) (h0 : b0 < 256) (h1 : b1 < 256) (h2 : b2 < 256)
    (h3 : b3 < 256) :
    (b0 <<< 24 ||| b1 <<< 16 ||| b2 <<< 8 ||| b3) % 2 ^ 32 =
      b0 * 2 ^ 24 + b1 * 2 ^ 16 + b2 * 2 ^ 8 + b3 := by
  have e1 : b0 <<< 24 ||| b1 <<< 16 = 2 ^ 16 * (2 ^ 8 * b0 + b1) := by
    have := Nat.mul_add_lt_is_or (i := 24) (b := b1 <<< 16)
      (by rw [Nat.shiftLeft_eq]; omega) b0
    rw [Nat.shiftLeft_eq b0 24, Nat.mul_comm b0, ← this, Nat.shiftLeft_eq]
    omega
  have e2 : 2 ^ 16 * (2 ^ 8 * b0 + b1) ||| b2 <<< 8 = 2 ^ 8 * (2 ^ 8 * (2 ^ 8 * b0 + b1) + b2) := by
    have := Nat.mul_add_lt_is_or (i := 16) (b := b2 <<< 8)
      (by rw [Nat.shiftLeft_eq]; omega) (2 ^ 8 * b0 + b1)
    rw [← this, Nat.shiftLeft_eq]
    omega
  have e3 : 2 ^ 8 * (2 ^ 8 * (2 ^ 8 * b0 + b1) + b2) ||| b3 =
      2 ^ 8 * (2 ^ 8 * (2 ^ 8 * b0 + b1) + b2) + b3 :=
    (Nat.mul_add_lt_is_or (i := 8) (by omega) _).symm
  rw [e1, e2, e3]
  omega

theorem as_uint32_as_int32 (x : Nat) : as_uint32 (as_int32 x) = x % 2 ^ 32 := by
  unfold as_uint32 as_int32
  split <;> omega

/-! ## Stop of a multiple-block read -/

/-- In a multiple-block read (`count ≥ 2`, session not `STA_NOINIT`) where CMD18 is accepted with status 0 and every `read_block`
succeeds, the byte received right after the CMD12 exchange (stream position
`w4.rx`, `w4` being the world in which `send_command(CMD12)` returned) decides the
result: whenever `read_sd` returns, it returns `RES_OK` if that byte is `0x00` and
`RES_ERROR` otherwise, and it does return as soon as the closing card-ready wait
does.  The answer to CMD12 itself (`r4`) and the outcome of the waits play no
part. -/
theorem stop_byte_result (fuel buff sector count r1 : Nat) (o2 : Option Nat)
    (r4 : Nat × Option Nat) (w w1 w2 w3 w4 : World)
    (hst : status_sd w ≠ STA_NOINIT) (hc : 2 ≤ count)
    (h1 : wait_sd_ready fuel (select w) = some (r1, w1))
    (h2 : send_command fuel CMD18 sector 10 none w1 = some ((0, o2), w2))
    (h3 : read_blocks_loop fuel buff count (count % 2 ^ 32) w2 = some (true, w3))
    (h4 : send_command fuel CMD12 0 10 none w3 = some (r4, w4)) :
    (∀ r w', read_sd fuel 0 buff sector count w = some (r, w') →
      r = if w.miso w4.rx % 256 = 0 then RES_OK else RES_ERROR) ∧
    (∀ r6 w6, wait_sd_ready fuel (receive_byte w4).2 = some (r6, w6) →
      read_sd fuel 0 buff sector count w =
        some (if w.miso w4.rx % 256 = 0 then RES_OK else RES_ERROR, deselect w6)) := by
  have hs : ¬ w.status = STA_NOINIT := hst
  have hm : w4.miso = w.miso := by
    have q := (((wait_still h1).toQuiet.andThen (send_command_still h2).toQuiet).andThen
      (read_blocks_loop_quiet _ _ _ _ _ _ _ h3)).andThen (send_command_still h4).toQuiet
    exact q.miso
  have hb : (receive_byte w4).1 = w.miso w4.rx % 256 := by rw [receive_val, hm]
  have key : read_sd fuel 0 buff sector count w =
      match wait_sd_ready fuel (receive_byte w4).2 with
      | none => none
      | some (_, w6) =>
        if (receive_byte w4).1 = 0 then some (RES_OK, deselect w6)
        else some (RES_ERROR, deselect w6) := by
    unfold read_sd
    rw [if_neg hs, if_neg (by omega), h1]
    dsimp only
    rw [if_neg (by omega), h2]
    dsimp only
    rw [if_pos rfl, h3]
    dsimp only
    rw [if_pos rfl, h4]
  constructor
  · intro r w' h
    rw [key] at h
    split at h
    · cases h
    · rw [hb] at h
      split at h
      · rename_i hz
        rw [(some_pair h).1, if_pos hz]
      · rename_i hz
        rw [(some_pair h).1, if_neg hz]
  · intro r6 w6 h6
    rw [key, h6]
    dsimp only
    rw [hb]
    split <;> rfl

/-! ## The card does not see the version -/

theorem wait_loop_set_version (v : Nat) : ∀ (fuel res : Nat) (w : World),
    wait_sd_ready_loop fuel res (set_version v w) =
      (wait_sd_ready_loop fuel res w).map (fun p => (p.1, set_version v p.2)) := by
  intro fuel
  induction fuel with
  | zero => intro res w; rfl
  | succ n ih =>
    intro res w
    rw [wait_sd_ready_loop, wait_sd_ready_loop]
    split
    · have e : (get_timer_val (set_version v w)).1 = (get_timer_val w).1 := rfl
      rw [e]
      split
      · exact ih (receive_byte (get_timer_val w).2).1 (receive_byte (get_timer_val w).2).2
      · rfl
    · rfl

theorem wait_set_version (v fuel : Nat) (w : World) :
    wait_sd_ready fuel (set_version v w) =
      (wait_sd_ready fuel w).map (fun p => (p.1, set_version v p.2)) := by
  unfold wait_sd_ready
  have e : start_timer (set_version v w) = set_version v (start_timer w) := rfl
  rw [e, wait_loop_set_version]
  cases wait_sd_ready_loop fuel 0 (start_timer w) with
  | none => rfl
  | some p =>
    dsimp only [Option.map]
    split <;> rfl

theorem response_loop_set_version (v : Nat) : ∀ (tries res : Nat) (w : World),
    response_loop tries res (set_version v w) =
      ((response_loop tries res w).1, set_version v (response_loop tries res w).2) := by
  intro tries
  induction tries with
  | zero => intro res w; rfl
  | succ n ih =>
    intro res w
    rw [response_loop, response_loop]
    split
    · exact ih (receive_byte w).1 (receive_byte w).2
    · rfl

theorem idle_loop_set_version (v : Nat) : ∀ (count res : Nat) (w : World),
    idle_loop count res (set_version v w) =
      ((idle_loop count res w).1, set_version v (idle_loop count res w).2) := by
  intro count
  induction count with
  | zero => intro res w; rfl
  | succ n ih =>
    intro res w
    rw [idle_loop, idle_loop]
    split
    · exact ih (receive_byte w).1 (receive_byte w).2
    · rfl

theorem collect_response_set_version (v cmd tries : Nat) (w : World) :
    collect_response cmd tries (set_version v w) =
      ((collect_response cmd tries w).1, set_version v (collect_response cmd tries w).2) := by
  unfold collect_response
  dsimp only
  rw [response_loop_set_version]
  split
  · exact idle_loop_set_version _ _ _ _
  · rfl

theorem send_frame_set_version (v cmd arg tries : Nat) (o : Option Nat) (w : World) :
    send_frame cmd arg tries o (set_version v w) =
      ((send_frame cmd arg tries o w).1, set_version v (send_frame cmd arg tries o w).2) := by
  unfold send_frame
  have e : transmit_frame cmd arg (set_version v w) = set_version v (transmit_frame cmd arg w) :=
    rfl
  rw [e, collect_response_set_version]
  dsimp only
  split
  · cases o <;> rfl
  · rfl

theorem send_command_set_version (v fuel cmd arg tries : Nat) (o : Option Nat) (w : World) :
    send_command fuel cmd arg tries o (set_version v w) =
      (send_command fuel cmd arg tries o w).map (fun p => (p.1, set_version v p.2)) := by
  unfold send_command
  split
  · rw [send_frame_set_version]; rfl
  · rw [wait_set_version]
    cases wait_sd_ready fuel w with
    | none => rfl
    | some p =>
      dsimp only [Option.map]
      split
      · rw [send_frame_set_version]
      · rfl

/-! ## The ACMD41 loops against a card that leaves idle state -/

theorem sd1_loop_exit (fuel timeout res : Nat) (w : World) (h : res ≠ 0x01) :
    sd1_loop fuel timeout res w = some (res, w) := by
  cases timeout with
  | zero => rfl
  | succ t => rw [sd1_loop, if_neg h]

theorem sd2_loop_exit (fuel timeout res : Nat) (w : World) (h : res ≠ 0x01) :
    sd2_loop fuel timeout res w = some ((res, timeout), w) := by
  cases timeout with
  | zero => rfl
  | succ t => rw [sd2_loop, if_neg h]

/-- After `j` idle rounds and one round answered `0x00` the SD version 1 loop returns
`0x00`, provided its counter allows `j + 1` iterations. -/
theorem sd1_loop_rounds (fuel : Nat) : ∀ (j timeout : Nat) (w w3 w4 w5 : World)
    (c : Nat × Option Nat), IdleRounds fuel 0 j w w3 →
    send_command fuel CMD55 0 10 none w3 = some (c, w4) →
    send_command fuel ACMD41 0 10 none w4 = some ((0x00, none), w5) →
    j + 1 ≤ timeout → sd1_loop fuel timeout 0x01 w = some (0x00, w5) := by
  intro j
  induction j with
  | zero =>
    intro timeout w w3 w4 w5 c hi h55 h41 ht
    have e : w3 = w := hi
    subst e
    obtain ⟨t, rfl⟩ : ∃ t, timeout = t + 1 := ⟨timeout - 1, by omega⟩
    rw [sd1_loop, if_pos rfl, h55]
    dsimp only
    rw [h41]
    exact sd1_loop_exit fuel t 0 w5 (by decide)
  | succ j ih =>
    intro timeout w w3 w4 w5 c hi h55 h41 ht
    obtain ⟨c', u1, u2, g55, g41, hrest⟩ := hi
    obtain ⟨t, rfl⟩ : ∃ t, timeout = t + 1 := ⟨timeout - 1, by omega⟩
    rw [sd1_loop, if_pos rfl, g55]
    dsimp only
    rw [g41]
    exact ih t u2 w3 w4 w5 c hrest h55 h41 (by omega)

/-- After `j` idle rounds and one round answered `0x00` the SD version 2 loop returns
`0x00` and has used `j + 1` of its iterations. -/
theorem sd2_loop_rounds (fuel : Nat) : ∀ (j timeout : Nat) (w w3 w4 w5 : World)
    (c : Nat × Option Nat), IdleRounds fuel 0x40000000 j w w3 →
    send_command fuel CMD55 0 10 none w3 = some (c, w4) →
    send_command fuel ACMD41 0x40000000 10 none w4 = some ((0x00, none), w5) →
    j + 1 ≤ timeout →
    sd2_loop fuel timeout 0x01 w = some ((0x00, timeout - (j + 1)), w5) := by
  intro j
  induction j with
  | zero =>
    intro timeout w w3 w4 w5 c hi h55 h41 ht
    have e : w3 = w := hi
    subst e
    obtain ⟨t, rfl⟩ : ∃ t, timeout = t + 1 := ⟨timeout - 1, by omega⟩
    rw [sd2_loop, if_pos rfl, h55]
    dsimp only
    rw [h41]
    exact sd2_loop_exit fuel t 0 w5 (by decide)
  | succ j ih =>
    intro timeout w w3 w4 w5 c hi h55 h41 ht
    obtain ⟨c', u1, u2, g55, g41, hrest⟩ := hi
    obtain ⟨t, rfl⟩ : ∃ t, timeout = t + 1 := ⟨timeout - 1, by omega⟩
    rw [sd2_loop, if_pos rfl, g55]
    dsimp only
    rw [g41]
    have := ih t u2 w3 w4 w5 c hrest h55 h41 (by omega)
    show sd2_loop fuel t 1 u2 = _
    rw [this]
    have e : t - (j + 1) = t + 1 - (j + 1 + 1) := by omega
    rw [e]

theorem idle_rounds_still (fuel arg : Nat) : ∀ (k : Nat) (a b : World),
    IdleRounds fuel arg k a b → Still a b := by
  intro k
  induction k with
  | zero => intro a b h; rw [show b = a from h]; exact Still.here a
  | succ j ih =>
    intro a b h
    obtain ⟨c', u1, u2, g55, g41, hrest⟩ := h
    exact ((send_command_still g55).seq (send_command_still g41)).seq (ih u2 b hrest)

/-- The legacy branch with a card that leaves idle state after `k` rounds and
accepts CMD16. -/
theorem legacy_path_sd1 (fuel k : Nat) (w2 w3 w4 w5 w6 : World) (c : Nat × Option Nat)
    (hk : k ≤ 10000) (hidle : IdleRounds fuel 0 k w2 w3)
    (h55 : send_command fuel CMD55 0 10 none w3 = some (c, w4))
    (h41 : send_command fuel ACMD41 0 10 none w4 = some ((0x00, none), w5))
    (h16 : send_command fuel CMD16 0x200 10 none w5 = some ((0x00, none), w6)) :
    legacy_path fuel w2 =
      some ((clear_noinit (set_version 2 w6)).status, deselect (clear_noinit (set_version 2 w6))) := by
  have hloop : ∃ c' u1 r u2, send_command fuel CMD55 0 10 none w2 = some (c', u1) ∧
      send_command fuel ACMD41 0 10 none u1 = some ((r, none), u2) ∧
      sd1_loop fuel 10000 r u2 = some (0x00, w5) := by
    cases k with
    | zero =>
      have e : w3 = w2 := hidle
      subst e
      exact ⟨c, w4, 0, w5, h55, h41, sd1_loop_exit fuel 10000 0 w5 (by decide)⟩
    | succ j =>
      obtain ⟨c', u1, u2, g55, g41, hrest⟩ := hidle
      exact ⟨c', u1, 1, u2, g55, g41,
        sd1_loop_rounds fuel j 10000 u2 w3 w4 w5 c hrest h55 h41 (by omega)⟩
  obtain ⟨c', u1, r, u2, g55, g41, gl⟩ := hloop
  have hset : set_blocklen fuel (set_version 2 w5) =
      some ((clear_noinit (set_version 2 w6)).status,
        deselect (clear_noinit (set_version 2 w6))) := by
    unfold set_blocklen
    rw [send_command_set_version, h16]
    dsimp only [Option.map]
    rw [if_pos rfl]
  unfold legacy_path
  rw [g55]
  dsimp only
  rw [g41]
  dsimp only
  rw [gl]
  dsimp only
  rw [if_neg (by decide)]
  exact hset

theorem idle_rounds_zero (fuel arg : Nat) (w : World) : IdleRounds fuel arg 0 w w := rfl

theorem idle_rounds_succ {fuel arg k : Nat} {w w1 w2 w' : World} {c : Nat × Option Nat}
    (h55 : send_command fuel CMD55 0 10 none w = some (c, w1))
    (h41 : send_command fuel ACMD41 arg 10 none w1 = some ((0x01, none), w2))
    (hrest : IdleRounds fuel arg k w2 w') : IdleRounds fuel arg (k + 1) w w' :=
  ⟨c, w1, w2, h55, h41, hrest⟩

/-! ## The voltage-check branch against a card that leaves idle state -/

theorem answered_still (cmd arg : Nat) (w : World) :
    Still w (receive_byte (transmit_frame cmd arg (after_ready w))).2 :=
  ((after_ready_still w).seq (transmit_frame_still cmd arg _)).seq (still_receive _)

theorem answered_rx (cmd arg : Nat) (w : World) :
    (receive_byte (transmit_frame cmd arg (after_ready w))).2.rx = w.rx + 8 := rfl

/-- Rounds of CMD55 + ACMD41 against a card that is ready at once and answers
`0x01` to both on the first response poll: a round takes 16 exchanges. -/
theorem idle_rounds_run (fuel arg : Nat) (hf : 2 ≤ fuel) : ∀ (n : Nat) (v : World),
    (∀ t, v.clock t % 65536 < 500) →
    (∀ i, i < n → v.miso (v.rx + 16 * i) % 256 = 0xFF ∧
      v.miso (v.rx + 16 * i + 7) % 256 = 0x01 ∧
      v.miso (v.rx + 16 * i + 8) % 256 = 0xFF ∧
      v.miso (v.rx + 16 * i + 15) % 256 = 0x01) →
    ∃ v', IdleRounds fuel arg n v v' ∧ v'.rx = v.rx + 16 * n ∧ Still v v' := by
  intro n
  induction n with
  | zero => intro v _ _; exact ⟨v, rfl, rfl, Still.here v⟩
  | succ n ih =>
    intro v hclk hcard
    obtain ⟨c0, c7, c8, c15⟩ := hcard 0 (by omega)
    have s1 := answered_still CMD55 0 v
    have s2 := answered_still ACMD41 arg (receive_byte (transmit_frame CMD55 0 (after_ready v))).2
    have h55 := send_command_answer fuel CMD55 0 10 0x01 none v hf (by decide) (by decide)
      (by decide) (by decide) (hclk _) (by simpa using c0) (by simpa using c7) (by decide)
    have h41 := send_command_answer fuel ACMD41 arg 10 0x01 none
      (receive_byte (transmit_frame CMD55 0 (after_ready v))).2 hf (by decide) (by decide)
      (by decide) (by decide) (by rw [s1.clock]; exact hclk _)
      (by rw [s1.miso, answered_rx]; simpa using c8)
      (by
        rw [s1.miso, answered_rx]
        have e : v.rx + 8 + 7 = v.rx + 16 * 0 + 15 := by omega
        rw [e]; exact c15)
      (by decide)
    obtain ⟨v', hr, hrx, hs⟩ := ih
      (receive_byte (transmit_frame ACMD41 arg
        (after_ready (receive_byte (transmit_frame CMD55 0 (after_ready v))).2))).2
      (by intro t; rw [s2.clock, s1.clock]; exact hclk t)
      (by
        intro i hi
        rw [s2.miso, s1.miso, answered_rx, answered_rx]
        have := hcard (i + 1) (by omega)
        have e : v.rx + 16 * (i + 1) = v.rx + 8 + 8 + 16 * i := by omega
        rw [e] at this
        exact this)
    refine ⟨v', ⟨_, _, _, h55, h41, hr⟩, ?_, (s1.seq s2).seq hs⟩
    rw [hrx, answered_rx, answered_rx]
    omega

/-- CMD58 with a destination, sent to a card that is ready at once and answers with
the valid status byte `v` on the first response poll: the four bytes that follow
are stored. -/
theorem send_command_ocr (fuel arg tries v d : Nat) (w : World)
    (hf : 2 ≤ fuel) (ht : 1 ≤ tries % 256)
    (hclk : w.clock w.tk % 65536 < 500) (hrdy : w.miso w.rx % 256 = 0xFF)
    (hv : w.miso (w.rx + 7) % 256 = v) (hbit : v &&& 0x80 = 0) :
    ∃ w', send_command fuel CMD58 arg tries (some d) w =
      some ((v, some (w.miso (w.rx + 8) % 256 * 2 ^ 24 + w.miso (w.rx + 9) % 256 * 2 ^ 16 +
        w.miso (w.rx + 10) % 256 * 2 ^ 8 + w.miso (w.rx + 11) % 256)), w') := by
  unfold send_command
  rw [if_neg (by decide), wait_ready_now fuel w hf hclk hrdy]
  dsimp only
  rw [if_pos (by decide)]
  unfold send_frame collect_response
  dsimp only
  rw [if_pos (Or.inr rfl), if_neg (by decide)]
  obtain ⟨t, ht'⟩ : ∃ t, tries % 256 = t + 1 := ⟨tries % 256 - 1, by omega⟩
  have hval : (receive_byte (transmit_frame CMD58 arg (after_ready w))).1 = v := by
    rw [receive_val, (transmit_frame_still CMD58 arg _).miso, (after_ready_still w).miso,
      transmit_frame_rx, after_ready_rx]
    rw [← hv]
  have hresp : response_loop (tries % 256) 0xFF (transmit_frame CMD58 arg (after_ready w)) =
      (v, (receive_byte (transmit_frame CMD58 arg (after_ready w))).2) := by
    rw [ht', response_loop, if_pos (by decide), hval]
    cases t with
    | zero => rfl
    | succ t => rw [response_loop, if_neg (by simpa using hbit)]
  rw [hresp]
  refine ⟨(receive_byte (receive_byte (receive_byte (receive_byte
    (receive_byte (transmit_frame CMD58 arg (after_ready w))).2).2).2).2).2, ?_⟩
  simp only [receive_val, receive_miso, receive_rx, (transmit_frame_still CMD58 arg _).miso,
    (after_ready_still w).miso, transmit_frame_rx, after_ready_rx]
  have e8 : w.rx + 1 + 6 + 1 = w.rx + 8 := rfl
  have e9 : w.rx + 1 + 6 + 1 + 1 = w.rx + 9 := rfl
  have e10 : w.rx + 1 + 6 + 1 + 1 + 1 = w.rx + 10 := rfl
  have e11 : w.rx + 1 + 6 + 1 + 1 + 1 + 1 = w.rx + 11 := rfl
  rw [e8, e9, e10, e11]
  rw [be32_or_eq_add _ _ _ _ (Nat.mod_lt _ (by norm_num)) (Nat.mod_lt _ (by norm_num))
    (Nat.mod_lt _ (by norm_num)) (Nat.mod_lt _ (by norm_num))]

/-- The voltage-check branch with a card that answers ACMD41 with `0x00` in round
`j + 1` and then reports a set capacity bit: the outcome depends on whether round
`j + 1` was the last one the counter allows. -/
theorem voltage_path_rounds (fuel j e8 ocr : Nat) (w2 w3 w4 w5 w6 : World)
    (c : Nat × Option Nat) (he8 : e8 &&& 0x00000FFF = 0x1AA) (hj : j + 1 ≤ 10000)
    (hidle : IdleRounds fuel 0x40000000 j w2 w3)
    (h55 : send_command fuel CMD55 0 10 none w3 = some (c, w4))
    (h41 : send_command fuel ACMD41 0x40000000 10 none w4 = some ((0x00, none), w5))
    (h58 : send_command fuel CMD58 0 10 (some e8) w5 = some ((0x00, some ocr), w6))
    (hccs : ocr &&& 0x40000000 ≠ 0) :
    voltage_path fuel 0x01 e8 w2 =
      if j + 1 = 10000 then some (init_failed w5)
      else some ((clear_noinit (set_version 3 w6)).status,
        deselect (clear_noinit (set_version 3 w6))) := by
  unfold voltage_path
  rw [if_neg (by rw [he8]; decide),
    sd2_loop_rounds fuel j 10000 w2 w3 w4 w5 c hidle h55 h41 hj]
  dsimp only
  by_cases hlast : j + 1 = 10000
  · rw [if_pos hlast, if_pos (by omega)]
  · rw [if_neg hlast, if_neg (by omega), h58]
    dsimp only
    rw [if_neg (by
      intro h
      exact hccs h.2), if_pos rfl]
    rfl

theorem init_card_in_round (r8 idle i t : Nat) (hi : i ≤ idle) (ht : t < 16) :
    init_card r8 idle (119 + 16 * i + t) =
      if t = 7 then 0x01 else if t = 15 then (if i < idle then 0x01 else 0x00) else 0xFF := by
  have e1 : (119 + 16 * i + t - 119) % 16 = t := by omega
  have e2 : (119 + 16 * i + t - 119) / 16 = i := by omega
  unfold init_card
  rw [if_neg (by omega), if_neg (by omega), if_neg (by omega), if_neg (by omega),
    if_neg (by omega), if_pos (by omega), e1, e2]

theorem init_card_round (r8 idle i : Nat) (hi : i ≤ idle) :
    init_card r8 idle (119 + 16 * i) = 0xFF ∧ init_card r8 idle (119 + 16 * i + 7) = 0x01 ∧
    init_card r8 idle (119 + 16 * i + 8) = 0xFF ∧
    init_card r8 idle (119 + 16 * i + 15) = if i < idle then 0x01 else 0x00 :=
  ⟨init_card_in_round r8 idle i 0 hi (by decide), init_card_in_round r8 idle i 7 hi (by decide),
    init_card_in_round r8 idle i 8 hi (by decide), init_card_in_round r8 idle i 15 hi (by decide)⟩

/-! # Verified properties -/

/-- C1: while the session status is `STA_NOINIT`, `read_sd` and `write_sd` return
`RES_NOTRDY` whatever the drive number, buffer, sector and count are (also for
`pdrv ≠ 0` and `count = 0`: the not-ready check comes first), without touching
the world. -/
theorem not_ready_first (fuel pdrv buff sector count : Nat) (w : World)
    (h : status_sd w = STA_NOINIT) :
    read_sd fuel pdrv buff sector count w = some (RES_NOTRDY, w) ∧
    write_sd fuel pdrv buff sector count w = some (RES_NOTRDY, w) := by
  have h' : w.status = STA_NOINIT := h
  simp [read_sd, write_sd, h']

theorem not_ready_first_witness :
    status_sd fresh = STA_NOINIT ∧
    (read_sd 0 1 0 0 0 fresh = some (RES_NOTRDY, fresh) ∧
     write_sd 0 1 0 0 0 fresh = some (RES_NOTRDY, fresh)) :=
  ⟨rfl, not_ready_first 0 1 0 0 0 fresh rfl⟩

/-- C2: on a session whose status is not `STA_NOINIT` (in particular a Ready one),
`read_sd` and `write_sd` called with `pdrv ≠ 0` or `count = 0` return
`RES_PARERR` and hand back the very world they were given: no chip-select write,
no byte exchange and no timer call is logged, and no fuel is needed. -/
theorem param_error_silent (fuel pdrv buff sector count : Nat) (w : World)
    (hready : status_sd w ≠ STA_NOINIT) (hbad : pdrv ≠ 0 ∨ count = 0) :
    (∃ w', read_sd fuel pdrv buff sector count w = some (RES_PARERR, w') ∧
       w'.trace = w.trace ++ [] ∧ w'.rx = w.rx ∧ w'.tk = w.tk ∧ w' = w) ∧
    (∃ w', write_sd fuel pdrv buff sector count w = some (RES_PARERR, w') ∧
       w'.trace = w.trace ++ [] ∧ w'.rx = w.rx ∧ w'.tk = w.tk ∧ w' = w) := by
  have h' : ¬ w.status = STA_NOINIT := hready
  constructor
  · exact ⟨w, by simp [read_sd, h', hbad], by simp, rfl, rfl, rfl⟩
  · exact ⟨w, by simp [write_sd, h', hbad], by simp, rfl, rfl, rfl⟩

theorem param_error_silent_witness :
    (status_sd ready_idle ≠ STA_NOINIT ∧ ((3 : Nat) ≠ 0 ∨ (0 : Nat) = 0)) ∧
    ((∃ w', read_sd 0 3 0 7 0 ready_idle = some (RES_PARERR, w') ∧
       w'.trace = ready_idle.trace ++ [] ∧ w'.rx = ready_idle.rx ∧ w'.tk = ready_idle.tk ∧
       w' = ready_idle) ∧
     (∃ w', write_sd 0 3 0 7 0 ready_idle = some (RES_PARERR, w') ∧
       w'.trace = ready_idle.trace ++ [] ∧ w'.rx = ready_idle.rx ∧ w'.tk = ready_idle.tk ∧
       w' = ready_idle)) :=
  ⟨⟨by decide, Or.inl (by decide)⟩,
   param_error_silent 0 3 0 7 0 ready_idle (by decide) (Or.inl (by decide))⟩

/-- C3, for the sector counts whose buffer fits the 32-bit range of the offsets
`512 * (count - blocksLeft)` (`512 * N ≤ 2 ^ 32`, that is `N ≤ 2 ^ 23`): a
`read_sd(0, buff, sector, N)` that returns `RES_OK` (which it only does on a ready
session with `N ≥ 1`) leaves in `buff[512*i .. 512*i + 511]`, for each `i < N`,
the 512 bytes the card sent right after the `i`-th start token `0xFE`, the blocks
being taken in arrival order, and changes no memory outside
`buff[0 .. 512*N - 1]`.  Reading the `N` sectors one at a time into successive
512-byte slots gives a buffer of the same description, hence the same content
whenever the card delivers the same payloads. -/
theorem multi_read_fills (fuel buff sector N : Nat) (w : World) (hfit : 512 * N ≤ 2 ^ 32)
    (hok : (read_sd fuel 0 buff sector N w).map Prod.fst = some RES_OK) :
    ∃ w' tok, read_sd fuel 0 buff sector N w = some (RES_OK, w') ∧
      Blocks w w' buff 0 N tok ∧
      ∀ fuel2 v v', single_reads fuel2 buff sector N v = some (true, v') →
        ∃ tok2, Blocks v v' buff 0 N tok2 ∧
          ((∀ i j, i < N → j < 512 →
              v.miso (tok2 i + 1 + j) % 256 = w.miso (tok i + 1 + j) % 256) →
            (∀ a, buff ≤ a → a < buff + 512 * N → v'.mem a = w'.mem a) ∧
            (∀ a, v.mem a = w.mem a → v'.mem a = w'.mem a)) := by
  cases hrd : read_sd fuel 0 buff sector N w with
  | none => rw [hrd] at hok; cases hok
  | some p =>
    obtain ⟨r, w'⟩ := p
    rw [hrd] at hok
    have hr : r = RES_OK := by simpa using hok
    subst hr
    obtain ⟨_, tok, hB⟩ := read_sd_ok hrd hfit
    refine ⟨w', tok, rfl, hB, ?_⟩
    intro fuel2 v v' hs
    obtain ⟨tok2, hB2⟩ := single_reads_ok fuel2 buff sector N v v' hs
    refine ⟨tok2, hB2, fun hsame => ?_⟩
    have hin : ∀ a, buff ≤ a → a < buff + 512 * N → v'.mem a = w'.mem a := by
      intro a h1 h2
      have hi : (a - buff) / 512 < N := by
        apply Nat.div_lt_of_lt_mul; omega
      have hj : (a - buff) % 512 < 512 := Nat.mod_lt _ (by norm_num)
      have ha : a = buff + 512 * ((a - buff) / 512) + (a - buff) % 512 := by
        have := Nat.div_add_mod (a - buff) 512
        omega
      rw [ha, hB2.data _ _ (Nat.zero_le _) hi hj, hB.data _ _ (Nat.zero_le _) hi hj]
      exact hsame _ _ hi hj
    refine ⟨hin, fun a ha => ?_⟩
    by_cases hc : buff ≤ a ∧ a < buff + 512 * N
    · exact hin a hc.1 hc.2
    · rw [hB2.rest a (by omega), hB.rest a (by omega)]
      exact ha

theorem multi_read_fills_witness :
    (512 * 2 ≤ 2 ^ 32 ∧
      (read_sd 3 0 4096 10 2 two_block_world).map Prod.fst = some RES_OK) ∧
    ∃ w' tok, read_sd 3 0 4096 10 2 two_block_world = some (RES_OK, w') ∧
      Blocks two_block_world w' 4096 0 2 tok ∧
      ∀ fuel2 v v', single_reads fuel2 4096 10 2 v = some (true, v') →
        ∃ tok2, Blocks v v' 4096 0 2 tok2 ∧
          ((∀ i j, i < 2 → j < 512 →
              v.miso (tok2 i + 1 + j) % 256 = two_block_world.miso (tok i + 1 + j) % 256) →
            (∀ a, 4096 ≤ a → a < 4096 + 512 * 2 → v'.mem a = w'.mem a) ∧
            (∀ a, v.mem a = two_block_world.mem a → v'.mem a = w'.mem a)) :=
  ⟨⟨by norm_num, by decide⟩, multi_read_fills 3 4096 10 2 two_block_world (by norm_num) (by decide)⟩

/-- C3 as stated, for every sector count, fails at the first count whose offsets
leave the 32-bit range.  With `N = 2 ^ 23 + 1` sectors and the card
`streaming_card N` the call returns `RES_OK`, but the block of index `2 ^ 23` is
stored at offset `512 * 2 ^ 23 mod 2 ^ 32 = 0`: the cell at offset `2 ^ 32`, where
the layout "block `i` at offset `512 * i`" puts its first byte, keeps its old
content 7, a value the card never sends.  So no assignment of start tokens
makes the buffer the concatenation of the delivered blocks. -/
theorem wrapped_offset_counterexample :
    ∃ w', read_sd 2 0 4096 0 8388609 (streaming_world 8388609) = some (RES_OK, w') ∧
      ¬ ∃ tok, Blocks (streaming_world 8388609) w' 4096 0 8388609 tok := by
  obtain ⟨w', h, hm⟩ := read_sd_streaming 4096 0 8388609 (by norm_num) (by norm_num)
  refine ⟨w', h, fun ⟨tok, hB⟩ => ?_⟩
  have h1 := hB.data 8388608 0 (Nat.zero_le _) (by norm_num) (by norm_num)
  rw [hm _ (by norm_num)] at h1
  exact streaming_card_values 8388609 _ h1.symm

/-- C4: `initialize_sd`, `read_sd` and `write_sd` release the bus on every return
path, for every card, timer and argument: whenever one of them returns, the
events it logged satisfy `ReleasesBus` (if chip-select was asserted, the last
chip-select write is a deassert; a line deasserted at entry is deasserted at
return).  And they do return: if the timer reaches 500 within any `B` consecutive
reads, fuel `B` is enough for each of the three. -/
theorem bus_released (fuel pdrv buff sector count : Nat) (w : World) :
    (∀ st w', initialize_sd fuel w = some (st, w') → ReleasesBus w w') ∧
    (∀ r w', read_sd fuel pdrv buff sector count w = some (r, w') → ReleasesBus w w') ∧
    (∀ r w', write_sd fuel pdrv buff sector count w = some (r, w') → ReleasesBus w w') ∧
    (∀ B, ClockExpires B w.clock → B ≤ fuel →
      (∃ st w', initialize_sd fuel w = some (st, w')) ∧
      (∃ r w', read_sd fuel pdrv buff sector count w = some (r, w')) ∧
      (∃ r w', write_sd fuel pdrv buff sector count w = some (r, w'))) := by
  refine ⟨fun st w' h => releases_of_init (initialize_sd_spec h).2.1, fun r w' h => ?_,
    fun r w' h => ?_, fun B hc hf => ⟨initialize_sd_total w hc hf,
      read_sd_total pdrv buff sector count w hc hf,
      write_sd_total pdrv buff sector count w hc hf⟩⟩
  · rcases read_sd_cs h with h | h
    · exact releases_of_quiet h
    · exact releases_of_pair h
  · rcases write_sd_cs h with h | h
    · exact releases_of_quiet h
    · exact releases_of_pair h

theorem bus_released_witness :
    (∃ st w', initialize_sd 501 (legacy_world 0) = some (st, w') ∧
      ReleasesBus (legacy_world 0) w') ∧
    (∃ r w', read_sd 501 0 4096 10 2 two_block_world = some (r, w') ∧
      ReleasesBus two_block_world w') ∧
    (∃ r w', write_sd 501 0 4096 10 2 two_block_world = some (r, w') ∧
      ReleasesBus two_block_world w') := by
  obtain ⟨hi, _, _, _⟩ := bus_released 501 0 4096 10 2 (legacy_world 0)
  obtain ⟨_, hr, hw, _⟩ := bus_released 501 0 4096 10 2 two_block_world
  obtain ⟨⟨st, w1, h1⟩, _, _⟩ :=
    (bus_released 501 0 4096 10 2 (legacy_world 0)).2.2.2 501 clock_identity_expires le_rfl
  obtain ⟨_, ⟨r2, w2, h2⟩, ⟨r3, w3, h3⟩⟩ :=
    (bus_released 501 0 4096 10 2 two_block_world).2.2.2 501 clock_identity_expires le_rfl
  exact ⟨⟨st, w1, h1, hi st w1 h1⟩, ⟨r2, w2, h2, hr r2 w2 h2⟩, ⟨r3, w3, h3, hw r3 w3 h3⟩⟩

/-- C5: on the legacy branch `initialize_sd` stores the version before it sends
CMD16.  With a fresh session (status `STA_NOINIT`, version 0) and the card
`legacy_card 0x04` (CMD0 `0x01`, CMD8 rejected, ACMD41 `0x00`, CMD16 answered
`0x04`), the call returns `STA_NOINIT`, the status stays `STA_NOINIT`, and the
version is 2, not 0. -/
theorem blocklen_failure_keeps_version :
    status_sd (legacy_world 0x04) = STA_NOINIT ∧ (legacy_world 0x04).version = 0 ∧
    (initialize_sd 2 (legacy_world 0x04)).map (fun p => (p.1, p.2.status, p.2.version)) =
      some (STA_NOINIT, STA_NOINIT, 2) := by
  decide

/-- C6: from a session whose status is `STA_NOINIT` (the fresh session, whose
version is 0, in particular), whenever `initialize_sd` returns Ready (status 0)
the stored status is 0 and the version is 1 (MMCv3), 2 (SDv1) or 3 (SDv2+),
never 0.  More generally `SessionOK` (status `STA_NOINIT`, or status 0 with a
version in 1..3) is kept by every call of `initialize_sd`, so it holds in every
state reached from the fresh session, where the value returned is always the
stored status. -/
theorem ready_has_version (fuel : Nat) (w : World) (hs : status_sd w = STA_NOINIT)
    (hr : (initialize_sd fuel w).map Prod.fst = some 0) :
    (∃ w', initialize_sd fuel w = some (0, w') ∧ status_sd w' = 0 ∧
      (w'.version = 1 ∨ w'.version = 2 ∨ w'.version = 3)) ∧
    (SessionOK w ∧ ∀ fuel2 v st v', SessionOK v → initialize_sd fuel2 v = some (st, v') →
      st = status_sd v' ∧ SessionOK v') := by
  have hfresh : SessionOK w := Or.inl hs
  have hinv : ∀ fuel2 v st v', SessionOK v → initialize_sd fuel2 v = some (st, v') →
      st = status_sd v' ∧ SessionOK v' := fun fuel2 v st v' hv' h =>
    ⟨(initialize_sd_spec h).1, session_ok_of_outcome (initialize_sd_spec h).2.2 hv'⟩
  refine ⟨?_, hfresh, hinv⟩
  cases hi : initialize_sd fuel w with
  | none => rw [hi] at hr; cases hr
  | some p =>
    obtain ⟨st, w'⟩ := p
    rw [hi] at hr
    have h0 : st = 0 := by simpa using hr
    subst h0
    obtain ⟨h1, h2⟩ := hinv fuel w 0 w' hfresh hi
    have h1' : w'.status = 0 := h1.symm
    refine ⟨w', rfl, h1', ?_⟩
    rcases h2 with h3 | ⟨_, h4⟩
    · rw [h1'] at h3; exact absurd h3 (by decide)
    · exact h4

theorem ready_has_version_witness :
    (status_sd (legacy_world 0) = STA_NOINIT ∧ (legacy_world 0).version = 0 ∧
      (initialize_sd 2 (legacy_world 0)).map Prod.fst = some 0) ∧
    ((∃ w', initialize_sd 2 (legacy_world 0) = some (0, w') ∧ status_sd w' = 0 ∧
      (w'.version = 1 ∨ w'.version = 2 ∨ w'.version = 3)) ∧
    (SessionOK (legacy_world 0) ∧
      ∀ fuel2 v st v', SessionOK v → initialize_sd fuel2 v = some (st, v') →
        st = status_sd v' ∧ SessionOK v')) :=
  ⟨⟨rfl, rfl, by decide⟩, ready_has_version 2 (legacy_world 0) rfl (by decide)⟩

/-- C7: `send_command` for CMD8 or CMD58 with a `NULL` destination returns `0xFF`
for every argument, retry count, card and timer: every result it produces is
`0xFF`; it produces one whenever its card-ready wait does (in particular with
fuel `B` when the timer reaches 500 within any `B` reads); and when the card was
ready, the four bytes that follow the response collection are still read,
whatever status byte `collect_response` had obtained (`0x00` included). -/
theorem null_destination_sentinel (fuel cmd arg tries : Nat) (w : World)
    (hcmd : cmd = CMD8 ∨ cmd = CMD58) :
    (∀ r w', send_command fuel cmd arg tries none w = some (r, w') → r = (0xFF, none)) ∧
    (∀ rdy w1, wait_sd_ready fuel w = some (rdy, w1) →
      ∃ w', send_command fuel cmd arg tries none w = some ((0xFF, none), w') ∧
        (rdy ≠ 0 → ∃ w2, w2 = (collect_response cmd tries (transmit_frame cmd arg w1)).2 ∧
          w'.rx = w2.rx + 4 ∧
          w'.trace = w2.trace ++ [Event.xfer 0xFF (w.miso w2.rx % 256),
            Event.xfer 0xFF (w.miso (w2.rx + 1) % 256),
            Event.xfer 0xFF (w.miso (w2.rx + 2) % 256),
            Event.xfer 0xFF (w.miso (w2.rx + 3) % 256)])) ∧
    (∀ B, ClockExpires B w.clock → B ≤ fuel →
      ∃ w', send_command fuel cmd arg tries none w = some ((0xFF, none), w')) := by
  have h0 : cmd ≠ CMD0 := by rcases hcmd with h | h <;> rw [h] <;> decide
  have key : ∀ rdy w1, wait_sd_ready fuel w = some (rdy, w1) →
      ∃ w', send_command fuel cmd arg tries none w = some ((0xFF, none), w') ∧
        (rdy ≠ 0 → ∃ w2, w2 = (collect_response cmd tries (transmit_frame cmd arg w1)).2 ∧
          w'.rx = w2.rx + 4 ∧
          w'.trace = w2.trace ++ [Event.xfer 0xFF (w.miso w2.rx % 256),
            Event.xfer 0xFF (w.miso (w2.rx + 1) % 256),
            Event.xfer 0xFF (w.miso (w2.rx + 2) % 256),
            Event.xfer 0xFF (w.miso (w2.rx + 3) % 256)]) := by
    intro rdy w1 hw
    unfold send_command
    rw [if_neg h0, hw]
    dsimp only
    by_cases hr : rdy ≠ 0
    · rw [if_pos hr]
      unfold send_frame
      dsimp only
      rw [if_pos hcmd]
      refine ⟨_, rfl, fun _ => ⟨_, rfl, (four_reads _).1, ?_⟩⟩
      have hm : (collect_response cmd tries (transmit_frame cmd arg w1)).2.miso = w.miso :=
        (((wait_still hw).seq (transmit_frame_still cmd arg w1)).seq
          (collect_response_still cmd tries _)).miso
      rw [← hm]
      exact (four_reads _).2
    · rw [if_neg hr]
      exact ⟨_, rfl, fun h => absurd h hr⟩
  refine ⟨fun r w' h => ?_, key, fun B hc hf => ?_⟩
  · cases hw : wait_sd_ready fuel w with
    | none =>
      unfold send_command at h
      rw [if_neg h0, hw] at h
      cases h
    | some p =>
      obtain ⟨w'', h2, _⟩ := key p.1 p.2 hw
      rw [h2] at h
      exact (some_pair h).1
  · obtain ⟨rdy, w1, hw⟩ := wait_total w hc hf
    obtain ⟨w', h2, _⟩ := key rdy w1 hw
    exact ⟨w', h2⟩

theorem null_destination_sentinel_witness :
    (CMD8 = CMD8 ∨ CMD8 = CMD58) ∧
    ((collect_response CMD8 100 (transmit_frame CMD8 0x1AA accepting_ready)).1 = 0x00 ∧
     (send_command 2 CMD8 0x1AA 100 (some 0) accepting_world).map Prod.fst =
       some (0x00, some 0x1AA) ∧
     (send_command 2 CMD8 0x1AA 100 none accepting_world).map Prod.fst = some (0xFF, none)) ∧
    ((∀ r w', send_command 2 CMD8 0x1AA 100 none accepting_world = some (r, w') →
        r = (0xFF, none)) ∧
    (∀ rdy w1, wait_sd_ready 2 accepting_world = some (rdy, w1) →
      ∃ w', send_command 2 CMD8 0x1AA 100 none accepting_world = some ((0xFF, none), w') ∧
        (rdy ≠ 0 → ∃ w2, w2 = (collect_response CMD8 100 (transmit_frame CMD8 0x1AA w1)).2 ∧
          w'.rx = w2.rx + 4 ∧
          w'.trace = w2.trace ++ [Event.xfer 0xFF (accepting_world.miso w2.rx % 256),
            Event.xfer 0xFF (accepting_world.miso (w2.rx + 1) % 256),
            Event.xfer 0xFF (accepting_world.miso (w2.rx + 2) % 256),
            Event.xfer 0xFF (accepting_world.miso (w2.rx + 3) % 256)])) ∧
    (∀ B, ClockExpires B accepting_world.clock → B ≤ 2 →
      ∃ w', send_command 2 CMD8 0x1AA 100 none accepting_world = some ((0xFF, none), w'))) :=
  ⟨Or.inl rfl, ⟨by decide, by decide, by decide⟩,
    null_destination_sentinel 2 CMD8 0x1AA 100 accepting_world (Or.inl rfl)⟩

/-- C8: whenever `write_block` returns, it returns `SUCCESS` exactly when the data
response has low nibble 5, for every buffer, size, token, card and timer.  The
data response is the byte of stream position `w1.rx + size + 3`, `w1` being the
world after the first card-ready wait: it follows the token, the `size` data
bytes and the two CRC bytes, and is read by the exchange logged right after the
two `0x00` exchanges.  Neither the value `r1` of the first wait nor the value
`r2` of the second enters the result; a data response `0x0E` gives `FAIL`.  The
function returns with fuel `B` when the timer reaches 500 within any `B` reads. -/
theorem data_response_decides (fuel buff size token : Nat) (w : World) :
    (∀ st w', write_block fuel buff size token w = some (st, w') →
      ∃ r1 w1 w6 r2 pre c1 c2,
        wait_sd_ready fuel w = some (r1, w1) ∧
        w6.rx = w1.rx + size + 4 ∧
        w6.trace = pre ++ [Event.xfer 0 c1, Event.xfer 0 c2,
          Event.xfer 0xFF (w.miso (w1.rx + size + 3) % 256)] ∧
        wait_sd_ready fuel w6 = some (r2, w') ∧
        (st = SUCCESS ↔ (w.miso (w1.rx + size + 3) % 256) &&& 0x0F = 5) ∧
        (st = SUCCESS ∨ st = FAIL) ∧
        (w.miso (w1.rx + size + 3) % 256 = 0x0E → st = FAIL)) ∧
    (∀ B, ClockExpires B w.clock → B ≤ fuel →
      ∃ st w', write_block fuel buff size token w = some (st, w')) := by
  refine ⟨fun st w' h => ?_, fun B hc hf => write_block_total buff size token w hc hf⟩
  unfold write_block at h
  split at h
  · cases h
  · rename_i r1 w1 h1
    dsimp only at h
    split at h
    · cases h
    · rename_i r2 w7 h7
      have hs := ((((wait_still h1).seq (still_exchange token w1)).seq
        (write_data_loop_still buff size size _)).seq (still_exchange 0 _)).seq
        (still_exchange 0 _)
      have hrx : (exchange_byte 0 (exchange_byte 0 (write_data_loop buff size size
          (exchange_byte token w1).2)).2).2.rx = w1.rx + size + 3 := by
        simp only [exchange_rx, write_data_loop_rx]; omega
      have hdr : (receive_byte (exchange_byte 0 (exchange_byte 0 (write_data_loop buff size size
          (exchange_byte token w1).2)).2).2).1 = w.miso (w1.rx + size + 3) % 256 := by
        rw [receive_val, hs.miso, hrx]
      rw [hdr] at h
      have hw : w' = w7 := by split at h <;> exact (some_pair h).2
      rw [hw]
      refine ⟨r1, w1, _, r2, (write_data_loop buff size size (exchange_byte token w1).2).trace,
        (write_data_loop buff size size (exchange_byte token w1).2).miso
          (write_data_loop buff size size (exchange_byte token w1).2).rx % 256,
        (write_data_loop buff size size (exchange_byte token w1).2).miso
          ((write_data_loop buff size size (exchange_byte token w1).2).rx + 1) % 256,
        h1, ?_, ?_, h7, ?_, ?_, ?_⟩
      · rw [receive_rx, hrx]
      · rw [← hdr]
        simp [receive_byte, exchange_byte]
      · split at h
        · rename_i hn
          rw [(some_pair h).1]
          exact ⟨fun _ => hn, fun _ => rfl⟩
        · rename_i hn
          rw [(some_pair h).1]
          exact ⟨fun hc => by simp [SUCCESS, FAIL] at hc, fun hc => absurd hc hn⟩
      · split at h
        · exact Or.inl (some_pair h).1
        · exact Or.inr (some_pair h).1
      · intro he
        rw [he] at h
        exact (some_pair h).1

theorem data_response_decides_witness :
    ((write_block 2 4096 4 0xFE rejecting_world).map Prod.fst = some FAIL ∧
      rejecting_world.miso 8 % 256 = 0x0E) ∧
    ((∀ st w', write_block 2 4096 4 0xFE rejecting_world = some (st, w') →
      ∃ r1 w1 w6 r2 pre c1 c2,
        wait_sd_ready 2 rejecting_world = some (r1, w1) ∧
        w6.rx = w1.rx + 4 + 4 ∧
        w6.trace = pre ++ [Event.xfer 0 c1, Event.xfer 0 c2,
          Event.xfer 0xFF (rejecting_world.miso (w1.rx + 4 + 3) % 256)] ∧
        wait_sd_ready 2 w6 = some (r2, w') ∧
        (st = SUCCESS ↔ (rejecting_world.miso (w1.rx + 4 + 3) % 256) &&& 0x0F = 5) ∧
        (st = SUCCESS ∨ st = FAIL) ∧
        (rejecting_world.miso (w1.rx + 4 + 3) % 256 = 0x0E → st = FAIL)) ∧
    (∀ B, ClockExpires B rejecting_world.clock → B ≤ 2 →
      ∃ st w', write_block 2 4096 4 0xFE rejecting_world = some (st, w'))) :=
  ⟨⟨by decide, by decide⟩, data_response_decides 2 4096 4 0xFE rejecting_world⟩

/-- C9: a `read_block` whose token poll does not end on `0xFE` fails without
touching the buffer.  The card sends `0xFF` on the first `n` polls, made while
the timer is below 500; then either the timer has reached 500 (timeout, only
`0xFF` seen), or the next byte is neither `0xFF` nor `0xFE`.  With fuel `n + 2`
the function returns `FAIL`, the memory is unchanged, the bytes consumed are the
`n` (timeout) or `n + 1` (wrong token) bytes of the poll, and the last event
logged is the one that ended the poll: nothing is exchanged after it.  In any
run at all, a `FAIL` result leaves the memory as it was. -/
theorem no_token_no_data (fuel buff size n : Nat) (w : World)
    (hpoll : ∀ i, i < n → w.miso (w.rx + i) % 256 = 0xFF ∧ w.clock (w.tk + i) % 65536 < 500)
    (hend : 500 ≤ w.clock (w.tk + n) % 65536 ∨
      (w.miso (w.rx + n) % 256 ≠ 0xFF ∧ w.miso (w.rx + n) % 256 ≠ 0xFE))
    (hf : n + 2 ≤ fuel) :
    (∃ w' pre, read_block fuel buff size w = some (FAIL, w') ∧ w'.mem = w.mem ∧
      w'.rx = w.rx + n + (if 500 ≤ w.clock (w.tk + n) % 65536 then 0 else 1) ∧
      w'.trace = pre ++ [if 500 ≤ w.clock (w.tk + n) % 65536
        then Event.tim_read (w.clock (w.tk + n) % 65536)
        else Event.xfer 0xFF (w.miso (w.rx + n) % 256)]) ∧
    (∀ fuel2 v st v', read_block fuel2 buff size v = some (st, v') → st = FAIL →
      v'.mem = v.mem) := by
  refine ⟨?_, fun fuel2 v st v' h hst => (read_block_fail h hst).mem⟩
  obtain ⟨m, hm⟩ : ∃ m, fuel = (m + 2) + n := ⟨fuel - n - 2, by omega⟩
  obtain ⟨w1, e1, s1, r1, t1⟩ := token_loop_run n (m + 2) (start_timer w) hpoll
  have hs := (still_emit Event.tim_start w rfl).seq s1
  have r1' : w1.rx = w.rx + n := r1
  have t1' : w1.tk = w.tk + n := t1
  unfold read_block
  rw [hm, e1, token_loop, if_pos rfl, timer_val, hs.clock, t1']
  by_cases hto : 500 ≤ w.clock (w.tk + n) % 65536
  · rw [if_neg (by omega), if_pos hto, if_pos hto]
    dsimp only
    rw [if_pos (by decide)]
    refine ⟨_, w1.trace, rfl, ?_, ?_, ?_⟩
    · rw [timer_mem, hs.mem]
    · rw [timer_rx, r1']; rfl
    · have : w1.clock w1.tk = w.clock (w.tk + n) := by rw [hs.clock, t1']
      rw [← this]
      rfl
  · have hbad := hend.resolve_left hto
    rw [if_pos (by omega), if_neg hto, if_neg hto]
    rw [token_loop, receive_val, timer_miso, timer_rx, hs.miso, r1', if_neg hbad.1]
    dsimp only
    rw [if_pos hbad.2]
    refine ⟨_, (get_timer_val w1).2.trace, rfl, ?_, ?_, ?_⟩
    · rw [receive_mem, timer_mem, hs.mem]
    · rw [receive_rx, timer_rx, r1']
    · have : (get_timer_val w1).2.miso (get_timer_val w1).2.rx = w.miso (w.rx + n) := by
        rw [timer_miso, timer_rx, hs.miso, r1']
      rw [← this]
      rfl

theorem no_token_no_data_witness :
    ((∀ i, i < 500 → fresh.miso (fresh.rx + i) % 256 = 0xFF ∧
        fresh.clock (fresh.tk + i) % 65536 < 500) ∧
      (500 ≤ fresh.clock (fresh.tk + 500) % 65536 ∨
        (fresh.miso (fresh.rx + 500) % 256 ≠ 0xFF ∧ fresh.miso (fresh.rx + 500) % 256 ≠ 0xFE)) ∧
      500 + 2 ≤ 502) ∧
    ((∃ w' pre, read_block 502 4096 512 fresh = some (FAIL, w') ∧ w'.mem = fresh.mem ∧
      w'.rx = fresh.rx + 500 + (if 500 ≤ fresh.clock (fresh.tk + 500) % 65536 then 0 else 1) ∧
      w'.trace = pre ++ [if 500 ≤ fresh.clock (fresh.tk + 500) % 65536
        then Event.tim_read (fresh.clock (fresh.tk + 500) % 65536)
        else Event.xfer 0xFF (fresh.miso (fresh.rx + 500) % 256)]) ∧
    (∀ fuel2 v st v', read_block fuel2 4096 512 v = some (st, v') → st = FAIL →
      v'.mem = v.mem)) :=
  have hp : ∀ i, i < 500 → fresh.miso (fresh.rx + i) % 256 = 0xFF ∧
      fresh.clock (fresh.tk + i) % 65536 < 500 := fun i hi => by
    refine ⟨rfl, ?_⟩
    show (0 + i) % 65536 < 500
    omega
  ⟨⟨hp, Or.inl (by decide), le_rfl⟩,
    no_token_no_data 502 4096 512 500 fresh hp (Or.inl (by decide)) le_rfl⟩

/-- C10: once the card is ready (`w0` is the world after a card-ready wait that
returned non-zero) or at once for CMD0 (`w0 = w`), `send_command` logs the six
exchanges sending `cmd`, `arg >> 24 & 0xFF`, `arg >> 16 & 0xFF`, `arg >> 8 & 0xFF`,
`arg & 0xFF` and the CRC (`0x95` for CMD0, `0x87` for CMD8, `0` otherwise) in
this order, and everything it logs after them is a read (an exchange sending
`0xFF`).  For a 32-bit `arg` the four argument bytes put together big-endian give
`arg` back. -/
theorem command_frame (fuel cmd arg tries : Nat) (o : Option Nat) (w w0 : World)
    (harg : arg < 2 ^ 32)
    (hready : (cmd = CMD0 ∧ w0 = w) ∨
      (cmd ≠ CMD0 ∧ ∃ rdy, rdy ≠ 0 ∧ wait_sd_ready fuel w = some (rdy, w0))) :
    (∃ r w' rest, send_command fuel cmd arg tries o w = some (r, w') ∧
      w'.trace = w0.trace ++
        [Event.xfer cmd (w.miso w0.rx % 256),
         Event.xfer (arg >>> 24 &&& 0xFF) (w.miso (w0.rx + 1) % 256),
         Event.xfer (arg >>> 16 &&& 0xFF) (w.miso (w0.rx + 2) % 256),
         Event.xfer (arg >>> 8 &&& 0xFF) (w.miso (w0.rx + 3) % 256),
         Event.xfer (arg &&& 0xFF) (w.miso (w0.rx + 4) % 256),
         Event.xfer (if cmd = CMD0 then 0x95 else if cmd = CMD8 then 0x87 else 0)
           (w.miso (w0.rx + 5) % 256)] ++ rest ∧
      ∀ e ∈ rest, ∃ b, e = Event.xfer 0xFF b) ∧
    (arg >>> 24 &&& 0xFF) * 2 ^ 24 + (arg >>> 16 &&& 0xFF) * 2 ^ 16 +
      (arg >>> 8 &&& 0xFF) * 2 ^ 8 + (arg &&& 0xFF) = arg := by
  constructor
  · have hs : send_command fuel cmd arg tries o w = some (send_frame cmd arg tries o w0) ∧
        w0.miso = w.miso := by
      rcases hready with ⟨h0, hw⟩ | ⟨h0, rdy, hr, hw⟩
      · rw [hw]; unfold send_command; rw [if_pos h0]; exact ⟨rfl, rfl⟩
      · unfold send_command; rw [if_neg h0, hw]; dsimp only; rw [if_pos hr]
        exact ⟨rfl, (wait_still hw).miso⟩
    obtain ⟨rest, ht, hr⟩ := send_frame_reads cmd arg tries o w0
    obtain ⟨a0, a1, a2, a3⟩ := arg_byte_eq arg
    refine ⟨(send_frame cmd arg tries o w0).1, (send_frame cmd arg tries o w0).2, rest, hs.1,
      ?_, hr⟩
    rw [ht, transmit_frame_trace, a0, a1, a2, a3, crc_of_eq, hs.2]
  · have h : ∀ x : Nat, x &&& 0xFF = x % 256 := fun x => Nat.and_pow_two_sub_one_eq_mod x 8
    simp only [h, Nat.shiftRight_eq_div_pow]
    omega

theorem command_frame_witness :
    ((10 : Nat) < 2 ^ 32 ∧
      ((CMD17 = CMD0 ∧ accepting_ready = accepting_world) ∨
       (CMD17 ≠ CMD0 ∧ ∃ rdy, rdy ≠ 0 ∧
          wait_sd_ready 2 accepting_world = some (rdy, accepting_ready)))) ∧
    ((∃ r w' rest, send_command 2 CMD17 10 10 none accepting_world = some (r, w') ∧
      w'.trace = accepting_ready.trace ++
        [Event.xfer CMD17 (accepting_world.miso accepting_ready.rx % 256),
         Event.xfer (10 >>> 24 &&& 0xFF) (accepting_world.miso (accepting_ready.rx + 1) % 256),
         Event.xfer (10 >>> 16 &&& 0xFF) (accepting_world.miso (accepting_ready.rx + 2) % 256),
         Event.xfer (10 >>> 8 &&& 0xFF) (accepting_world.miso (accepting_ready.rx + 3) % 256),
         Event.xfer (10 &&& 0xFF) (accepting_world.miso (accepting_ready.rx + 4) % 256),
         Event.xfer (if CMD17 = CMD0 then 0x95 else if CMD17 = CMD8 then 0x87 else 0)
           (accepting_world.miso (accepting_ready.rx + 5) % 256)] ++ rest ∧
      ∀ e ∈ rest, ∃ b, e = Event.xfer 0xFF b) ∧
    (10 >>> 24 &&& 0xFF) * 2 ^ 24 + (10 >>> 16 &&& 0xFF) * 2 ^ 16 +
      (10 >>> 8 &&& 0xFF) * 2 ^ 8 + (10 &&& 0xFF) = 10) :=
  have hr : (CMD17 = CMD0 ∧ accepting_ready = accepting_world) ∨
      (CMD17 ≠ CMD0 ∧ ∃ rdy, rdy ≠ 0 ∧
        wait_sd_ready 2 accepting_world = some (rdy, accepting_ready)) :=
    Or.inr ⟨by decide, 0xFF, by decide, rfl⟩
  ⟨⟨by norm_num, hr⟩,
    command_frame 2 CMD17 10 10 none accepting_world accepting_ready (by norm_num) hr⟩

/-- C17: for CMD8 or CMD58 sent to a ready card with a destination, `send_command`
reads exactly four bytes `b0 b1 b2 b3` after the response collection (they are the
stream bytes at `w2.rx .. w2.rx + 3`, `w2` being the world in which the status
byte was obtained), stores `b0 * 2^24 + b1 * 2^16 + b2 * 2^8 + b3` in the
destination whatever the four bytes are (this is also what converting to
`uint32_t` the `int` of that bit pattern gives, `b0 ≥ 0x80` included) and returns
the status byte of the response collection.  For every other command the
destination keeps its content and the call ends in the world of the response
collection: no further byte is read. -/
theorem extended_response_stored (fuel cmd arg tries d rdy : Nat) (w w1 : World)
    (hcmd : cmd = CMD8 ∨ cmd = CMD58)
    (hw : wait_sd_ready fuel w = some (rdy, w1)) (hr : rdy ≠ 0) :
    (∃ w', send_command fuel cmd arg tries (some d) w =
        some (((collect_response cmd tries (transmit_frame cmd arg w1)).1,
          some (w.miso (collect_response cmd tries (transmit_frame cmd arg w1)).2.rx % 256 * 2 ^ 24 +
            w.miso ((collect_response cmd tries (transmit_frame cmd arg w1)).2.rx + 1) % 256 * 2 ^ 16 +
            w.miso ((collect_response cmd tries (transmit_frame cmd arg w1)).2.rx + 2) % 256 * 2 ^ 8 +
            w.miso ((collect_response cmd tries (transmit_frame cmd arg w1)).2.rx + 3) % 256)), w') ∧
      w'.rx = (collect_response cmd tries (transmit_frame cmd arg w1)).2.rx + 4 ∧
      w'.trace = (collect_response cmd tries (transmit_frame cmd arg w1)).2.trace ++
        [Event.xfer 0xFF (w.miso (collect_response cmd tries (transmit_frame cmd arg w1)).2.rx % 256),
         Event.xfer 0xFF
           (w.miso ((collect_response cmd tries (transmit_frame cmd arg w1)).2.rx + 1) % 256),
         Event.xfer 0xFF
           (w.miso ((collect_response cmd tries (transmit_frame cmd arg w1)).2.rx + 2) % 256),
         Event.xfer 0xFF
           (w.miso ((collect_response cmd tries (transmit_frame cmd arg w1)).2.rx + 3) % 256)]) ∧
    (∀ b0 b1 b2 b3, b0 < 256 → b1 < 256 → b2 < 256 → b3 < 256 →
      as_uint32 (as_int32 (b0 <<< 24 ||| b1 <<< 16 ||| b2 <<< 8 ||| b3)) =
        b0 * 2 ^ 24 + b1 * 2 ^ 16 + b2 * 2 ^ 8 + b3) ∧
    (∀ c o, c ≠ CMD0 → c ≠ CMD8 → c ≠ CMD58 →
      send_command fuel c arg tries o w =
        some (((collect_response c tries (transmit_frame c arg w1)).1, o),
          (collect_response c tries (transmit_frame c arg w1)).2)) ∧
    (∀ o, send_command fuel CMD0 arg tries o w =
      some (((collect_response CMD0 tries (transmit_frame CMD0 arg w)).1, o),
        (collect_response CMD0 tries (transmit_frame CMD0 arg w)).2)) := by
  have h0 : cmd ≠ CMD0 := by rcases hcmd with h | h <;> rw [h] <;> decide
  refine ⟨?_, fun b0 b1 b2 b3 h0 h1 h2 h3 => ?_, fun c o c0 c8 c58 => ?_, fun o => ?_⟩
  · have hm : (collect_response cmd tries (transmit_frame cmd arg w1)).2.miso = w.miso :=
      (((wait_still hw).seq (transmit_frame_still cmd arg w1)).seq
        (collect_response_still cmd tries _)).miso
    refine ⟨(receive_byte (receive_byte (receive_byte (receive_byte
      (collect_response cmd tries (transmit_frame cmd arg w1)).2).2).2).2).2, ?_,
      (four_reads _).1, ?_⟩
    · unfold send_command
      rw [if_neg h0, hw]
      dsimp only
      rw [if_pos hr]
      unfold send_frame
      dsimp only
      rw [if_pos hcmd]
      simp only [receive_val, receive_miso, receive_rx, hm]
      rw [be32_or_eq_add _ _ _ _ (Nat.mod_lt _ (by norm_num)) (Nat.mod_lt _ (by norm_num))
        (Nat.mod_lt _ (by norm_num)) (Nat.mod_lt _ (by norm_num))]
    · rw [← hm]
      exact (four_reads _).2
  · rw [as_uint32_as_int32, be32_or_eq_add b0 b1 b2 b3 h0 h1 h2 h3]
  · unfold send_command
    rw [if_neg c0, hw]
    dsimp only
    rw [if_pos hr]
    unfold send_frame
    dsimp only
    rw [if_neg (by simp [c8, c58])]
  · unfold send_command
    rw [if_pos rfl]
    unfold send_frame
    dsimp only
    rw [if_neg (by decide)]

theorem extended_response_stored_witness :
    ((CMD58 = CMD8 ∨ CMD58 = CMD58) ∧
      wait_sd_ready 2 ocr_world = some (0xFF, after_ready ocr_world) ∧ (0xFF : Nat) ≠ 0) ∧
    (send_command 2 CMD58 0 10 (some 0) ocr_world).map Prod.fst = some (0x00, some 0xC0FF8000) ∧
    (send_command 2 CMD58 0 10 (some 0) ocr_world).map (fun p => p.2.rx) = some 12 ∧
    (send_command 2 CMD17 0 10 (some 7) ocr_world).map Prod.fst = some (0x00, some 7) ∧
    (send_command 2 CMD17 0 10 (some 7) ocr_world).map (fun p => p.2.rx) = some 8 ∧
    (∃ w', send_command 2 CMD58 0 10 (some 0) ocr_world =
        some (((collect_response CMD58 10 (transmit_frame CMD58 0 (after_ready ocr_world))).1,
          some (ocr_world.miso
              (collect_response CMD58 10 (transmit_frame CMD58 0 (after_ready ocr_world))).2.rx
                % 256 * 2 ^ 24 +
            ocr_world.miso
              ((collect_response CMD58 10 (transmit_frame CMD58 0 (after_ready ocr_world))).2.rx + 1)
                % 256 * 2 ^ 16 +
            ocr_world.miso
              ((collect_response CMD58 10 (transmit_frame CMD58 0 (after_ready ocr_world))).2.rx + 2)
                % 256 * 2 ^ 8 +
            ocr_world.miso
              ((collect_response CMD58 10 (transmit_frame CMD58 0 (after_ready ocr_world))).2.rx + 3)
                % 256)), w') ∧
      w'.rx = (collect_response CMD58 10 (transmit_frame CMD58 0 (after_ready ocr_world))).2.rx + 4) :=
  ⟨⟨Or.inr rfl, rfl, by decide⟩, by decide, by decide, by decide, by decide,
    (extended_response_stored 2 CMD58 0 10 0 0xFF ocr_world (after_ready ocr_world)
      (Or.inr rfl) rfl (by decide)).1.imp fun _ h => ⟨h.1, h.2.1⟩⟩

/-- C12: a card that rejects ACMD41 with the illegal-command status `0x05` is not
initialised as MMC although it answers CMD1 with `0x00` and would accept CMD16.
With a fresh session and `mmc_card` the commands CMD0, CMD8, CMD55, ACMD41,
CMD1, CMD1, CMD16 sent in this order are answered `0x01, 0x05, 0x05, 0x05, 0x00,
0x00, 0x00`, yet `initialize_sd` returns `STA_NOINIT` and leaves status
`STA_NOINIT` and version 0: the answer to its first CMD1 is dropped and the CMD1
loop tests the stale ACMD41 status. -/
theorem mmc_after_illegal_acmd41_fails :
    status_sd mmc_world = STA_NOINIT ∧ mmc_world.version = 0 ∧
    (transcript 2 [(CMD0, 0, 100, none), (CMD8, 0x1AA, 100, some 0), (CMD55, 0, 10, none),
        (ACMD41, 0, 10, none), (CMD1, 0, 10, none), (CMD1, 0, 10, none),
        (CMD16, 0x200, 10, none)] (enter_native_mode mmc_world)).map (List.map Prod.fst) =
      some [0x01, 0x05, 0x05, 0x05, 0x00, 0x00, 0x00] ∧
    (initialize_sd 2 mmc_world).map (fun p => (p.1, p.2.status, p.2.version, p.2.rx)) =
      some (STA_NOINIT, STA_NOINIT, 0, 143) := by
  decide

/-- C14: `send_command` keeps its retry count in a `uint8_t`.  Sent to a ready card
that answers CMD17 with `0x00` on the first response byte, a call with
`responseTries = 256` reads no response byte at all (7 bytes exchanged: the ready
poll and the frame) and returns `0xFF`, where a call with 255 reads one and
returns `0x00`; with 300 the poll of a silent card stops after 44 bytes.  In
general `responseTries` and `responseTries + 256` collect the same response. -/
theorem response_tries_truncated :
    (send_command 2 CMD17 10 256 none accepting_world).map (fun p => (p.1.1, p.2.rx)) =
      some (0xFF, 7) ∧
    (send_command 2 CMD17 10 255 none accepting_world).map (fun p => (p.1.1, p.2.rx)) =
      some (0x00, 8) ∧
    (send_command 2 CMD17 10 300 none ready_idle).map (fun p => (p.1.1, p.2.rx)) =
      some (0xFF, 7 + 44) ∧
    (∀ cmd tries w, collect_response cmd (tries + 256) w = collect_response cmd tries w) := by
  refine ⟨by decide, by decide, by decide, fun cmd tries w => ?_⟩
  unfold collect_response
  rw [Nat.add_mod_right]

/-- C15: a card whose ACMD41 never answers `0x00` can end in Ready.  With a fresh
session and `acmd41_error_card` the commands CMD0, CMD8, CMD55,
ACMD41(0x40000000), CMD58 are answered `0x01`, `0x01` (echo `0x1AA`), `0x01`,
`0x05`, `0x00` (OCR `0xC0FF8000`), and `initialize_sd` returns 0 with status 0 and
version 3: the loop ends on any status other than `0x01` and only the loop
counter is tested afterwards. -/
theorem acmd41_error_ends_ready :
    status_sd acmd41_error_world = STA_NOINIT ∧ acmd41_error_world.version = 0 ∧
    transcript 2 [(CMD0, 0, 100, none), (CMD8, 0x1AA, 100, some 0), (CMD55, 0, 10, none),
        (ACMD41, 0x40000000, 10, none), (CMD58, 0, 10, some 0x1AA)]
        (enter_native_mode acmd41_error_world) =
      some [(0x01, none), (0x01, some 0x1AA), (0x01, none), (0x05, none),
        (0x00, some 0xC0FF8000)] ∧
    (initialize_sd 2 acmd41_error_world).map (fun p => (p.1, p.2.status, p.2.version)) =
      some (0, 0, 3) := by
  decide

/-- C18: when CMD0 does not end with status `0x01`, `initialize_sd` returns the
status held before the call and leaves status, version and memory as they were,
for every fuel (CMD0 is sent without a card-ready wait).  In particular a Ready
session stays Ready with its old version when the card no longer answers the
reset. -/
theorem reset_unanswered_writes_nothing (fuel : Nat) (w : World)
    (h : (send_command fuel CMD0 0 100 none (enter_native_mode w)).map (fun p => p.1.1) ≠
      some 0x01) :
    ∃ w', initialize_sd fuel w = some (status_sd w, w') ∧ status_sd w' = status_sd w ∧
      w'.version = w.version ∧ w'.mem = w.mem := by
  obtain ⟨_, st0, v0, _, _, m0⟩ := enter_native_mode_spec w
  cases h0 : send_command fuel CMD0 0 100 none (enter_native_mode w) with
  | none =>
    unfold send_command at h0
    rw [if_pos rfl] at h0
    cases h0
  | some p =>
    obtain ⟨r0, w6⟩ := p
    have s6 := send_command_still h0
    rw [h0] at h
    have hr : ¬ r0.1 = 0x01 := fun e => h (by simp [e])
    refine ⟨deselect w6, ?_, s6.status.trans st0, s6.version.trans v0, s6.mem.trans m0⟩
    unfold initialize_sd
    rw [h0]
    dsimp only
    rw [if_neg hr]
    show some (w6.status, deselect w6) = some (w.status, deselect w6)
    rw [s6.status.trans st0]

theorem reset_unanswered_writes_nothing_witness :
    ((send_command 0 CMD0 0 100 none (enter_native_mode ready_idle)).map (fun p => p.1.1) ≠
      some 0x01 ∧ status_sd ready_idle = 0 ∧ ready_idle.version = 2) ∧
    ∃ w', initialize_sd 0 ready_idle = some (status_sd ready_idle, w') ∧
      status_sd w' = status_sd ready_idle ∧ w'.version = ready_idle.version ∧
      w'.mem = ready_idle.mem :=
  ⟨⟨by decide, rfl, rfl⟩, reset_unanswered_writes_nothing 0 ready_idle (by decide)⟩

/-- C16 as stated fails: the byte received right after the CMD12 exchange is
tested, not discarded.  The cards `two_block_card_with 0x00` and
`two_block_card_with 0xFF` differ only at stream position 1047, the position of
that byte in a two-sector read (CMD18 accepted, both blocks read, CMD12
exchanged over positions 1039 .. 1046); the first read returns `RES_OK`, the
second `RES_ERROR`. -/
theorem stop_byte_counterexample :
    (∀ k, k ≠ 1047 → two_block_card_with 0x00 k = two_block_card_with 0xFF k) ∧
    (∃ r1 w1 o2 w2 w3 r4 w4,
      wait_sd_ready 3 (select (two_block_world_with 0xFF)) = some (r1, w1) ∧
      send_command 3 CMD18 10 10 none w1 = some ((0, o2), w2) ∧
      read_blocks_loop 3 4096 2 (2 % 2 ^ 32) w2 = some (true, w3) ∧
      send_command 3 CMD12 0 10 none w3 = some (r4, w4) ∧ w4.rx = 1047) ∧
    (read_sd 3 0 4096 10 2 (two_block_world_with 0x00)).map Prod.fst = some RES_OK ∧
    (read_sd 3 0 4096 10 2 (two_block_world_with 0xFF)).map Prod.fst = some RES_ERROR := by
  refine ⟨fun k hk => ?_, ⟨_, _, _, _, _, _, _, rfl, rfl, rfl, rfl, rfl⟩, by decide, by decide⟩
  unfold two_block_card_with
  rw [if_neg hk, if_neg hk]

/-- C16, as the code has it: in a multi-sector read (`count ≥ 2`, session not
`STA_NOINIT`) where CMD18 is accepted with status 0 and every `read_block`
succeeds, the byte received right after the CMD12 exchange (stream position
`w4.rx`, `w4` being the world in which `send_command(CMD12)` returned) decides the
result: whenever `read_sd` returns, it returns `RES_OK` if that byte is `0x00` and
`RES_ERROR` otherwise, and it does return as soon as the closing card-ready wait
does.  The answer to CMD12 itself (`r4`) and the outcome of the waits play no
part.  Hence two such runs, whatever else they differ in, return the same
result exactly when that byte is zero in both or non-zero in both. -/
theorem stop_byte_decides (fuel buff sector count r1 : Nat) (o2 : Option Nat)
    (r4 : Nat × Option Nat) (w w1 w2 w3 w4 : World)
    (hst : status_sd w ≠ STA_NOINIT) (hc : 2 ≤ count)
    (h1 : wait_sd_ready fuel (select w) = some (r1, w1))
    (h2 : send_command fuel CMD18 sector 10 none w1 = some ((0, o2), w2))
    (h3 : read_blocks_loop fuel buff count (count % 2 ^ 32) w2 = some (true, w3))
    (h4 : send_command fuel CMD12 0 10 none w3 = some (r4, w4)) :
    (∀ r w', read_sd fuel 0 buff sector count w = some (r, w') →
      r = if w.miso w4.rx % 256 = 0 then RES_OK else RES_ERROR) ∧
    (∀ r6 w6, wait_sd_ready fuel (receive_byte w4).2 = some (r6, w6) →
      read_sd fuel 0 buff sector count w =
        some (if w.miso w4.rx % 256 = 0 then RES_OK else RES_ERROR, deselect w6)) ∧
    (∀ fuel' buff' sector' count' s1 p2 s4 v v1 v2 v3 v4,
      status_sd v ≠ STA_NOINIT → 2 ≤ count' →
      wait_sd_ready fuel' (select v) = some (s1, v1) →
      send_command fuel' CMD18 sector' 10 none v1 = some ((0, p2), v2) →
      read_blocks_loop fuel' buff' count' (count' % 2 ^ 32) v2 = some (true, v3) →
      send_command fuel' CMD12 0 10 none v3 = some (s4, v4) →
      ∀ r w' s v', read_sd fuel 0 buff sector count w = some (r, w') →
        read_sd fuel' 0 buff' sector' count' v = some (s, v') →
        (r = s ↔ (w.miso w4.rx % 256 = 0 ↔ v.miso v4.rx % 256 = 0))) := by
  obtain ⟨a, b⟩ := stop_byte_result fuel buff sector count r1 o2 r4 w w1 w2 w3 w4 hst hc h1 h2 h3 h4
  refine ⟨a, b, ?_⟩
  intro fuel' buff' sector' count' s1 p2 s4 v v1 v2 v3 v4 gst gc g1 g2 g3 g4 r w' s v' hr hs
  have e1 := a r w' hr
  have e2 := (stop_byte_result fuel' buff' sector' count' s1 p2 s4 v v1 v2 v3 v4
    gst gc g1 g2 g3 g4).1 s v' hs
  rw [e1, e2]
  by_cases hw : w.miso w4.rx % 256 = 0 <;> by_cases hv : v.miso v4.rx % 256 = 0 <;>
    simp [hw, hv]

theorem stop_byte_decides_witness :
    ∃ r1 o2 r4 w1 w2 w3 w4,
      (status_sd (two_block_world_with 0xFF) ≠ STA_NOINIT ∧ 2 ≤ 2 ∧
        wait_sd_ready 3 (select (two_block_world_with 0xFF)) = some (r1, w1) ∧
        send_command 3 CMD18 10 10 none w1 = some ((0, o2), w2) ∧
        read_blocks_loop 3 4096 2 (2 % 2 ^ 32) w2 = some (true, w3) ∧
        send_command 3 CMD12 0 10 none w3 = some (r4, w4)) ∧
      ((∀ r w', read_sd 3 0 4096 10 2 (two_block_world_with 0xFF) = some (r, w') →
        r = if (two_block_world_with 0xFF).miso w4.rx % 256 = 0 then RES_OK else RES_ERROR) ∧
      (∀ r6 w6, wait_sd_ready 3 (receive_byte w4).2 = some (r6, w6) →
        read_sd 3 0 4096 10 2 (two_block_world_with 0xFF) =
          some (if (two_block_world_with 0xFF).miso w4.rx % 256 = 0 then RES_OK else RES_ERROR,
            deselect w6))) :=
  ⟨_, _, _, _, _, _, _, ⟨by decide, le_rfl, rfl, rfl, rfl, rfl⟩,
    have h := stop_byte_decides 3 4096 10 2 _ _ _ (two_block_world_with 0xFF) _ _ _ _
      (by decide) le_rfl rfl rfl rfl rfl
    ⟨h.1, h.2.1⟩⟩

/-- C11: from a fresh session (status `STA_NOINIT`), with a card that answers CMD0
with `0x01`, answers CMD8 with a status `r8` other than `0x01`, answers ACMD41
with `0x01` in its first `k` rounds of CMD55 + ACMD41 and with `0x00` in the next
one, and answers CMD16 with `0x00`, `initialize_sd` returns 0 (Ready) and leaves
status 0 and version 2 (SDv1), for every `k` from 0 to 10000 (the boundary
included: the loop tests the status, not its counter).  An answer `0x01` or
`0x00` is only obtained from a card that reported ready. -/
theorem sd1_identified (fuel k r8 : Nat) (o8 : Option Nat) (c : Nat × Option Nat)
    (w w1 w2 w3 w4 w5 w6 : World)
    (hfresh : status_sd w = STA_NOINIT) (hk : k ≤ 10000)
    (h0 : send_command fuel CMD0 0 100 none (enter_native_mode w) = some ((0x01, none), w1))
    (h8 : send_command fuel CMD8 0x1AA 100 (some 0) w1 = some ((r8, o8), w2))
    (hr8 : r8 ≠ 0x01)
    (hidle : IdleRounds fuel 0 k w2 w3)
    (h55 : send_command fuel CMD55 0 10 none w3 = some (c, w4))
    (h41 : send_command fuel ACMD41 0 10 none w4 = some ((0x00, none), w5))
    (h16 : send_command fuel CMD16 0x200 10 none w5 = some ((0x00, none), w6)) :
    ∃ w', initialize_sd fuel w = some (0, w') ∧ status_sd w' = 0 ∧ w'.version = 2 ∧
      w'.trace = w6.trace ++ [Event.cs_high] := by
  have hs6 : w6.status = STA_NOINIT := by
    obtain ⟨_, st0, _⟩ := enter_native_mode_spec w
    rw [(send_command_still h16).status, (send_command_still h41).status,
      (send_command_still h55).status, (idle_rounds_still fuel 0 k w2 w3 hidle).status,
      (send_command_still h8).status,
      (send_command_still h0).status, st0]
    exact hfresh
  refine ⟨deselect (clear_noinit (set_version 2 w6)), ?_, ?_, rfl, rfl⟩
  · unfold initialize_sd
    rw [h0]
    dsimp only
    rw [if_pos rfl, h8]
    dsimp only
    rw [if_pos hr8, legacy_path_sd1 fuel k w2 w3 w4 w5 w6 c hk hidle h55 h41 h16]
    have : (clear_noinit (set_version 2 w6)).status = 0 := by
      show w6.status &&& (0xFF - STA_NOINIT) = 0
      rw [hs6]; decide
    rw [this]
  · show w6.status &&& (0xFF - STA_NOINIT) = 0
    rw [hs6]; decide

theorem sd1_identified_witness :
    ∃ o8 c w1 w2 w3 w4 w5 w6,
      (status_sd (init_world 0x05 3) = STA_NOINIT ∧ 3 ≤ 10000 ∧
        send_command 2 CMD0 0 100 none (enter_native_mode (init_world 0x05 3)) =
          some ((0x01, none), w1) ∧
        send_command 2 CMD8 0x1AA 100 (some 0) w1 = some ((0x05, o8), w2) ∧
        (0x05 : Nat) ≠ 0x01 ∧
        IdleRounds 2 0 3 w2 w3 ∧
        send_command 2 CMD55 0 10 none w3 = some (c, w4) ∧
        send_command 2 ACMD41 0 10 none w4 = some ((0x00, none), w5) ∧
        send_command 2 CMD16 0x200 10 none w5 = some ((0x00, none), w6)) ∧
      ∃ w', initialize_sd 2 (init_world 0x05 3) = some (0, w') ∧ status_sd w' = 0 ∧
        w'.version = 2 ∧ w'.trace = w6.trace ++ [Event.cs_high] :=
  ⟨_, _, _, _, _, _, _, _,
    ⟨rfl, by decide, rfl, rfl, by decide,
      idle_rounds_succ rfl rfl (idle_rounds_succ rfl rfl (idle_rounds_succ rfl rfl
        (idle_rounds_zero _ _ _))), rfl, rfl, rfl⟩,
    sd1_identified 2 3 0x05 _ _ (init_world 0x05 3) _ _ _ _ _ _ rfl (by decide) rfl rfl
      (by decide)
      (idle_rounds_succ rfl rfl (idle_rounds_succ rfl rfl (idle_rounds_succ rfl rfl
        (idle_rounds_zero _ _ _)))) rfl rfl rfl⟩

/-- C13: from a fresh session (status `STA_NOINIT`), with a card that answers CMD0
with `0x01`, answers CMD8 with `0x01` and an echo whose low 12 bits are `0x1AA`,
answers ACMD41(`0x40000000`) with `0x01` in its first `j` rounds of CMD55 + ACMD41
and with `0x00` in round `j + 1`, and answers CMD58 with status `0x00` and an OCR
whose bit 30 is set: if `j + 1 < 10000`, `initialize_sd` returns 0 (Ready) with
status 0 and version 3, and nothing is sent after CMD58 (no CMD16, only the
release of the bus); if `j + 1 = 10000`, `initialize_sd` returns `STA_NOINIT`
(Failed) with version 0 and sends nothing after that ACMD41 (CMD58 is not sent):
the test `timeout == 0` after the loop takes the success in the last permitted
round for an exhausted bound. -/
theorem voltage_check_boundary (fuel j e8 ocr : Nat) (c : Nat × Option Nat)
    (w w1 w2 w3 w4 w5 w6 : World)
    (hfresh : status_sd w = STA_NOINIT) (hj : j + 1 ≤ 10000)
    (h0 : send_command fuel CMD0 0 100 none (enter_native_mode w) = some ((0x01, none), w1))
    (h8 : send_command fuel CMD8 0x1AA 100 (some 0) w1 = some ((0x01, some e8), w2))
    (he8 : e8 &&& 0x00000FFF = 0x1AA)
    (hidle : IdleRounds fuel 0x40000000 j w2 w3)
    (h55 : send_command fuel CMD55 0 10 none w3 = some (c, w4))
    (h41 : send_command fuel ACMD41 0x40000000 10 none w4 = some ((0x00, none), w5))
    (h58 : send_command fuel CMD58 0 10 (some e8) w5 = some ((0x00, some ocr), w6))
    (hccs : ocr &&& 0x40000000 ≠ 0) :
    (j + 1 < 10000 →
      ∃ w', initialize_sd fuel w = some (0, w') ∧ status_sd w' = 0 ∧ w'.version = 3 ∧
        w'.trace = w6.trace ++ [Event.cs_high]) ∧
    (j + 1 = 10000 →
      ∃ w', initialize_sd fuel w = some (STA_NOINIT, w') ∧ status_sd w' = STA_NOINIT ∧
        w'.version = 0 ∧ w'.trace = w5.trace ++ [Event.cs_high]) := by
  have hinit : initialize_sd fuel w = voltage_path fuel 0x01 e8 w2 := by
    unfold initialize_sd
    rw [h0]
    dsimp only
    rw [if_pos rfl, h8]
    dsimp only
    rw [if_neg (by decide)]
    rfl
  have hv := voltage_path_rounds fuel j e8 ocr w2 w3 w4 w5 w6 c he8 hj hidle h55 h41 h58 hccs
  have hs6 : w6.status = STA_NOINIT := by
    obtain ⟨_, st0, _⟩ := enter_native_mode_spec w
    rw [(send_command_still h58).status, (send_command_still h41).status,
      (send_command_still h55).status,
      (idle_rounds_still fuel 0x40000000 j w2 w3 hidle).status,
      (send_command_still h8).status, (send_command_still h0).status, st0]
    exact hfresh
  have hclr : (clear_noinit (set_version 3 w6)).status = 0 := by
    show w6.status &&& (0xFF - STA_NOINIT) = 0
    rw [hs6]; decide
  constructor
  · intro hlt
    refine ⟨deselect (clear_noinit (set_version 3 w6)), ?_, hclr, rfl, rfl⟩
    rw [hinit, hv, if_neg (by omega), hclr]
  · intro heq
    refine ⟨(init_failed w5).2, ?_, rfl, rfl, rfl⟩
    rw [hinit, hv, if_pos heq]
    rfl

theorem voltage_check_boundary_witness :
    (∃ c w1 w2 w3 w4 w5 w6,
      (status_sd (init_world 0x01 9999) = STA_NOINIT ∧ 9999 + 1 ≤ 10000 ∧
        send_command 2 CMD0 0 100 none (enter_native_mode (init_world 0x01 9999)) =
          some ((0x01, none), w1) ∧
        send_command 2 CMD8 0x1AA 100 (some 0) w1 = some ((0x01, some 0x1AA), w2) ∧
        0x1AA &&& 0x00000FFF = 0x1AA ∧
        IdleRounds 2 0x40000000 9999 w2 w3 ∧
        send_command 2 CMD55 0 10 none w3 = some (c, w4) ∧
        send_command 2 ACMD41 0x40000000 10 none w4 = some ((0x00, none), w5) ∧
        send_command 2 CMD58 0 10 (some 0x1AA) w5 = some ((0x00, some 0xC0FF8000), w6) ∧
        0xC0FF8000 &&& 0x40000000 ≠ 0) ∧
      ∃ w', initialize_sd 2 (init_world 0x01 9999) = some (STA_NOINIT, w') ∧
        status_sd w' = STA_NOINIT ∧ w'.version = 0 ∧
        w'.trace = w5.trace ++ [Event.cs_high]) ∧
    (∃ c w1 w2 w3 w4 w5 w6,
      (status_sd (init_world 0x01 1) = STA_NOINIT ∧ 1 + 1 ≤ 10000 ∧
        send_command 2 CMD0 0 100 none (enter_native_mode (init_world 0x01 1)) =
          some ((0x01, none), w1) ∧
        send_command 2 CMD8 0x1AA 100 (some 0) w1 = some ((0x01, some 0x1AA), w2) ∧
        0x1AA &&& 0x00000FFF = 0x1AA ∧
        IdleRounds 2 0x40000000 1 w2 w3 ∧
        send_command 2 CMD55 0 10 none w3 = some (c, w4) ∧
        send_command 2 ACMD41 0x40000000 10 none w4 = some ((0x00, none), w5) ∧
        send_command 2 CMD58 0 10 (some 0x1AA) w5 = some ((0x00, some 0xC0FF8000), w6) ∧
        0xC0FF8000 &&& 0x40000000 ≠ 0) ∧
      ∃ w', initialize_sd 2 (init_world 0x01 1) = some (0, w') ∧ status_sd w' = 0 ∧
        w'.version = 3 ∧ w'.trace = w6.trace ++ [Event.cs_high]) := by
  refine ⟨?_, ?_⟩
  case refine_2 =>
    exact ⟨_, _, _, _, _, _, _,
      ⟨rfl, by decide, rfl, rfl, by decide, idle_rounds_succ rfl rfl (idle_rounds_zero _ _ _),
        rfl, rfl, rfl, by decide⟩,
      (voltage_check_boundary 2 1 0x1AA 0xC0FF8000 _ (init_world 0x01 1) _ _ _ _ _ _
        rfl (by decide) rfl rfl (by decide) (idle_rounds_succ rfl rfl (idle_rounds_zero _ _ _))
        rfl rfl rfl (by decide)).1 (by decide)⟩
  have z : (0 : Nat) % 65536 < 500 := by decide
  obtain ⟨w1, w2, h0, h8, hr2, hm2, hc2⟩ : ∃ w1 w2,
      send_command 2 CMD0 0 100 none (enter_native_mode (init_world 0x01 9999)) =
        some ((0x01, none), w1) ∧
      send_command 2 CMD8 0x1AA 100 (some 0) w1 = some ((0x01, some 0x1AA), w2) ∧
      w2.rx = 119 ∧ w2.miso = init_card 0x01 9999 ∧ w2.clock = fun _ => 0 :=
    ⟨_, _, rfl, rfl, rfl, rfl, rfl⟩
  obtain ⟨w3, hidle, hr3, hs3⟩ := idle_rounds_run 2 0x40000000 le_rfl 9999 w2
    (by intro t; rw [hc2]; exact z)
    (by
      intro i hi
      rw [hm2, hr2]
      obtain ⟨a, b, c, d⟩ := init_card_round 0x01 9999 i (by omega)
      rw [a, b, c, d, if_pos hi]
      exact ⟨rfl, rfl, rfl, rfl⟩)
  have hm3 : w3.miso = init_card 0x01 9999 := hs3.miso.trans hm2
  have hc3 : w3.clock = fun _ => 0 := hs3.clock.trans hc2
  have hx3 : w3.rx = 119 + 16 * 9999 := by rw [hr3, hr2]
  have s4 := answered_still CMD55 0 w3
  have h55 := send_command_answer 2 CMD55 0 10 0x01 none w3 le_rfl (by decide) (by decide)
    (by decide) (by decide) (by rw [hc3]; exact z) (by rw [hm3, hx3]; decide)
    (by rw [hm3, hx3]; decide) (by decide)
  have s5 := answered_still ACMD41 0x40000000
    (receive_byte (transmit_frame CMD55 0 (after_ready w3))).2
  have h41 := send_command_answer 2 ACMD41 0x40000000 10 0x00 none
    (receive_byte (transmit_frame CMD55 0 (after_ready w3))).2 le_rfl (by decide) (by decide)
    (by decide) (by decide) (by rw [s4.clock, hc3]; exact z)
    (by rw [s4.miso, answered_rx, hm3, hx3]; decide)
    (by rw [s4.miso, answered_rx, hm3, hx3]; decide) (by decide)
  obtain ⟨w6, h58⟩ := send_command_ocr 2 0 10 0x00 0x1AA
    (receive_byte (transmit_frame ACMD41 0x40000000
      (after_ready (receive_byte (transmit_frame CMD55 0 (after_ready w3))).2))).2 le_rfl
    (by decide) (by rw [s5.clock, s4.clock, hc3]; exact z)
    (by rw [s5.miso, s4.miso, answered_rx, answered_rx, hm3, hx3]; decide)
    (by rw [s5.miso, s4.miso, answered_rx, answered_rx, hm3, hx3]; decide) (by decide)
  rw [s5.miso, s4.miso, answered_rx, answered_rx, hm3, hx3] at h58
  have hocr : init_card 1 9999 (119 + 16 * 9999 + 8 + 8 + 8) % 256 * 2 ^ 24 +
      init_card 1 9999 (119 + 16 * 9999 + 8 + 8 + 9) % 256 * 2 ^ 16 +
      init_card 1 9999 (119 + 16 * 9999 + 8 + 8 + 10) % 256 * 2 ^ 8 +
      init_card 1 9999 (119 + 16 * 9999 + 8 + 8 + 11) % 256 = 0xC0FF8000 := by decide
  rw [hocr] at h58
  exact ⟨_, w1, w2, w3, _, _, w6,
    ⟨rfl, by decide, h0, h8, by decide, hidle, h55, h41, h58, by decide⟩,
    (voltage_check_boundary 2 9999 0x1AA 0xC0FF8000 _ (init_world 0x01 9999) w1 w2 w3 _ _ w6
      rfl (by decide) h0 h8 (by decide) hidle h55 h41 h58 (by decide)).2 rfl⟩

end SDDriver
